import Mathlib

/-!
# Verification of the `solve-triangle` package

Shallow embedding of `src/index.js` of the `solve-triangle` repository.

Modelling conventions:
* JS numbers are modelled as real numbers (`ℝ`); the floating-point NaN value
  only matters for the IEEE-comparison behaviour of the validity check in
  `addSolutionToResult`, which is additionally embedded separately over
  `Option ℝ` (`none` = NaN) as `addSolutionJS`.
* JS `undefined` slots of the six-slot value array are tracked by an explicit
  presence pattern `p : Fin 6 → Bool` next to the value function
  `w : Fin 6 → ℝ` (an absent slot carries the junk value `0`, and is never
  read by the source except through truthiness tests, which the model
  expresses with `Tru`, requiring presence).
* `Math.acos` returns NaN outside `[-1, 1]`; this is embedded as `jsAcos`
  returning `Option ℝ` where it matters (the SSS branch, whose falsy-check
  catches the NaN).  In the SAS branch the argument is provably always in
  range (lemma `sas_ratio_abs_le` below), so `Real.arccos` is used directly;
  in the SSA/ASS branches the guard `D > 1` together with `D > 0` keeps
  `Math.asin`'s argument in range, so `Real.arcsin` is used directly.
* The error strings of the source are embedded as an inductive type carrying
  the interpolated values, so statements about message contents (which
  property conflicted, which values were involved) stay precise.
* `Number()` coercion of string inputs is outside the model: inputs are
  already numbers (`Option ℝ`).
-/

open Real
open Classical

/-- The circular slot order of the solver:
`const order = ["a", "gamma", "b", "alpha", "c", "beta"]`. -/
def order : Fin 6 → String := fun i =>
  if i.val = 0 then "a" else if i.val = 1 then "gamma" else if i.val = 2 then "b"
  else if i.val = 3 then "alpha" else if i.val = 4 then "c" else "beta"

/-- Circular index arithmetic `(x + k) % 6` used throughout the solver. -/
def zmod6 (i : ℤ) : Fin 6 := ⟨(i % 6).toNat, by omega⟩

/-- Read a slot of the value array through circular indexing
(`valArray[(x + k) % 6]`). -/
def rd (w : Fin 6 → ℝ) (i : ℤ) : ℝ := w (zmod6 i)

/-- Write a slot of the value array through circular indexing
(`valArray[(x + k) % 6] = v`). -/
def upd (w : Fin 6 → ℝ) (i : ℤ) (x : ℝ) : Fin 6 → ℝ := Function.update w (zmod6 i) x

/-- Explicit six-slot value array `[a, gamma, b, alpha, c, beta]`. -/
def mkW (x0 x1 x2 x3 x4 x5 : ℝ) : Fin 6 → ℝ := fun i =>
  if i.val = 0 then x0 else if i.val = 1 then x1 else if i.val = 2 then x2
  else if i.val = 3 then x3 else if i.val = 4 then x4 else x5

/-- Explicit six-slot presence pattern (`true` = the input slot was supplied). -/
def mkP (b0 b1 b2 b3 b4 b5 : Bool) : Fin 6 → Bool := fun i =>
  if i.val = 0 then b0 else if i.val = 1 then b1 else if i.val = 2 then b2
  else if i.val = 3 then b3 else if i.val = 4 then b4 else b5

/-- The structured content of the error strings produced by the library. -/
inductive SolveError where
  /-- `Unknown mode: ${mode} - Must be "deg" or "rad"` -/
  | unknownMode (mode : String) : SolveError
  /-- `Illegal value: ${prop} = ... - All side lengths must be numbers >0` /
  `Illegal value: ${prop} = ... - All angle values must be numbers >0 and <180(deg) | <Pi*2(rad)` -/
  | illegalValue (prop : String) : SolveError
  /-- `Unsolvable: At least 3 parameters must be given, inluding one side length.` -/
  | tooFewParameters : SolveError
  /-- `Unsolvable: At least one parameter must be a side length` -/
  | noSideLength : SolveError
  /-- `Unsolvable: Impossible combination of side lengths: ${[a, b, c].join(", ")}` -/
  | impossibleSides (a b c : ℝ) : SolveError
  /-- `Unsolvable: No solution is possible for given parameters.` -/
  | noSolution : SolveError
  /-- `Calculated value for "${property}" different from input: input: ${...} calculated: ${...}` -/
  | inputConflict (prop : String) (input calculated : ℝ) : SolveError
  /-- `Illegal Parameter: ${name}:... - Must be [x,y], {x,y} or {X,Y}.` -/
  | illegalParameter (name : String) : SolveError
  /-- `Repeated Coordinates: ... - Coordinates must be unique.` -/
  | repeatedCoordinates (name1 name2 : String) : SolveError

/-- A circle as produced by `solve` (`{radius}`). -/
structure SolCircle where
  radius : ℝ

/-- A full solution object as produced by `solve`. -/
structure Solution where
  a : ℝ
  b : ℝ
  c : ℝ
  alpha : ℝ
  beta : ℝ
  gamma : ℝ
  area : ℝ
  incircle : SolCircle
  circumcircle : SolCircle
  ha : ℝ
  hb : ℝ
  hc : ℝ

/-- The result object of `solve`: the echoed original parameters
(absent = deleted as `undefined`), the mode, the solutions array and the
optional error message. -/
structure SolveState where
  a : Option ℝ
  b : Option ℝ
  c : Option ℝ
  alpha : Option ℝ
  beta : Option ℝ
  gamma : Option ℝ
  mode : String
  solutions : List Solution
  error : Option SolveError

/-- `equalFloat(f1, f2, maxDifference)`: `|f1 - f2| <= maxDifference`. -/
def equalFloat (f1 f2 maxDifference : ℝ) : Prop := |f1 - f2| ≤ maxDifference

/-- `incircleRadius(a, b, c)` of the source:
`sqrt(((s - a) * (s - b) * (s - c)) / s)` with `s = 0.5 * (a + b + c)`. -/
noncomputable def incircleRadius (a b c : ℝ) : ℝ :=
  Real.sqrt (((0.5 * (a + b + c) - a) * (0.5 * (a + b + c) - b) * (0.5 * (a + b + c) - c)) /
    (0.5 * (a + b + c)))

/-- `Math.acos`: NaN (= `none`) outside `[-1, 1]`. -/
noncomputable def jsAcos (x : ℝ) : Option ℝ :=
  if x < -1 ∨ 1 < x then none else some (Real.arccos x)

/-- The input angle conversion factor `modeInConv` (`toRad` for degree mode). -/
noncomputable def convIn (mode : String) : ℝ := if mode = "deg" then Real.pi / 180 else 1

/-- The output angle conversion factor `modeOutConv` (`toDeg` for degree mode). -/
noncomputable def convOut (mode : String) : ℝ := if mode = "deg" then 180 / Real.pi else 1

/-- The solution object built at the end of `addSolutionToResult` from the
filled value array; angles are converted back by `modeOutConv`. -/
noncomputable def mkSolution (w : Fin 6 → ℝ) (modeOutConv : ℝ) : Solution :=
  { a := w 0
    b := w 2
    c := w 4
    gamma := modeOutConv * w 1
    alpha := modeOutConv * w 3
    beta := modeOutConv * w 5
    area := 0.5 * w 0 * w 2 * Real.sin (w 1)
    incircle := ⟨incircleRadius (w 0) (w 2) (w 4)⟩
    circumcircle := ⟨(w 0 / Real.sin (w 3)) / 2⟩
    ha := (w 2 * w 4) / (2 * ((w 0 / Real.sin (w 3)) / 2))
    hb := (w 0 * w 4) / (2 * ((w 0 / Real.sin (w 3)) / 2))
    hc := (w 0 * w 2) / (2 * ((w 0 / Real.sin (w 3)) / 2)) }

/-- One step of the conflict loop of `addSolutionToResult`: skip the property
when it was not supplied or is falsy (`if (result[property])`), otherwise flag
a conflict when `equalFloat` fails. -/
noncomputable def conflictAt (inp : Option ℝ) (calcv : ℝ) (name : String) : Option SolveError :=
  match inp with
  | none => none
  | some x => if x ≠ 0 ∧ ¬ equalFloat x calcv 0.001 then some (.inputConflict name x calcv) else none

/-- The conflict loop of `addSolutionToResult` over the six properties in
`order`, returning the first conflict found. -/
noncomputable def firstConflict (st : SolveState) (w : Fin 6 → ℝ) (conv : ℝ) :
    Option SolveError :=
  match conflictAt st.a (w 0) "a" with
  | some e => some e
  | none =>
    match conflictAt st.gamma (conv * w 1) "gamma" with
    | some e => some e
    | none =>
      match conflictAt st.b (w 2) "b" with
      | some e => some e
      | none =>
        match conflictAt st.alpha (conv * w 3) "alpha" with
        | some e => some e
        | none =>
          match conflictAt st.c (w 4) "c" with
          | some e => some e
          | none => conflictAt st.beta (conv * w 5) "beta"

/-- `addSolutionToResult(valArray, result, parameterCount)`: conflict check
against redundant inputs when more than 3 were supplied, then range validity
of the candidate, then construction and push of the solution object. -/
noncomputable def addSolutionToResult (w : Fin 6 → ℝ) (st : SolveState) (parameterCount : ℕ) :
    SolveState :=
  let modeOutConv := convOut st.mode
  let step2 : SolveState :=
    if (w 1 ≤ 0 ∨ Real.pi ≤ w 1) ∨ (w 3 ≤ 0 ∨ Real.pi ≤ w 3) ∨ (w 5 ≤ 0 ∨ Real.pi ≤ w 5) then
      { st with error := some .noSolution }
    else if w 0 ≤ 0 ∨ w 2 ≤ 0 ∨ w 4 ≤ 0 then
      { st with error := some .noSolution }
    else
      { st with solutions := st.solutions ++ [mkSolution w modeOutConv] }
  if 3 < parameterCount then
    match firstConflict st w modeOutConv with
    | some e => { st with error := some e }
    | none => step2
  else step2

/-- Side validation of the input loop: a supplied side must be `> 0`
(`Number.isNaN(num) || num <= 0`). -/
def sideBadP (o : Option ℝ) : Prop :=
  match o with
  | none => False
  | some x => x ≤ 0

/-- Angle validation of the input loop: a supplied angle, after conversion to
radians, must satisfy `0 < x < π` (`num <= 0 || num >= angleSum`). -/
def angleBadP (conv : ℝ) (o : Option ℝ) : Prop :=
  match o with
  | none => False
  | some x => conv * x ≤ 0 ∨ Real.pi ≤ conv * x

/-- The validated value array `[a, gamma, b, alpha, c, beta]`; supplied angles
are converted to radians, absent slots hold the junk value `0` (never read,
see `Tru`). -/
noncomputable def valArrayOf (a b c alpha beta gamma : Option ℝ) (conv : ℝ) : Fin 6 → ℝ :=
  mkW (a.getD 0) (conv * gamma.getD 0) (b.getD 0) (conv * alpha.getD 0) (c.getD 0)
    (conv * beta.getD 0)

/-- The presence pattern of the six input slots. -/
def presOf (a b c alpha beta gamma : Option ℝ) : Fin 6 → Bool :=
  mkP a.isSome gamma.isSome b.isSome alpha.isSome c.isSome beta.isSome

/-- `sideCount`: number of supplied side slots. -/
def sideCountP (p : Fin 6 → Bool) : ℕ := (p 0).toNat + (p 2).toNat + (p 4).toNat

/-- `angleCount`: number of supplied angle slots. -/
def angleCountP (p : Fin 6 → Bool) : ℕ := (p 1).toNat + (p 3).toNat + (p 5).toNat

/-- `firstSide`: linearly first supplied side index (`-1` when none). -/
def firstSideIdx (p : Fin 6 → Bool) : ℤ :=
  if p 0 then 0 else if p 2 then 2 else if p 4 then 4 else -1

/-- `firstAngle`: linearly first supplied angle index (`-1` when none). -/
def firstAngleIdx (p : Fin 6 → Bool) : ℤ :=
  if p 1 then 1 else if p 3 then 3 else if p 5 then 5 else -1

/-- JS truthiness of a value-array slot (`if (valArray[i])`): the slot is
present (not `undefined`) and its value is nonzero.  (Validated slots are
positive, so for them this coincides with presence.) -/
def Tru (p : Fin 6 → Bool) (w : Fin 6 → ℝ) (i : ℤ) : Prop :=
  p (zmod6 i) = true ∧ rd w i ≠ 0

/-- The SSS branch: both `Math.acos` applications through `jsAcos`; a NaN or
falsy slot triggers the impossible-combination error (`valArray.some(x => !x)`
catches both `NaN` and `0`). -/
noncomputable def solveSSS (a b c : ℝ) (w : Fin 6 → ℝ) (st : SolveState) (pc : ℕ) : SolveState :=
  match jsAcos ((b ^ 2 + c ^ 2 - a ^ 2) / (2 * b * c)),
        jsAcos ((a ^ 2 + c ^ 2 - b ^ 2) / (2 * a * c)) with
  | some alpha1, some beta1 =>
    let w2 := upd (upd (upd w 3 alpha1) 5 beta1) 1 (Real.pi - alpha1 - beta1)
    if ∃ i : Fin 6, w2 i = 0 then { st with error := some (.impossibleSides a b c) }
    else addSolutionToResult w2 st pc
  | _, _ => { st with error := some (.impossibleSides a b c) }

/-- The ASA branch. -/
noncomputable def solveASA (w : Fin 6 → ℝ) (st : SolveState) (pc : ℕ) (fs : ℤ) : SolveState :=
  let w1 := upd w (fs + 3) (Real.pi - rd w (fs + 5) - rd w (fs + 1))
  let w2 := upd w1 (fs + 2) (rd w1 fs * (Real.sin (rd w1 (fs + 5)) / Real.sin (rd w1 (fs + 3))))
  let w3 := upd w2 (fs + 4) (rd w2 fs * (Real.sin (rd w2 (fs + 7)) / Real.sin (rd w2 (fs + 3))))
  addSolutionToResult w3 st pc

/-- The SAS branch.  `Math.acos` is `Real.arccos` here: its argument is always
within `[-1, 1]` (lemma `sas_ratio_abs_le`), so the JS NaN case cannot occur. -/
noncomputable def solveSAS (w : Fin 6 → ℝ) (st : SolveState) (pc : ℕ) (fa : ℤ) : SolveState :=
  let side1 := rd w (fa + 5)
  let side2 := rd w (fa + 1)
  let side3 := Real.sqrt (side1 ^ 2 + side2 ^ 2 - 2 * side1 * side2 * Real.cos (rd w fa))
  let w1 := upd w (fa + 3) side3
  let w2 := upd w1 (fa + 2) (Real.arccos ((side3 ^ 2 + side2 ^ 2 - side1 ^ 2) / (2 * side3 * side2)))
  let w3 := upd w2 (fa + 4) (Real.pi - rd w2 (fa + 2) - rd w2 fa)
  addSolutionToResult w3 st pc

/-- The SAA branch. -/
noncomputable def solveSAA (w : Fin 6 → ℝ) (st : SolveState) (pc : ℕ) (fs : ℤ) : SolveState :=
  let w1 := upd w (fs + 5) (Real.pi - rd w (fs + 1) - rd w (fs + 3))
  let w2 := upd w1 (fs + 2) (rd w1 fs * (Real.sin (rd w1 (fs + 5)) / Real.sin (rd w1 (fs + 3))))
  let w3 := upd w2 (fs + 4) (rd w2 fs * (Real.sin (rd w2 (fs + 7)) / Real.sin (rd w2 (fs + 3))))
  addSolutionToResult w3 st pc

/-- The AAS branch. -/
noncomputable def solveAAS (w : Fin 6 → ℝ) (st : SolveState) (pc : ℕ) (fs : ℤ) : SolveState :=
  let w1 := upd w (fs + 1) (Real.pi - rd w (fs + 5) - rd w (fs + 3))
  let w2 := upd w1 (fs + 2) (rd w1 fs * (Real.sin (rd w1 (fs + 5)) / Real.sin (rd w1 (fs + 3))))
  let w3 := upd w2 (fs + 4) (rd w2 fs * (Real.sin (rd w2 (fs + 7)) / Real.sin (rd w2 (fs + 3))))
  addSolutionToResult w3 st pc

/-- The SSA (ambiguous) branch.  `Math.asin` is `Real.arcsin`: the guard
`D > 1` and positivity of `D` keep its argument within range. -/
noncomputable def solveSSA (w : Fin 6 → ℝ) (st : SolveState) (pc : ℕ) (fa : ℤ) : SolveState :=
  let s1 := rd w (fa + 3)
  let s2 := rd w (fa + 5)
  let angle := rd w fa
  let D := (s2 / s1) * Real.sin angle
  if 1 < D then { st with error := some .noSolution }
  else if s2 ≤ s1 then
    let w1 := upd w (fa + 2) (if D = 1 then Real.pi / 2 else Real.arcsin D)
    let w2 := upd w1 (fa + 4) (Real.pi - angle - rd w1 (fa + 2))
    let w3 := upd w2 (fa + 1) (s1 * (Real.sin (rd w2 (fa + 4)) / Real.sin angle))
    addSolutionToResult w3 st pc
  else
    let mysteryAngle := Real.arcsin D
    let w1 := upd w (fa + 2) mysteryAngle
    let w2 := upd w1 (fa + 4) (Real.pi - angle - rd w1 (fa + 2))
    let w3 := upd w2 (fa + 1) (s1 * (Real.sin (rd w2 (fa + 4)) / Real.sin angle))
    let st1 := addSolutionToResult w3 st pc
    let v1 := upd w3 (fa + 2) (Real.pi - mysteryAngle)
    let v2 := upd v1 (fa + 4) (Real.pi - angle - rd v1 (fa + 2))
    let v3 := upd v2 (fa + 1) (s1 * (Real.sin (rd v2 (fa + 4)) / Real.sin angle))
    addSolutionToResult v3 st1 pc

/-- The ASS branch (mirror of SSA at rotated offsets). -/
noncomputable def solveASS (w : Fin 6 → ℝ) (st : SolveState) (pc : ℕ) (fa : ℤ) : SolveState :=
  let angle := rd w fa
  let s1 := rd w (fa + 3)
  let s2 := rd w (fa + 1)
  let D := (s2 / s1) * Real.sin angle
  if 1 < D then { st with error := some .noSolution }
  else if s2 ≤ s1 then
    let w1 := upd w (fa + 4) (if D = 1 then Real.pi / 2 else Real.arcsin D)
    let w2 := upd w1 (fa + 2) (Real.pi - angle - rd w1 (fa + 4))
    let w3 := upd w2 (fa + 5) (s1 * (Real.sin (rd w2 (fa + 2)) / Real.sin angle))
    addSolutionToResult w3 st pc
  else
    let mysteryAngle := Real.arcsin D
    let w1 := upd w (fa + 4) mysteryAngle
    let w2 := upd w1 (fa + 2) (Real.pi - angle - rd w1 (fa + 4))
    let w3 := upd w2 (fa + 5) (s1 * (Real.sin (rd w2 (fa + 2)) / Real.sin angle))
    let st1 := addSolutionToResult w3 st pc
    let v1 := upd w3 (fa + 4) (Real.pi - mysteryAngle)
    let v2 := upd v1 (fa + 2) (Real.pi - angle - rd v1 (fa + 4))
    let v3 := upd v2 (fa + 5) (s1 * (Real.sin (rd v2 (fa + 2)) / Real.sin angle))
    addSolutionToResult v3 st1 pc

/-- The entry condition of the ASA branch. -/
def CondASA (p : Fin 6 → Bool) (w : Fin 6 → ℝ) (fs : ℤ) : Prop :=
  Tru p w (fs + 5) ∧ Tru p w (fs + 1)

/-- The entry condition of the SAS branch. -/
def CondSAS (p : Fin 6 → Bool) (w : Fin 6 → ℝ) (fa : ℤ) : Prop :=
  Tru p w (fa + 5) ∧ Tru p w (fa + 1)

/-- The entry condition of the SAA branch. -/
def CondSAA (p : Fin 6 → Bool) (w : Fin 6 → ℝ) (fs : ℤ) : Prop :=
  Tru p w (fs + 1) ∧ Tru p w (fs + 3)

/-- The entry condition of the AAS branch. -/
def CondAAS (p : Fin 6 → Bool) (w : Fin 6 → ℝ) (fs : ℤ) : Prop :=
  Tru p w (fs + 5) ∧ Tru p w (fs + 3)

/-- The entry condition of the SSA branch. -/
def CondSSA (p : Fin 6 → Bool) (w : Fin 6 → ℝ) (fa : ℤ) : Prop :=
  Tru p w (fa + 5) ∧ Tru p w (fa + 3)

/-- The entry condition of the ASS branch. -/
def CondASS (p : Fin 6 → Bool) (w : Fin 6 → ℝ) (fa : ℤ) : Prop :=
  Tru p w (fa + 1) ∧ Tru p w (fa + 3)

/-- The case dispatch of `solve` after validation, in source order. -/
noncomputable def dispatch (a b c : ℝ) (w : Fin 6 → ℝ) (p : Fin 6 → Bool) (st : SolveState)
    (pc sc : ℕ) (fs fa : ℤ) : SolveState :=
  if sc = 3 then solveSSS a b c w st pc
  else if CondASA p w fs then solveASA w st pc fs
  else if CondSAS p w fa then solveSAS w st pc fa
  else if CondSAA p w fs then solveSAA w st pc fs
  else if CondAAS p w fs then solveAAS w st pc fs
  else if CondSSA p w fa then solveSSA w st pc fa
  else if CondASS p w fa then solveASS w st pc fa
  else st

/-- `solve({a, b, c, alpha, beta, gamma, mode})`: mode check, input
validation (sides then angles, in slot order), parameter-count checks, then
the case dispatch. -/
noncomputable def solve (a b c alpha beta gamma : Option ℝ) (mode : String) : SolveState :=
  let st : SolveState := ⟨a, b, c, alpha, beta, gamma, mode, [], none⟩
  if ¬(mode = "deg" ∨ mode = "rad") then { st with error := some (.unknownMode mode) }
  else
    let conv := convIn mode
    if sideBadP a then { st with error := some (.illegalValue "a") }
    else if sideBadP b then { st with error := some (.illegalValue "b") }
    else if sideBadP c then { st with error := some (.illegalValue "c") }
    else if angleBadP conv gamma then { st with error := some (.illegalValue "gamma") }
    else if angleBadP conv alpha then { st with error := some (.illegalValue "alpha") }
    else if angleBadP conv beta then { st with error := some (.illegalValue "beta") }
    else
      let p := presOf a b c alpha beta gamma
      let w := valArrayOf a b c alpha beta gamma conv
      let pc := sideCountP p + angleCountP p
      if pc < 3 then { st with error := some .tooFewParameters }
      else if sideCountP p = 0 then { st with error := some .noSideLength }
      else dispatch (a.getD 0) (b.getD 0) (c.getD 0) w p st pc (sideCountP p)
        (firstSideIdx p) (firstAngleIdx p)

/-! ## IEEE-semantics embedding of the validity check of `addSolutionToResult`

`Option ℝ` with `none` = NaN; a JS comparison involving NaN is `False`. -/

/-- JS `x <= y` over IEEE values (`none` = NaN): false when either side is NaN. -/
def jsLe (x y : Option ℝ) : Prop :=
  match x, y with
  | some a, some b => a ≤ b
  | _, _ => False

/-- The accept/reject decision of the validity step of `addSolutionToResult`
(lines 63–97 of the source) over IEEE values: the candidate is rejected with
the `Unsolvable: No solution` error when some angle slot compares `<= 0` or
`>= angleSum`, or some side slot compares `<= 0`; otherwise the candidate is
appended.  (NaN fails every comparison, so a NaN slot never causes
rejection.) -/
noncomputable def addSolutionJS (w : Fin 6 → Option ℝ) (sols : List (Fin 6 → Option ℝ)) :
    List (Fin 6 → Option ℝ) × Option SolveError :=
  if jsLe (w 1) (some 0) ∨ jsLe (some Real.pi) (w 1) ∨ jsLe (w 3) (some 0) ∨
      jsLe (some Real.pi) (w 3) ∨ jsLe (w 5) (some 0) ∨ jsLe (some Real.pi) (w 5) then
    (sols, some .noSolution)
  else if jsLe (w 0) (some 0) ∨ jsLe (w 2) (some 0) ∨ jsLe (w 4) (some 0) then
    (sols, some .noSolution)
  else (sols ++ [w], none)

/-! ## The coordinate path: `pointToArray`, `checkCoordinate`, `distance`,
`barycentricToCartesian`, `solvePoints`

JS exceptions escaping the interface are modelled with `Except Unit`
(`Except.error ()` = a thrown `TypeError`). -/

/-- A JS value passed as a point argument. -/
inductive JSPoint where
  /-- the JS value `null` (note `typeof null === "object"`). -/
  | null : JSPoint
  /-- the JS value `undefined`. -/
  | undef : JSPoint
  /-- any other non-object primitive (number, string, boolean, ...). -/
  | prim : JSPoint
  /-- an array of numbers. -/
  | arr (elems : List ℝ) : JSPoint
  /-- an object; each of the own properties `x`, `y`, `X`, `Y` is either
  absent (`none`) or a number. -/
  | obj (x y X Y : Option ℝ) : JSPoint

/-- `checkCoordinate(p)`.  `typeof null === "object"` passes the first guard
and `Array.isArray(null)` is false, so `Object.hasOwn(null, "x")` throws a
`TypeError` — modelled as `Except.error ()`.  An array of fewer than 2
elements falls through the length test to the (false) `hasOwn` tests. -/
def checkCoordinate (p : JSPoint) : Except Unit Bool :=
  match p with
  | .null => .error ()
  | .undef => .ok false
  | .prim => .ok false
  | .arr es => .ok (decide (2 ≤ es.length))
  | .obj x y X Y => .ok ((x.isSome && y.isSome) || (X.isSome && Y.isSome))

/-- `pointToArray(point)`: `Object.hasOwn` on `null`/`undefined` throws;
non-coordinate objects yield JS `null` (modelled `Option.none`); an object
with `x` but without `y` yields `[x, undefined]`, modelled as the
one-element list (out-of-range access is `undefined` either way). -/
def pointToArray (p : JSPoint) : Except Unit (Option (List ℝ)) :=
  match p with
  | .arr es => .ok (some es)
  | .null => .error ()
  | .undef => .error ()
  | .prim => .ok none
  | .obj x y X Y =>
    match x with
    | some xv =>
      .ok (some (match y with
        | some yv => [xv, yv]
        | none => [xv]))
    | none =>
      match X with
      | some Xv =>
        .ok (some (match Y with
          | some Yv => [Xv, Yv]
          | none => [Xv]))
      | none => .ok none

/-- `distance(p1, p2)` (`Math.hypot(p1[0] - p2[0], p1[1] - p2[1])`): indexing
the JS `null` returned by `pointToArray` for a non-coordinate object throws;
an `undefined` coordinate makes the result NaN (`none`). -/
noncomputable def distance (p1 p2 : JSPoint) : Except Unit (Option ℝ) :=
  match pointToArray p1 with
  | .error e => .error e
  | .ok o1 =>
    match pointToArray p2 with
    | .error e => .error e
    | .ok o2 =>
      match o1 with
      | none => .error ()
      | some l1 =>
        match o2 with
        | none => .error ()
        | some l2 =>
          .ok (match l1.get? 0, l1.get? 1, l2.get? 0, l2.get? 1 with
            | some ax, some ay, some bx, some b2 =>
              some (Real.sqrt ((ax - bx) ^ 2 + (ay - b2) ^ 2))
            | _, _, _, _ => none)

/-- `barycentricToCartesian(p1, p2, p3, bary)` on array-based points
(weights normalised by their sum, then a weighted coordinate sum). -/
noncomputable def barycentricToCartesian (q1 q2 q3 : List ℝ) (b1 b2 b3 : ℝ) : ℝ × ℝ :=
  (b1 / (b1 + b2 + b3) * q1.getD 0 0 + b2 / (b1 + b2 + b3) * q2.getD 0 0 +
      b3 / (b1 + b2 + b3) * q3.getD 0 0,
    b1 / (b1 + b2 + b3) * q1.getD 1 0 + b2 / (b1 + b2 + b3) * q2.getD 1 0 +
      b3 / (b1 + b2 + b3) * q3.getD 1 0)

/-- `Math.acos((u^2 + v^2 - s^2) / (2*u*v))` over IEEE values: NaN
propagates, and a zero divisor gives `±Infinity`/`NaN`, whose arc cosine is
NaN in every case. -/
noncomputable def lawCosAngle (u v s : Option ℝ) : Option ℝ :=
  match u, v, s with
  | some uv, some vv, some sv =>
    if uv * vv = 0 then none else jsAcos ((uv ^ 2 + vv ^ 2 - sv ^ 2) / (2 * uv * vv))
  | _, _, _ => none

/-- IEEE subtraction: NaN propagates. -/
def jsSub2 (x y : Option ℝ) : Option ℝ :=
  match x, y with
  | some a, some b => some (a - b)
  | _, _ => none

/-- JS falsiness of a computed angle (`!x`): NaN or `0`. -/
def isFalsy (o : Option ℝ) : Prop := o = none ∨ o = some 0

/-- A circle as produced by `solvePoints` (`{center, radius}`). -/
structure SolCircleC where
  center : ℝ × ℝ
  radius : ℝ

/-- A solution object as produced by `solvePoints`. -/
structure PointSolution where
  angleA : ℝ
  angleB : ℝ
  angleC : ℝ
  sideAB : ℝ
  sideBC : ℝ
  sideCA : ℝ
  a : ℝ
  b : ℝ
  c : ℝ
  alpha : ℝ
  beta : ℝ
  gamma : ℝ
  area : ℝ
  centroid : ℝ × ℝ
  incircle : SolCircleC
  circumcircle : SolCircleC
  ha : ℝ
  hb : ℝ
  hc : ℝ

/-- The result object of `solvePoints`. -/
structure PointsResult where
  A : JSPoint
  B : JSPoint
  C : JSPoint
  mode : String
  solutions : List PointSolution
  error : Option SolveError

/-- The coordinate list of a validated point (total helper; only evaluated on
points for which `checkCoordinate` returned `.ok true`, where it agrees with
`pointToArray`). -/
def ptList (p : JSPoint) : List ℝ :=
  match p with
  | .arr es => es
  | .obj x y X Y =>
    match x with
    | some xv =>
      (match y with
        | some yv => [xv, yv]
        | none => [xv])
    | none =>
      match X with
      | some Xv =>
        (match Y with
          | some Yv => [Xv, Yv]
          | none => [Xv])
      | none => []
  | _ => []

/-- `solvePoints(A, B, C, mode)`: coordinate validation (throwing on `null`
point arguments, see `checkCoordinate`), duplicate-coordinate rejection, mode
check, law-of-cosines angles with a falsy-check, then the solution object
with centroid, incircle, circumcircle and altitudes. -/
noncomputable def solvePoints (A B C : JSPoint) (mode : String) : Except Unit PointsResult :=
  let base : PointsResult := ⟨A, B, C, mode, [], none⟩
  match checkCoordinate A with
  | .error e => .error e
  | .ok false => .ok { base with error := some (.illegalParameter "A") }
  | .ok true =>
    match checkCoordinate B with
    | .error e => .error e
    | .ok false => .ok { base with error := some (.illegalParameter "B") }
    | .ok true =>
      match checkCoordinate C with
      | .error e => .error e
      | .ok false => .ok { base with error := some (.illegalParameter "C") }
      | .ok true =>
        match distance A B with
        | .error e => .error e
        | .ok dAB =>
          if dAB = some 0 then .ok { base with error := some (.repeatedCoordinates "A" "B") }
          else
            match distance B C with
            | .error e => .error e
            | .ok dBC =>
              if dBC = some 0 then .ok { base with error := some (.repeatedCoordinates "B" "C") }
              else
                match distance C A with
                | .error e => .error e
                | .ok dCA =>
                  if dCA = some 0 then
                    .ok { base with error := some (.repeatedCoordinates "C" "A") }
                  else
                    match distance A B, distance B C, distance C A with
                    | .ok sideAB, .ok sideBC, .ok sideCA =>
                      if ¬(mode = "deg" ∨ mode = "rad") then
                        .ok { base with error := some (.unknownMode mode) }
                      else
                        let conv := convOut mode
                        let angleA := lawCosAngle sideCA sideAB sideBC
                        let angleB := lawCosAngle sideBC sideAB sideCA
                        let angleC := jsSub2 (jsSub2 (some Real.pi) angleA) angleB
                        let degErr : Option SolveError :=
                          some (SolveError.impossibleSides (sideBC.getD 0) (sideCA.getD 0)
                            (sideAB.getD 0))
                        if isFalsy angleA ∨ isFalsy angleB ∨ isFalsy angleC then
                          .ok { base with error := degErr }
                        else
                          let aA := angleA.getD 0
                          let aB := angleB.getD 0
                          let aC := angleC.getD 0
                          let sAB := sideAB.getD 0
                          let sBC := sideBC.getD 0
                          let sCA := sideCA.getD 0
                          let pA := ptList A
                          let pB := ptList B
                          let pC := ptList C
                          let R := (sBC / Real.sin aA) / 2
                          .ok { base with solutions := [{
                            angleA := conv * aA
                            angleB := conv * aB
                            angleC := conv * aC
                            sideAB := sAB
                            sideBC := sBC
                            sideCA := sCA
                            a := sBC
                            b := sCA
                            c := sAB
                            alpha := conv * aA
                            beta := conv * aB
                            gamma := conv * aC
                            area := 0.5 * sAB * sBC * Real.sin aB
                            centroid := barycentricToCartesian pA pB pC (1 / 3) (1 / 3) (1 / 3)
                            incircle := ⟨barycentricToCartesian pA pB pC sBC sCA sAB,
                              incircleRadius sAB sBC sCA⟩
                            circumcircle := ⟨barycentricToCartesian pA pB pC
                              (Real.sin (2 * aA)) (Real.sin (2 * aB)) (Real.sin (2 * aC)), R⟩
                            ha := (sCA * sAB) / (2 * R)
                            hb := (sBC * sAB) / (2 * R)
                            hc := (sBC * sCA) / (2 * R) }] }
                    | _, _, _ => .error ()

/-- Validity check of the candidate in `addSolutionToResult`: every angle slot
strictly between `0` and `π` and every side slot strictly positive (the
negation of the two rejection tests of lines 65–73). -/
def ValidCand (w : Fin 6 → ℝ) : Prop :=
  (0 < w 1 ∧ w 1 < Real.pi) ∧ (0 < w 3 ∧ w 3 < Real.pi) ∧ (0 < w 5 ∧ w 5 < Real.pi) ∧
    0 < w 0 ∧ 0 < w 2 ∧ 0 < w 4

/-- A filled value array describing a genuine triangle: valid ranges, exact
angle sum `π`, and the law of sines (a common positive circumdiameter `k`
relating each side to the sine of its opposite angle; slot `i` is opposite
slot `(i + 3) % 6`). -/
def GoodW (w : Fin 6 → ℝ) : Prop :=
  ValidCand w ∧ w 1 + w 3 + w 5 = Real.pi ∧
    ∃ k, 0 < k ∧ w 0 = k * Real.sin (w 3) ∧ w 2 = k * Real.sin (w 5) ∧ w 4 = k * Real.sin (w 1)

/-- The input validation of `solve` succeeds: known mode, supplied sides
positive, supplied angles (after conversion) in `(0, π)`. -/
def ValidInput (a b c alpha beta gamma : Option ℝ) (mode : String) : Prop :=
  (mode = "deg" ∨ mode = "rad") ∧
    ¬ sideBadP a ∧ ¬ sideBadP b ∧ ¬ sideBadP c ∧
    ¬ angleBadP (convIn mode) gamma ∧ ¬ angleBadP (convIn mode) alpha ∧
    ¬ angleBadP (convIn mode) beta

/-- The input reaches the SSA branch of `solve`: validation succeeds, the
parameter-count guards pass, the input is not SSS, none of the earlier
branch conditions fires, and the SSA condition fires. -/
noncomputable def ReachesSSA (a b c alpha beta gamma : Option ℝ) (mode : String) : Prop :=
  let p := presOf a b c alpha beta gamma
  let w := valArrayOf a b c alpha beta gamma (convIn mode)
  let fs := firstSideIdx p
  let fa := firstAngleIdx p
  ValidInput a b c alpha beta gamma mode ∧
    3 ≤ sideCountP p + angleCountP p ∧ 1 ≤ sideCountP p ∧ sideCountP p ≠ 3 ∧
    ¬ CondASA p w fs ∧ ¬ CondSAS p w fa ∧ ¬ CondSAA p w fs ∧ ¬ CondAAS p w fs ∧
    CondSSA p w fa

/-- The input reaches the ASS branch of `solve`. -/
noncomputable def ReachesASS (a b c alpha beta gamma : Option ℝ) (mode : String) : Prop :=
  let p := presOf a b c alpha beta gamma
  let w := valArrayOf a b c alpha beta gamma (convIn mode)
  let fs := firstSideIdx p
  let fa := firstAngleIdx p
  ValidInput a b c alpha beta gamma mode ∧
    3 ≤ sideCountP p + angleCountP p ∧ 1 ≤ sideCountP p ∧ sideCountP p ≠ 3 ∧
    ¬ CondASA p w fs ∧ ¬ CondSAS p w fa ∧ ¬ CondSAA p w fs ∧ ¬ CondAAS p w fs ∧
    ¬ CondSSA p w fa ∧ CondASS p w fa

/-! ## Infrastructure lemmas: circular indexing -/

theorem zmod6_eq_iff {a b : ℤ} : zmod6 a = zmod6 b ↔ a % 6 = b % 6 := by
  unfold zmod6
  constructor
  · intro h
    have h2 : ((a % 6).toNat : ℤ) = ((b % 6).toNat : ℤ) := by
      exact_mod_cast congrArg Fin.val h
    omega
  · intro h
    simp [h]

theorem rd_upd_eq {w : Fin 6 → ℝ} {a b : ℤ} {x : ℝ} (h : a % 6 = b % 6) :
    rd (upd w a x) b = x := by
  unfold rd upd
  rw [Function.update_apply, if_pos (zmod6_eq_iff.2 h.symm)]

theorem rd_upd_ne {w : Fin 6 → ℝ} {a b : ℤ} {x : ℝ} (h : ¬ a % 6 = b % 6) :
    rd (upd w a x) b = rd w b := by
  unfold rd upd
  rw [Function.update_apply, if_neg]
  intro hc
  exact h (zmod6_eq_iff.1 hc).symm

theorem rd_at_0 (w : Fin 6 → ℝ) : rd w 0 = w 0 := rfl

theorem rd_at_1 (w : Fin 6 → ℝ) : rd w 1 = w 1 := rfl

theorem rd_at_2 (w : Fin 6 → ℝ) : rd w 2 = w 2 := rfl

theorem rd_at_3 (w : Fin 6 → ℝ) : rd w 3 = w 3 := rfl

theorem rd_at_4 (w : Fin 6 → ℝ) : rd w 4 = w 4 := rfl

theorem rd_at_5 (w : Fin 6 → ℝ) : rd w 5 = w 5 := rfl

theorem mkW_at_0 (x0 x1 x2 x3 x4 x5 : ℝ) : mkW x0 x1 x2 x3 x4 x5 0 = x0 := rfl

theorem mkW_at_1 (x0 x1 x2 x3 x4 x5 : ℝ) : mkW x0 x1 x2 x3 x4 x5 1 = x1 := rfl

theorem mkW_at_2 (x0 x1 x2 x3 x4 x5 : ℝ) : mkW x0 x1 x2 x3 x4 x5 2 = x2 := rfl

theorem mkW_at_3 (x0 x1 x2 x3 x4 x5 : ℝ) : mkW x0 x1 x2 x3 x4 x5 3 = x3 := rfl

theorem mkW_at_4 (x0 x1 x2 x3 x4 x5 : ℝ) : mkW x0 x1 x2 x3 x4 x5 4 = x4 := rfl

theorem mkW_at_5 (x0 x1 x2 x3 x4 x5 : ℝ) : mkW x0 x1 x2 x3 x4 x5 5 = x5 := rfl

theorem mkP_at_0 (b0 b1 b2 b3 b4 b5 : Bool) : mkP b0 b1 b2 b3 b4 b5 0 = b0 := rfl

theorem mkP_at_1 (b0 b1 b2 b3 b4 b5 : Bool) : mkP b0 b1 b2 b3 b4 b5 1 = b1 := rfl

theorem mkP_at_2 (b0 b1 b2 b3 b4 b5 : Bool) : mkP b0 b1 b2 b3 b4 b5 2 = b2 := rfl

theorem mkP_at_3 (b0 b1 b2 b3 b4 b5 : Bool) : mkP b0 b1 b2 b3 b4 b5 3 = b3 := rfl

theorem mkP_at_4 (b0 b1 b2 b3 b4 b5 : Bool) : mkP b0 b1 b2 b3 b4 b5 4 = b4 := rfl

theorem mkP_at_5 (b0 b1 b2 b3 b4 b5 : Bool) : mkP b0 b1 b2 b3 b4 b5 5 = b5 := rfl

/-! ## Characterisation of `addSolutionToResult` -/

theorem validCand_iff (w : Fin 6 → ℝ) :
    ValidCand w ↔
      ¬(((w 1 ≤ 0 ∨ Real.pi ≤ w 1) ∨ (w 3 ≤ 0 ∨ Real.pi ≤ w 3) ∨ (w 5 ≤ 0 ∨ Real.pi ≤ w 5)) ∨
        (w 0 ≤ 0 ∨ w 2 ≤ 0 ∨ w 4 ≤ 0)) := by
  unfold ValidCand
  simp only [not_or, not_le]
  tauto

theorem addSolution_conflict {w : Fin 6 → ℝ} {st : SolveState} {pc : ℕ} {e : SolveError}
    (h : 3 < pc) (hc : firstConflict st w (convOut st.mode) = some e) :
    addSolutionToResult w st pc = { st with error := some e } := by
  unfold addSolutionToResult
  rw [if_pos h, hc]

theorem addSolution_invalid {w : Fin 6 → ℝ} {st : SolveState} {pc : ℕ}
    (hnc : 3 < pc → firstConflict st w (convOut st.mode) = none) (hv : ¬ ValidCand w) :
    addSolutionToResult w st pc = { st with error := some .noSolution } := by
  rw [validCand_iff, not_not] at hv
  unfold addSolutionToResult
  rcases hv with hv | hv
  · by_cases h3 : 3 < pc
    · rw [if_pos h3, hnc h3]
      simp only [if_pos hv]
    · rw [if_neg h3]
      simp only [if_pos hv]
  · have step : (if (w 1 ≤ 0 ∨ Real.pi ≤ w 1) ∨ (w 3 ≤ 0 ∨ Real.pi ≤ w 3) ∨
        (w 5 ≤ 0 ∨ Real.pi ≤ w 5) then { st with error := some SolveError.noSolution }
        else if w 0 ≤ 0 ∨ w 2 ≤ 0 ∨ w 4 ≤ 0 then { st with error := some SolveError.noSolution }
        else { st with solutions := st.solutions ++ [mkSolution w (convOut st.mode)] }) =
        { st with error := some SolveError.noSolution } := by
      by_cases ha : (w 1 ≤ 0 ∨ Real.pi ≤ w 1) ∨ (w 3 ≤ 0 ∨ Real.pi ≤ w 3) ∨
          (w 5 ≤ 0 ∨ Real.pi ≤ w 5)
      · rw [if_pos ha]
      · rw [if_neg ha, if_pos hv]
    by_cases h3 : 3 < pc
    · rw [if_pos h3, hnc h3]
      exact step
    · rw [if_neg h3]
      exact step

theorem addSolution_push {w : Fin 6 → ℝ} {st : SolveState} {pc : ℕ}
    (hnc : 3 < pc → firstConflict st w (convOut st.mode) = none) (hv : ValidCand w) :
    addSolutionToResult w st pc =
      { st with solutions := st.solutions ++ [mkSolution w (convOut st.mode)] } := by
  have hv2 := (validCand_iff w).1 hv
  rw [not_or] at hv2
  unfold addSolutionToResult
  have step : (if (w 1 ≤ 0 ∨ Real.pi ≤ w 1) ∨ (w 3 ≤ 0 ∨ Real.pi ≤ w 3) ∨
      (w 5 ≤ 0 ∨ Real.pi ≤ w 5) then { st with error := some SolveError.noSolution }
      else if w 0 ≤ 0 ∨ w 2 ≤ 0 ∨ w 4 ≤ 0 then { st with error := some SolveError.noSolution }
      else { st with solutions := st.solutions ++ [mkSolution w (convOut st.mode)] }) =
      { st with solutions := st.solutions ++ [mkSolution w (convOut st.mode)] } := by
    rw [if_neg hv2.1, if_neg hv2.2]
  by_cases h3 : 3 < pc
  · rw [if_pos h3, hnc h3]
    exact step
  · rw [if_neg h3]
    exact step

/-- `addSolutionToResult` either reports an error and leaves the solution
list untouched, or appends exactly the built solution of a range-valid
candidate. -/
theorem addSolution_cases (w : Fin 6 → ℝ) (st : SolveState) (pc : ℕ) :
    (∃ e, addSolutionToResult w st pc = { st with error := some e }) ∨
      (ValidCand w ∧ addSolutionToResult w st pc =
        { st with solutions := st.solutions ++ [mkSolution w (convOut st.mode)] }) := by
  by_cases h3 : 3 < pc
  · cases hc : firstConflict st w (convOut st.mode) with
    | some e => exact Or.inl ⟨e, addSolution_conflict h3 hc⟩
    | none =>
      by_cases hv : ValidCand w
      · exact Or.inr ⟨hv, addSolution_push (fun _ => hc) hv⟩
      · exact Or.inl ⟨.noSolution, addSolution_invalid (fun _ => hc) hv⟩
  · by_cases hv : ValidCand w
    · exact Or.inr ⟨hv, addSolution_push (fun h => absurd h h3) hv⟩
    · exact Or.inl ⟨.noSolution, addSolution_invalid (fun h => absurd h h3) hv⟩

/-! ## Pattern-level facts (finite checks over the 64 presence patterns) -/

theorem tru_iff {p : Fin 6 → Bool} {w : Fin 6 → ℝ}
    (HP : ∀ j : Fin 6, p j = true → w j ≠ 0) (i : ℤ) :
    Tru p w i ↔ p (zmod6 i) = true :=
  ⟨fun h => h.1, fun h => ⟨h, HP _ h⟩⟩

theorem pattern_fs_cases (p : Fin 6 → Bool) (h : 1 ≤ sideCountP p) :
    firstSideIdx p = 0 ∨ firstSideIdx p = 2 ∨ firstSideIdx p = 4 := by
  revert p
  decide

theorem pattern_fa_cases (p : Fin 6 → Bool) (h : 1 ≤ angleCountP p) :
    firstAngleIdx p = 1 ∨ firstAngleIdx p = 3 ∨ firstAngleIdx p = 5 := by
  revert p
  decide

theorem pattern_angle_pos (p : Fin 6 → Bool) (h3 : 3 ≤ sideCountP p + angleCountP p)
    (hs : sideCountP p ≠ 3) : 1 ≤ angleCountP p := by
  revert p
  decide

theorem pattern_coverage (p : Fin 6 → Bool) (h3 : 3 ≤ sideCountP p + angleCountP p)
    (h1 : 1 ≤ sideCountP p) (hs : sideCountP p ≠ 3) :
    (p (zmod6 (firstSideIdx p + 5)) = true ∧ p (zmod6 (firstSideIdx p + 1)) = true) ∨
    (p (zmod6 (firstAngleIdx p + 5)) = true ∧ p (zmod6 (firstAngleIdx p + 1)) = true) ∨
    (p (zmod6 (firstSideIdx p + 1)) = true ∧ p (zmod6 (firstSideIdx p + 3)) = true) ∨
    (p (zmod6 (firstSideIdx p + 5)) = true ∧ p (zmod6 (firstSideIdx p + 3)) = true) ∨
    (p (zmod6 (firstAngleIdx p + 5)) = true ∧ p (zmod6 (firstAngleIdx p + 3)) = true) ∨
    (p (zmod6 (firstAngleIdx p + 1)) = true ∧ p (zmod6 (firstAngleIdx p + 3)) = true) := by
  revert p
  decide

theorem pattern_ssa_pc (p : Fin 6 → Bool) (h3 : 3 ≤ sideCountP p + angleCountP p)
    (h1 : 1 ≤ sideCountP p) (hs : sideCountP p ≠ 3)
    (hA : ¬(p (zmod6 (firstSideIdx p + 5)) = true ∧ p (zmod6 (firstSideIdx p + 1)) = true))
    (hB : ¬(p (zmod6 (firstAngleIdx p + 5)) = true ∧ p (zmod6 (firstAngleIdx p + 1)) = true))
    (hC : ¬(p (zmod6 (firstSideIdx p + 1)) = true ∧ p (zmod6 (firstSideIdx p + 3)) = true))
    (hD : ¬(p (zmod6 (firstSideIdx p + 5)) = true ∧ p (zmod6 (firstSideIdx p + 3)) = true))
    (hE : p (zmod6 (firstAngleIdx p + 5)) = true ∧ p (zmod6 (firstAngleIdx p + 3)) = true) :
    sideCountP p + angleCountP p = 3 := by
  revert p
  decide

theorem pattern_ass_pc (p : Fin 6 → Bool) (h3 : 3 ≤ sideCountP p + angleCountP p)
    (h1 : 1 ≤ sideCountP p) (hs : sideCountP p ≠ 3)
    (hA : ¬(p (zmod6 (firstSideIdx p + 5)) = true ∧ p (zmod6 (firstSideIdx p + 1)) = true))
    (hB : ¬(p (zmod6 (firstAngleIdx p + 5)) = true ∧ p (zmod6 (firstAngleIdx p + 1)) = true))
    (hC : ¬(p (zmod6 (firstSideIdx p + 1)) = true ∧ p (zmod6 (firstSideIdx p + 3)) = true))
    (hD : ¬(p (zmod6 (firstSideIdx p + 5)) = true ∧ p (zmod6 (firstSideIdx p + 3)) = true))
    (hE : ¬(p (zmod6 (firstAngleIdx p + 5)) = true ∧ p (zmod6 (firstAngleIdx p + 3)) = true))
    (hF : p (zmod6 (firstAngleIdx p + 1)) = true ∧ p (zmod6 (firstAngleIdx p + 3)) = true) :
    sideCountP p + angleCountP p = 3 := by
  revert p
  decide

theorem pattern_fa_present (p : Fin 6 → Bool) (h : 1 ≤ angleCountP p) :
    p (zmod6 (firstAngleIdx p)) = true := by
  revert p
  decide

/-! ## More circular-index evaluations -/

theorem rd_at_6 (w : Fin 6 → ℝ) : rd w 6 = w 0 := rfl

theorem rd_at_7 (w : Fin 6 → ℝ) : rd w 7 = w 1 := rfl

theorem rd_at_8 (w : Fin 6 → ℝ) : rd w 8 = w 2 := rfl

theorem rd_at_9 (w : Fin 6 → ℝ) : rd w 9 = w 3 := rfl

theorem rd_at_10 (w : Fin 6 → ℝ) : rd w 10 = w 4 := rfl

theorem rd_at_11 (w : Fin 6 → ℝ) : rd w 11 = w 5 := rfl

theorem rd_at_12 (w : Fin 6 → ℝ) : rd w 12 = w 0 := rfl

/-! ## Trigonometric identities used by the solver's formulas -/

theorem sin_sq_identity (al be : ℝ) :
    Real.sin be ^ 2 + Real.sin (al + be) ^ 2 - Real.sin al ^ 2 =
      2 * Real.sin be * Real.sin (al + be) * Real.cos al := by
  have h1 := Real.sin_sq_add_cos_sq al
  have h2 := Real.sin_sq_add_cos_sq be
  rw [Real.sin_add]
  linear_combination (Real.sin al) ^ 2 * h2 - (Real.sin be) ^ 2 * h1

/-- The law of cosines for a sine-rule triple: if `a = k sin α`, `b = k sin β`,
`c = k sin (π - α - β)`, then `b² + c² - a² = 2 b c cos α`. -/
theorem lawcos_of_sines (k al be : ℝ) :
    (k * Real.sin be) ^ 2 + (k * Real.sin (Real.pi - al - be)) ^ 2 - (k * Real.sin al) ^ 2 =
      2 * (k * Real.sin be) * (k * Real.sin (Real.pi - al - be)) * Real.cos al := by
  have hs : Real.sin (Real.pi - al - be) = Real.sin (al + be) := by
    rw [show Real.pi - al - be = Real.pi - (al + be) by ring, Real.sin_pi_sub]
  rw [hs]
  linear_combination k ^ 2 * sin_sq_identity al be

/-! ## Bridges between fixed-slot and rotated-slot formulations -/

theorem validCand_rd_fa (w : Fin 6 → ℝ) {fa : ℤ} (hfa : fa = 1 ∨ fa = 3 ∨ fa = 5) :
    ValidCand w ↔
      (0 < rd w fa ∧ rd w fa < Real.pi) ∧ (0 < rd w (fa + 2) ∧ rd w (fa + 2) < Real.pi) ∧
        (0 < rd w (fa + 4) ∧ rd w (fa + 4) < Real.pi) ∧
        0 < rd w (fa + 1) ∧ 0 < rd w (fa + 3) ∧ 0 < rd w (fa + 5) := by
  unfold ValidCand
  rcases hfa with h | h | h <;> subst h <;>
    simp only [rd_at_0, rd_at_1, rd_at_2, rd_at_3, rd_at_4, rd_at_5, rd_at_6, rd_at_7, rd_at_8,
      rd_at_9, rd_at_10, rd_at_11,
      show (1 : ℤ) + 2 = 3 by norm_num, show (1 : ℤ) + 4 = 5 by norm_num,
      show (1 : ℤ) + 1 = 2 by norm_num, show (1 : ℤ) + 3 = 4 by norm_num,
      show (1 : ℤ) + 5 = 6 by norm_num, show (3 : ℤ) + 2 = 5 by norm_num,
      show (3 : ℤ) + 4 = 7 by norm_num, show (3 : ℤ) + 1 = 4 by norm_num,
      show (3 : ℤ) + 3 = 6 by norm_num, show (3 : ℤ) + 5 = 8 by norm_num,
      show (5 : ℤ) + 2 = 7 by norm_num, show (5 : ℤ) + 4 = 9 by norm_num,
      show (5 : ℤ) + 1 = 6 by norm_num, show (5 : ℤ) + 3 = 8 by norm_num,
      show (5 : ℤ) + 5 = 10 by norm_num] <;> tauto

theorem goodW_rd_fa (w : Fin 6 → ℝ) {fa : ℤ} (hfa : fa = 1 ∨ fa = 3 ∨ fa = 5) :
    GoodW w ↔
      ValidCand w ∧ rd w fa + rd w (fa + 2) + rd w (fa + 4) = Real.pi ∧
        ∃ k, 0 < k ∧ rd w (fa + 3) = k * Real.sin (rd w fa) ∧
          rd w (fa + 5) = k * Real.sin (rd w (fa + 2)) ∧
          rd w (fa + 1) = k * Real.sin (rd w (fa + 4)) := by
  unfold GoodW
  rcases hfa with h | h | h <;> subst h <;>
    simp only [rd_at_0, rd_at_1, rd_at_2, rd_at_3, rd_at_4, rd_at_5, rd_at_6, rd_at_7, rd_at_8,
      rd_at_9, rd_at_10, rd_at_11,
      show (1 : ℤ) + 2 = 3 by norm_num, show (1 : ℤ) + 4 = 5 by norm_num,
      show (1 : ℤ) + 1 = 2 by norm_num, show (1 : ℤ) + 3 = 4 by norm_num,
      show (1 : ℤ) + 5 = 6 by norm_num, show (3 : ℤ) + 2 = 5 by norm_num,
      show (3 : ℤ) + 4 = 7 by norm_num, show (3 : ℤ) + 1 = 4 by norm_num,
      show (3 : ℤ) + 3 = 6 by norm_num, show (3 : ℤ) + 5 = 8 by norm_num,
      show (5 : ℤ) + 2 = 7 by norm_num, show (5 : ℤ) + 4 = 9 by norm_num,
      show (5 : ℤ) + 1 = 6 by norm_num, show (5 : ℤ) + 3 = 8 by norm_num,
      show (5 : ℤ) + 5 = 10 by norm_num]
  all_goals
    constructor
    · rintro ⟨hv, hs, k, hk, h1, h2, h3⟩
      refine ⟨hv, by linarith, k, hk, ?_, ?_, ?_⟩ <;> assumption
    · rintro ⟨hv, hs, k, hk, h1, h2, h3⟩
      refine ⟨hv, by linarith, k, hk, ?_, ?_, ?_⟩ <;> assumption

theorem validCand_rd_fs (w : Fin 6 → ℝ) {fs : ℤ} (hfs : fs = 0 ∨ fs = 2 ∨ fs = 4) :
    ValidCand w ↔
      (0 < rd w (fs + 1) ∧ rd w (fs + 1) < Real.pi) ∧
        (0 < rd w (fs + 3) ∧ rd w (fs + 3) < Real.pi) ∧
        (0 < rd w (fs + 5) ∧ rd w (fs + 5) < Real.pi) ∧
        0 < rd w fs ∧ 0 < rd w (fs + 2) ∧ 0 < rd w (fs + 4) := by
  unfold ValidCand
  rcases hfs with h | h | h <;> subst h <;>
    simp only [rd_at_0, rd_at_1, rd_at_2, rd_at_3, rd_at_4, rd_at_5, rd_at_6, rd_at_7, rd_at_8,
      rd_at_9,
      show (0 : ℤ) + 1 = 1 by norm_num, show (0 : ℤ) + 3 = 3 by norm_num,
      show (0 : ℤ) + 5 = 5 by norm_num, show (0 : ℤ) + 2 = 2 by norm_num,
      show (0 : ℤ) + 4 = 4 by norm_num, show (2 : ℤ) + 1 = 3 by norm_num,
      show (2 : ℤ) + 3 = 5 by norm_num, show (2 : ℤ) + 5 = 7 by norm_num,
      show (2 : ℤ) + 2 = 4 by norm_num, show (2 : ℤ) + 4 = 6 by norm_num,
      show (4 : ℤ) + 1 = 5 by norm_num, show (4 : ℤ) + 3 = 7 by norm_num,
      show (4 : ℤ) + 5 = 9 by norm_num, show (4 : ℤ) + 2 = 6 by norm_num,
      show (4 : ℤ) + 4 = 8 by norm_num] <;> tauto

theorem goodW_rd_fs (w : Fin 6 → ℝ) {fs : ℤ} (hfs : fs = 0 ∨ fs = 2 ∨ fs = 4) :
    GoodW w ↔
      ValidCand w ∧ rd w (fs + 1) + rd w (fs + 3) + rd w (fs + 5) = Real.pi ∧
        ∃ k, 0 < k ∧ rd w fs = k * Real.sin (rd w (fs + 3)) ∧
          rd w (fs + 2) = k * Real.sin (rd w (fs + 5)) ∧
          rd w (fs + 4) = k * Real.sin (rd w (fs + 1)) := by
  unfold GoodW
  rcases hfs with h | h | h <;> subst h <;>
    simp only [rd_at_0, rd_at_1, rd_at_2, rd_at_3, rd_at_4, rd_at_5, rd_at_6, rd_at_7, rd_at_8,
      rd_at_9,
      show (0 : ℤ) + 1 = 1 by norm_num, show (0 : ℤ) + 3 = 3 by norm_num,
      show (0 : ℤ) + 5 = 5 by norm_num, show (0 : ℤ) + 2 = 2 by norm_num,
      show (0 : ℤ) + 4 = 4 by norm_num, show (2 : ℤ) + 1 = 3 by norm_num,
      show (2 : ℤ) + 3 = 5 by norm_num, show (2 : ℤ) + 5 = 7 by norm_num,
      show (2 : ℤ) + 2 = 4 by norm_num, show (2 : ℤ) + 4 = 6 by norm_num,
      show (4 : ℤ) + 1 = 5 by norm_num, show (4 : ℤ) + 3 = 7 by norm_num,
      show (4 : ℤ) + 5 = 9 by norm_num, show (4 : ℤ) + 2 = 6 by norm_num,
      show (4 : ℤ) + 4 = 8 by norm_num]
  all_goals
    constructor
    · rintro ⟨hv, hs, k, hk, h1, h2, h3⟩
      refine ⟨hv, by linarith, k, hk, ?_, ?_, ?_⟩ <;> assumption
    · rintro ⟨hv, hs, k, hk, h1, h2, h3⟩
      refine ⟨hv, by linarith, k, hk, ?_, ?_, ?_⟩ <;> assumption

/-! ## Branch characterisations -/

theorem rd_congr (w : Fin 6 → ℝ) {i j : ℤ} (h : i % 6 = j % 6) : rd w i = rd w j := by
  unfold rd
  rw [zmod6_eq_iff.2 h]

theorem solveASA_master (w : Fin 6 → ℝ) (st : SolveState) (pc : ℕ) {fs : ℤ}
    (hfs : fs = 0 ∨ fs = 2 ∨ fs = 4) :
    (∃ e, solveASA w st pc fs = { st with error := some e }) ∨
    (∃ w3, GoodW w3 ∧ solveASA w st pc fs =
      { st with solutions := st.solutions ++ [mkSolution w3 (convOut st.mode)] }) := by
  set A := Real.pi - rd w (fs + 5) - rd w (fs + 1) with hA
  set w1 := upd w (fs + 3) A with hw1
  set w2 := upd w1 (fs + 2)
    (rd w1 fs * (Real.sin (rd w1 (fs + 5)) / Real.sin (rd w1 (fs + 3)))) with hw2
  set w3 := upd w2 (fs + 4)
    (rd w2 fs * (Real.sin (rd w2 (fs + 7)) / Real.sin (rd w2 (fs + 3)))) with hw3
  have hsolve : solveASA w st pc fs = addSolutionToResult w3 st pc := rfl
  have r1fs : rd w1 fs = rd w fs := by
    rw [hw1]
    exact rd_upd_ne (by omega)
  have r1a : rd w1 (fs + 5) = rd w (fs + 5) := by
    rw [hw1]
    exact rd_upd_ne (by omega)
  have r1b : rd w1 (fs + 1) = rd w (fs + 1) := by
    rw [hw1]
    exact rd_upd_ne (by omega)
  have r1t : rd w1 (fs + 3) = A := by
    rw [hw1]
    exact rd_upd_eq (by omega)
  have r2fs : rd w2 fs = rd w fs := by
    rw [hw2, rd_upd_ne (by omega), r1fs]
  have r2b : rd w2 (fs + 7) = rd w (fs + 1) := by
    rw [hw2, rd_upd_ne (by omega), hw1, rd_upd_ne (by omega)]
    exact rd_congr w (by omega)
  have r2t : rd w2 (fs + 3) = A := by
    rw [hw2, rd_upd_ne (by omega), r1t]
  have r3fs : rd w3 fs = rd w fs := by
    rw [hw3, rd_upd_ne (by omega), r2fs]
  have r3t : rd w3 (fs + 3) = A := by
    rw [hw3, rd_upd_ne (by omega), r2t]
  have r3a : rd w3 (fs + 5) = rd w (fs + 5) := by
    rw [hw3, rd_upd_ne (by omega), hw2, rd_upd_ne (by omega), r1a]
  have r3b : rd w3 (fs + 1) = rd w (fs + 1) := by
    rw [hw3, rd_upd_ne (by omega), hw2, rd_upd_ne (by omega), r1b]
  have r3s2 : rd w3 (fs + 2) = rd w fs * (Real.sin (rd w (fs + 5)) / Real.sin A) := by
    rw [hw3, rd_upd_ne (by omega), hw2, rd_upd_eq (by omega), r1fs, r1a, r1t]
  have r3s4 : rd w3 (fs + 4) = rd w fs * (Real.sin (rd w (fs + 1)) / Real.sin A) := by
    rw [hw3, rd_upd_eq (by omega), r2fs, r2b, r2t]
  rcases addSolution_cases w3 st pc with ⟨e, he⟩ | ⟨hv, he⟩
  · exact Or.inl ⟨e, by rw [hsolve, he]⟩
  · refine Or.inr ⟨w3, ?_, by rw [hsolve, he]⟩
    rw [goodW_rd_fs w3 hfs]
    have hvr := (validCand_rd_fs w3 hfs).1 hv
    have hApos : 0 < A := by
      have := hvr.2.1.1
      rwa [r3t] at this
    have hAlt : A < Real.pi := by
      have := hvr.2.1.2
      rwa [r3t] at this
    have hsA : 0 < Real.sin A := Real.sin_pos_of_pos_of_lt_pi hApos hAlt
    have hfs0 : 0 < rd w fs := by
      have := hvr.2.2.2.1
      rwa [r3fs] at this
    refine ⟨hv, ?_, rd w fs / Real.sin A, div_pos hfs0 hsA, ?_, ?_, ?_⟩
    · rw [r3b, r3t, r3a, hA]
      ring
    · rw [r3fs, r3t]
      field_simp
    · rw [r3s2, r3a]
      ring
    · rw [r3s4, r3b]
      ring

theorem solveSAA_master (w : Fin 6 → ℝ) (st : SolveState) (pc : ℕ) {fs : ℤ}
    (hfs : fs = 0 ∨ fs = 2 ∨ fs = 4) :
    (∃ e, solveSAA w st pc fs = { st with error := some e }) ∨
    (∃ w3, GoodW w3 ∧ solveSAA w st pc fs =
      { st with solutions := st.solutions ++ [mkSolution w3 (convOut st.mode)] }) := by
  set A := Real.pi - rd w (fs + 1) - rd w (fs + 3) with hA
  set w1 := upd w (fs + 5) A with hw1
  set w2 := upd w1 (fs + 2)
    (rd w1 fs * (Real.sin (rd w1 (fs + 5)) / Real.sin (rd w1 (fs + 3)))) with hw2
  set w3 := upd w2 (fs + 4)
    (rd w2 fs * (Real.sin (rd w2 (fs + 7)) / Real.sin (rd w2 (fs + 3)))) with hw3
  have hsolve : solveSAA w st pc fs = addSolutionToResult w3 st pc := rfl
  have r1fs : rd w1 fs = rd w fs := by
    rw [hw1]
    exact rd_upd_ne (by omega)
  have r1t : rd w1 (fs + 5) = A := by
    rw [hw1]
    exact rd_upd_eq (by omega)
  have r1k : rd w1 (fs + 3) = rd w (fs + 3) := by
    rw [hw1]
    exact rd_upd_ne (by omega)
  have r2fs : rd w2 fs = rd w fs := by
    rw [hw2, rd_upd_ne (by omega), r1fs]
  have r2b : rd w2 (fs + 7) = rd w (fs + 1) := by
    rw [hw2, rd_upd_ne (by omega), hw1, rd_upd_ne (by omega)]
    exact rd_congr w (by omega)
  have r2k : rd w2 (fs + 3) = rd w (fs + 3) := by
    rw [hw2, rd_upd_ne (by omega), r1k]
  have r3fs : rd w3 fs = rd w fs := by
    rw [hw3, rd_upd_ne (by omega), r2fs]
  have r3t : rd w3 (fs + 5) = A := by
    rw [hw3, rd_upd_ne (by omega), hw2, rd_upd_ne (by omega), r1t]
  have r3k : rd w3 (fs + 3) = rd w (fs + 3) := by
    rw [hw3, rd_upd_ne (by omega), r2k]
  have r3b : rd w3 (fs + 1) = rd w (fs + 1) := by
    rw [hw3, rd_upd_ne (by omega), hw2, rd_upd_ne (by omega), hw1, rd_upd_ne (by omega)]
  have r3s2 : rd w3 (fs + 2) = rd w fs * (Real.sin A / Real.sin (rd w (fs + 3))) := by
    rw [hw3, rd_upd_ne (by omega), hw2, rd_upd_eq (by omega), r1fs, r1t, r1k]
  have r3s4 : rd w3 (fs + 4) = rd w fs * (Real.sin (rd w (fs + 1)) / Real.sin (rd w (fs + 3))) := by
    rw [hw3, rd_upd_eq (by omega), r2fs, r2b, r2k]
  rcases addSolution_cases w3 st pc with ⟨e, he⟩ | ⟨hv, he⟩
  · exact Or.inl ⟨e, by rw [hsolve, he]⟩
  · refine Or.inr ⟨w3, ?_, by rw [hsolve, he]⟩
    rw [goodW_rd_fs w3 hfs]
    have hvr := (validCand_rd_fs w3 hfs).1 hv
    have hKpos : 0 < rd w (fs + 3) := by
      have := hvr.2.1.1
      rwa [r3k] at this
    have hKlt : rd w (fs + 3) < Real.pi := by
      have := hvr.2.1.2
      rwa [r3k] at this
    have hsK : 0 < Real.sin (rd w (fs + 3)) := Real.sin_pos_of_pos_of_lt_pi hKpos hKlt
    have hfs0 : 0 < rd w fs := by
      have := hvr.2.2.2.1
      rwa [r3fs] at this
    refine ⟨hv, ?_, rd w fs / Real.sin (rd w (fs + 3)), div_pos hfs0 hsK, ?_, ?_, ?_⟩
    · rw [r3b, r3t, r3k, hA]
      ring
    · rw [r3fs, r3k]
      field_simp
    · rw [r3s2, r3t]
      ring
    · rw [r3s4, r3b]
      ring

theorem solveAAS_master (w : Fin 6 → ℝ) (st : SolveState) (pc : ℕ) {fs : ℤ}
    (hfs : fs = 0 ∨ fs = 2 ∨ fs = 4) :
    (∃ e, solveAAS w st pc fs = { st with error := some e }) ∨
    (∃ w3, GoodW w3 ∧ solveAAS w st pc fs =
      { st with solutions := st.solutions ++ [mkSolution w3 (convOut st.mode)] }) := by
  set A := Real.pi - rd w (fs + 5) - rd w (fs + 3) with hA
  set w1 := upd w (fs + 1) A with hw1
  set w2 := upd w1 (fs + 2)
    (rd w1 fs * (Real.sin (rd w1 (fs + 5)) / Real.sin (rd w1 (fs + 3)))) with hw2
  set w3 := upd w2 (fs + 4)
    (rd w2 fs * (Real.sin (rd w2 (fs + 7)) / Real.sin (rd w2 (fs + 3)))) with hw3
  have hsolve : solveAAS w st pc fs = addSolutionToResult w3 st pc := rfl
  have r1fs : rd w1 fs = rd w fs := by
    rw [hw1]
    exact rd_upd_ne (by omega)
  have r1t : rd w1 (fs + 1) = A := by
    rw [hw1]
    exact rd_upd_eq (by omega)
  have r1a : rd w1 (fs + 5) = rd w (fs + 5) := by
    rw [hw1]
    exact rd_upd_ne (by omega)
  have r1k : rd w1 (fs + 3) = rd w (fs + 3) := by
    rw [hw1]
    exact rd_upd_ne (by omega)
  have r2fs : rd w2 fs = rd w fs := by
    rw [hw2, rd_upd_ne (by omega), r1fs]
  have r2b : rd w2 (fs + 7) = A := by
    rw [hw2, rd_upd_ne (by omega), hw1]
    rw [show rd (upd w (fs + 1) A) (fs + 7) = rd (upd w (fs + 1) A) (fs + 1) from
      rd_congr _ (by omega)]
    exact rd_upd_eq (by omega)
  have r2k : rd w2 (fs + 3) = rd w (fs + 3) := by
    rw [hw2, rd_upd_ne (by omega), r1k]
  have r3fs : rd w3 fs = rd w fs := by
    rw [hw3, rd_upd_ne (by omega), r2fs]
  have r3t : rd w3 (fs + 1) = A := by
    rw [hw3, rd_upd_ne (by omega), hw2, rd_upd_ne (by omega), r1t]
  have r3k : rd w3 (fs + 3) = rd w (fs + 3) := by
    rw [hw3, rd_upd_ne (by omega), r2k]
  have r3a : rd w3 (fs + 5) = rd w (fs + 5) := by
    rw [hw3, rd_upd_ne (by omega), hw2, rd_upd_ne (by omega), r1a]
  have r3s2 : rd w3 (fs + 2) = rd w fs * (Real.sin (rd w (fs + 5)) / Real.sin (rd w (fs + 3))) := by
    rw [hw3, rd_upd_ne (by omega), hw2, rd_upd_eq (by omega), r1fs, r1a, r1k]
  have r3s4 : rd w3 (fs + 4) = rd w fs * (Real.sin A / Real.sin (rd w (fs + 3))) := by
    rw [hw3, rd_upd_eq (by omega), r2fs, r2b, r2k]
  rcases addSolution_cases w3 st pc with ⟨e, he⟩ | ⟨hv, he⟩
  · exact Or.inl ⟨e, by rw [hsolve, he]⟩
  · refine Or.inr ⟨w3, ?_, by rw [hsolve, he]⟩
    rw [goodW_rd_fs w3 hfs]
    have hvr := (validCand_rd_fs w3 hfs).1 hv
    have hKpos : 0 < rd w (fs + 3) := by
      have := hvr.2.1.1
      rwa [r3k] at this
    have hKlt : rd w (fs + 3) < Real.pi := by
      have := hvr.2.1.2
      rwa [r3k] at this
    have hsK : 0 < Real.sin (rd w (fs + 3)) := Real.sin_pos_of_pos_of_lt_pi hKpos hKlt
    have hfs0 : 0 < rd w fs := by
      have := hvr.2.2.2.1
      rwa [r3fs] at this
    refine ⟨hv, ?_, rd w fs / Real.sin (rd w (fs + 3)), div_pos hfs0 hsK, ?_, ?_, ?_⟩
    · rw [r3t, r3k, r3a, hA]
      ring
    · rw [r3fs, r3k]
      field_simp
    · rw [r3s2, r3a]
      ring
    · rw [r3s4, r3t]
      ring

theorem solveSAS_master (w : Fin 6 → ℝ) (st : SolveState) (pc : ℕ) {fa : ℤ}
    (hfa : fa = 1 ∨ fa = 3 ∨ fa = 5) :
    (∃ e, solveSAS w st pc fa = { st with error := some e }) ∨
    (∃ w3, GoodW w3 ∧ solveSAS w st pc fa =
      { st with solutions := st.solutions ++ [mkSolution w3 (convOut st.mode)] }) := by
  set s1 := rd w (fa + 5) with hs1d
  set s2 := rd w (fa + 1) with hs2d
  set s3 := Real.sqrt (s1 ^ 2 + s2 ^ 2 - 2 * s1 * s2 * Real.cos (rd w fa)) with hs3d
  set w1 := upd w (fa + 3) s3 with hw1
  set w2 := upd w1 (fa + 2)
    (Real.arccos ((s3 ^ 2 + s2 ^ 2 - s1 ^ 2) / (2 * s3 * s2))) with hw2
  set w3 := upd w2 (fa + 4) (Real.pi - rd w2 (fa + 2) - rd w2 fa) with hw3
  have hsolve : solveSAS w st pc fa = addSolutionToResult w3 st pc := rfl
  set R := (s3 ^ 2 + s2 ^ 2 - s1 ^ 2) / (2 * s3 * s2) with hR
  have r2acc : rd w2 (fa + 2) = Real.arccos R := by
    rw [hw2]
    exact rd_upd_eq (by omega)
  have r2fa : rd w2 fa = rd w fa := by
    rw [hw2, rd_upd_ne (by omega), hw1, rd_upd_ne (by omega)]
  have r3fa : rd w3 fa = rd w fa := by
    rw [hw3, rd_upd_ne (by omega), r2fa]
  have r3acc : rd w3 (fa + 2) = Real.arccos R := by
    rw [hw3, rd_upd_ne (by omega), r2acc]
  have r3t : rd w3 (fa + 4) = Real.pi - Real.arccos R - rd w fa := by
    rw [hw3, rd_upd_eq (by omega), r2acc, r2fa]
  have r3s3 : rd w3 (fa + 3) = s3 := by
    rw [hw3, rd_upd_ne (by omega), hw2, rd_upd_ne (by omega), hw1]
    exact rd_upd_eq (by omega)
  have r3s1 : rd w3 (fa + 5) = s1 := by
    rw [hw3, rd_upd_ne (by omega), hw2, rd_upd_ne (by omega), hw1, rd_upd_ne (by omega)]
  have r3s2 : rd w3 (fa + 1) = s2 := by
    rw [hw3, rd_upd_ne (by omega), hw2, rd_upd_ne (by omega), hw1, rd_upd_ne (by omega)]
  rcases addSolution_cases w3 st pc with ⟨e, he⟩ | ⟨hv, he⟩
  · exact Or.inl ⟨e, by rw [hsolve, he]⟩
  · refine Or.inr ⟨w3, ?_, by rw [hsolve, he]⟩
    rw [goodW_rd_fa w3 hfa]
    have hvr := (validCand_rd_fa w3 hfa).1 hv
    have hθ1 : 0 < rd w fa := by
      have := hvr.1.1
      rwa [r3fa] at this
    have hθ2 : rd w fa < Real.pi := by
      have := hvr.1.2
      rwa [r3fa] at this
    have hsθ : 0 < Real.sin (rd w fa) := Real.sin_pos_of_pos_of_lt_pi hθ1 hθ2
    have hs3pos : 0 < s3 := by
      have := hvr.2.2.2.2.1
      rwa [r3s3] at this
    have hs1pos : 0 < s1 := by
      have := hvr.2.2.2.2.2
      rwa [r3s1] at this
    have hs2pos : 0 < s2 := by
      have := hvr.2.2.2.1
      rwa [r3s2] at this
    have hs3ne : s3 ≠ 0 := ne_of_gt hs3pos
    have hsθne : Real.sin (rd w fa) ≠ 0 := ne_of_gt hsθ
    have hE0 : 0 ≤ s1 ^ 2 + s2 ^ 2 - 2 * s1 * s2 * Real.cos (rd w fa) := by
      nlinarith [Real.cos_le_one (rd w fa), sq_nonneg (s1 - s2), mul_pos hs1pos hs2pos]
    have hs3sq : s3 ^ 2 = s1 ^ 2 + s2 ^ 2 - 2 * s1 * s2 * Real.cos (rd w fa) := by
      rw [hs3d]
      exact Real.sq_sqrt hE0
    have hRval : R = (s2 - s1 * Real.cos (rd w fa)) / s3 := by
      rw [hR, hs3sq]
      rw [div_eq_div_iff (by positivity) hs3ne]
      ring
    have key : s3 ^ 2 - (s2 - s1 * Real.cos (rd w fa)) ^ 2 =
        (s1 * Real.sin (rd w fa)) ^ 2 := by
      rw [hs3sq]
      linear_combination (-(s1 ^ 2)) * Real.sin_sq_add_cos_sq (rd w fa)
    have hxsq : (s2 - s1 * Real.cos (rd w fa)) ^ 2 ≤ s3 ^ 2 := by
      nlinarith [key, sq_nonneg (s1 * Real.sin (rd w fa))]
    have hxle : s2 - s1 * Real.cos (rd w fa) ≤ s3 :=
      (abs_le_of_sq_le_sq' hxsq hs3pos.le).2
    have hxge : -s3 ≤ s2 - s1 * Real.cos (rd w fa) :=
      (abs_le_of_sq_le_sq' hxsq hs3pos.le).1
    have hRle : R ≤ 1 := by
      rw [hRval]
      exact (div_le_one hs3pos).2 hxle
    have hRge : -1 ≤ R := by
      rw [hRval, le_div_iff₀ hs3pos]
      linarith
    have hcosAcc : Real.cos (Real.arccos R) = R := Real.cos_arccos hRge hRle
    have hsinAcc : Real.sin (Real.arccos R) = s1 * Real.sin (rd w fa) / s3 := by
      rw [Real.sin_arccos]
      have h1 : 1 - R ^ 2 = (s1 * Real.sin (rd w fa) / s3) ^ 2 := by
        rw [hRval, div_pow, div_pow, eq_div_iff (pow_ne_zero 2 hs3ne)]
        have h2 : (1 - (s2 - s1 * Real.cos (rd w fa)) ^ 2 / s3 ^ 2) * s3 ^ 2 =
            s3 ^ 2 - (s2 - s1 * Real.cos (rd w fa)) ^ 2 := by
          field_simp
        rw [h2, key]
      rw [h1]
      exact Real.sqrt_sq (div_nonneg (mul_nonneg hs1pos.le hsθ.le) hs3pos.le)
    have hsinT : Real.sin (Real.pi - Real.arccos R - rd w fa) =
        s2 * Real.sin (rd w fa) / s3 := by
      rw [show Real.pi - Real.arccos R - rd w fa = Real.pi - (Real.arccos R + rd w fa) by ring,
        Real.sin_pi_sub, Real.sin_add, hsinAcc, hcosAcc, hRval]
      field_simp
      ring
    refine ⟨hv, ?_, s3 / Real.sin (rd w fa), div_pos hs3pos hsθ, ?_, ?_, ?_⟩
    · rw [r3fa, r3acc, r3t]
      ring
    · rw [r3s3, r3fa]
      field_simp
    · rw [r3s1, r3acc, hsinAcc]
      field_simp
      ring
    · rw [r3s2, r3t, hsinT]
      field_simp
      ring

theorem jsAcos_eq_some {x y : ℝ} (h : jsAcos x = some y) :
    -1 ≤ x ∧ x ≤ 1 ∧ y = Real.arccos x := by
  unfold jsAcos at h
  by_cases hc : x < -1 ∨ 1 < x
  · rw [if_pos hc] at h
    exact absurd h (by simp)
  · rw [if_neg hc] at h
    push_neg at hc
    exact ⟨hc.1, hc.2, (Option.some_inj.1 h).symm⟩

theorem solveSSS_master (a b c : ℝ) (w : Fin 6 → ℝ) (st : SolveState) (pc : ℕ)
    (hwa : w 0 = a) (hwb : w 2 = b) (hwc : w 4 = c) :
    (∃ e, solveSSS a b c w st pc = { st with error := some e }) ∨
    (∃ w2, GoodW w2 ∧ solveSSS a b c w st pc =
      { st with solutions := st.solutions ++ [mkSolution w2 (convOut st.mode)] }) := by
  unfold solveSSS
  cases h1 : jsAcos ((b ^ 2 + c ^ 2 - a ^ 2) / (2 * b * c)) with
  | none => exact Or.inl ⟨.impossibleSides a b c, rfl⟩
  | some alpha1 =>
    cases h2 : jsAcos ((a ^ 2 + c ^ 2 - b ^ 2) / (2 * a * c)) with
    | none => exact Or.inl ⟨.impossibleSides a b c, rfl⟩
    | some beta1 =>
      dsimp only
      set w2 := upd (upd (upd w 3 alpha1) 5 beta1) 1 (Real.pi - alpha1 - beta1) with hw2
      by_cases hz : ∃ i : Fin 6, w2 i = 0
      · rw [if_pos hz]
        exact Or.inl ⟨.impossibleSides a b c, rfl⟩
      · rw [if_neg hz]
        obtain ⟨hr1l, hr1u, ha1⟩ := jsAcos_eq_some h1
        obtain ⟨hr2l, hr2u, hb1⟩ := jsAcos_eq_some h2
        have e0 : rd w2 0 = a := by
          rw [hw2, rd_upd_ne (by omega), rd_upd_ne (by omega), rd_upd_ne (by omega),
            rd_at_0, hwa]
        have e2 : rd w2 2 = b := by
          rw [hw2, rd_upd_ne (by omega), rd_upd_ne (by omega), rd_upd_ne (by omega),
            rd_at_2, hwb]
        have e4 : rd w2 4 = c := by
          rw [hw2, rd_upd_ne (by omega), rd_upd_ne (by omega), rd_upd_ne (by omega),
            rd_at_4, hwc]
        have e3 : rd w2 3 = alpha1 := by
          rw [hw2, rd_upd_ne (by omega), rd_upd_ne (by omega)]
          exact rd_upd_eq (by omega)
        have e5 : rd w2 5 = beta1 := by
          rw [hw2, rd_upd_ne (by omega)]
          exact rd_upd_eq (by omega)
        have e1 : rd w2 1 = Real.pi - alpha1 - beta1 := rd_upd_eq (by omega)
        rcases addSolution_cases w2 st pc with ⟨e, he⟩ | ⟨hv, he⟩
        · exact Or.inl ⟨e, he⟩
        · refine Or.inr ⟨w2, ?_, he⟩
          have f0 : w2 0 = a := e0
          have f2 : w2 2 = b := e2
          have f4 : w2 4 = c := e4
          have f3 : w2 3 = alpha1 := e3
          have f5 : w2 5 = beta1 := e5
          have f1 : w2 1 = Real.pi - alpha1 - beta1 := e1
          have hapos : 0 < a := by rw [← f0]; exact hv.2.2.2.1
          have hbpos : 0 < b := by rw [← f2]; exact hv.2.2.2.2.1
          have hcpos : 0 < c := by rw [← f4]; exact hv.2.2.2.2.2
          have hane : a ≠ 0 := ne_of_gt hapos
          have hbne : b ≠ 0 := ne_of_gt hbpos
          have hcne : c ≠ 0 := ne_of_gt hcpos
          have hA1 : 0 < alpha1 ∧ alpha1 < Real.pi := by
            rw [← f3]
            exact hv.2.1
          have hB1 : 0 < beta1 ∧ beta1 < Real.pi := by
            rw [← f5]
            exact hv.2.2.1
          have hsinA : 0 < Real.sin alpha1 := Real.sin_pos_of_pos_of_lt_pi hA1.1 hA1.2
          have hsinB : 0 < Real.sin beta1 := Real.sin_pos_of_pos_of_lt_pi hB1.1 hB1.2
          set Q := 2 * a ^ 2 * b ^ 2 + 2 * b ^ 2 * c ^ 2 + 2 * c ^ 2 * a ^ 2 -
            a ^ 4 - b ^ 4 - c ^ 4 with hQ
          clear_value Q
          have hcosA : Real.cos alpha1 = (b ^ 2 + c ^ 2 - a ^ 2) / (2 * b * c) := by
            rw [ha1]
            exact Real.cos_arccos hr1l hr1u
          have hcosB : Real.cos beta1 = (a ^ 2 + c ^ 2 - b ^ 2) / (2 * a * c) := by
            rw [hb1]
            exact Real.cos_arccos hr2l hr2u
          have hbc : (0 : ℝ) < 2 * b * c := mul_pos (mul_pos two_pos hbpos) hcpos
          have hac : (0 : ℝ) < 2 * a * c := mul_pos (mul_pos two_pos hapos) hcpos
          have hab : (0 : ℝ) < 2 * a * b := mul_pos (mul_pos two_pos hapos) hbpos
          have hQA : 1 - ((b ^ 2 + c ^ 2 - a ^ 2) / (2 * b * c)) ^ 2 = Q / (2 * b * c) ^ 2 := by
            rw [hQ]
            field_simp
            ring
          have hQB : 1 - ((a ^ 2 + c ^ 2 - b ^ 2) / (2 * a * c)) ^ 2 = Q / (2 * a * c) ^ 2 := by
            rw [hQ]
            field_simp
            ring
          have h1r : 0 ≤ 1 - ((b ^ 2 + c ^ 2 - a ^ 2) / (2 * b * c)) ^ 2 := by
            nlinarith [mul_nonneg (sub_nonneg.2 hr1u)
              (sub_nonneg.2 (neg_le.1 (neg_le_of_neg_le hr1l)))]
          have hQ0 : 0 ≤ Q := by
            have h := h1r
            rw [hQA] at h
            rcases div_nonneg_iff.1 h with ⟨hq, _⟩ | ⟨_, hd⟩
            · exact hq
            · linarith [pow_pos hbc 2]
          have hsinAval : Real.sin alpha1 = Real.sqrt Q / (2 * b * c) := by
            rw [ha1, Real.sin_arccos, hQA, Real.sqrt_div hQ0, Real.sqrt_sq hbc.le]
          have hsinBval : Real.sin beta1 = Real.sqrt Q / (2 * a * c) := by
            rw [hb1, Real.sin_arccos, hQB, Real.sqrt_div hQ0, Real.sqrt_sq hac.le]
          have hsq : 0 < Real.sqrt Q := by
            have h := hsinA
            rw [hsinAval] at h
            rcases div_pos_iff.1 h with ⟨hq, _⟩ | ⟨_, hd⟩
            · exact hq
            · linarith
          have hsqne : Real.sqrt Q ≠ 0 := ne_of_gt hsq
          have hsinG : Real.sin (Real.pi - alpha1 - beta1) = Real.sqrt Q / (2 * a * b) := by
            rw [show Real.pi - alpha1 - beta1 = Real.pi - (alpha1 + beta1) by ring,
              Real.sin_pi_sub, Real.sin_add, hsinAval, hsinBval, hcosA, hcosB,
              div_mul_div_comm, div_mul_div_comm, div_add_div_same,
              div_eq_div_iff (ne_of_gt (mul_pos hbc hac)) (ne_of_gt hab)]
            ring
          refine ⟨hv, ?_, 2 * a * b * c / Real.sqrt Q, ?_, ?_, ?_, ?_⟩
          · rw [f1, f3, f5]
            ring
          · exact div_pos (mul_pos (mul_pos (mul_pos two_pos hapos) hbpos) hcpos) hsq
          · rw [f0, f3, hsinAval, div_mul_div_comm,
              eq_div_iff (mul_ne_zero hsqne (ne_of_gt hbc))]
            ring
          · rw [f2, f5, hsinBval, div_mul_div_comm,
              eq_div_iff (mul_ne_zero hsqne (ne_of_gt hac))]
            ring
          · rw [f4, f1, hsinG, div_mul_div_comm,
              eq_div_iff (mul_ne_zero hsqne (ne_of_gt hab))]
            ring

/-! ## The ambiguous (SSA/ASS) case -/

/-- Facts about the unknown angle produced by the SSA/ASS branch:
`if (D == 1) π/2 else asin(D)` for `0 < D ≤ 1`. -/
theorem ssaU_facts {D : ℝ} (hD0 : 0 < D) (hD1 : D ≤ 1) :
    0 < (if D = 1 then Real.pi / 2 else Real.arcsin D) ∧
      (if D = 1 then Real.pi / 2 else Real.arcsin D) ≤ Real.pi / 2 ∧
      Real.sin (if D = 1 then Real.pi / 2 else Real.arcsin D) = D := by
  by_cases h : D = 1
  · rw [if_pos h, h]
    exact ⟨by linarith [Real.pi_pos], le_refl _, Real.sin_pi_div_two⟩
  · rw [if_neg h]
    exact ⟨Real.arcsin_pos.2 hD0, Real.arcsin_le_pi_div_two D,
      Real.sin_arcsin (by linarith) hD1⟩

/-- `asin D > x` for `x ∈ [0, π/2]` with `sin x < D ≤ 1`. -/
theorem arcsin_gt_of_sin_lt {x D : ℝ} (hx0 : 0 ≤ x) (hx : x ≤ Real.pi / 2)
    (hs : Real.sin x < D) (hD1 : D ≤ 1) : x < Real.arcsin D := by
  have h1 : Real.arcsin (Real.sin x) < Real.arcsin D := by
    apply Real.strictMonoOn_arcsin
    · exact Set.mem_Icc.2 ⟨Real.neg_one_le_sin x, Real.sin_le_one x⟩
    · exact Set.mem_Icc.2 ⟨by linarith [Real.neg_one_le_sin x], hD1⟩
    · exact hs
  rwa [Real.arcsin_sin (by linarith [Real.pi_pos]) hx] at h1

/-- Characterisation of a candidate handed to `addSolutionToResult` by the
SSA/ASS branch: range-validity is equivalent to positivity of the remaining
angle, and a valid candidate is a genuine triangle. -/
theorem ssa_candidate {w3 : Fin 6 → ℝ} {fa : ℤ} (hfa : fa = 1 ∨ fa = 3 ∨ fa = 5)
    {th s1 s2 u : ℝ}
    (hθ1 : 0 < th) (hθ2 : th < Real.pi) (hs1 : 0 < s1) (hs2 : 0 < s2)
    (efa : rd w3 fa = th) (e3 : rd w3 (fa + 3) = s1) (e5 : rd w3 (fa + 5) = s2)
    (e2 : rd w3 (fa + 2) = u) (e4 : rd w3 (fa + 4) = Real.pi - th - u)
    (e1 : rd w3 (fa + 1) = s1 * (Real.sin (Real.pi - th - u) / Real.sin th))
    (hu0 : 0 < u) (huπ : u < Real.pi) (hsinu : Real.sin u = s2 / s1 * Real.sin th) :
    (ValidCand w3 ↔ 0 < Real.pi - th - u) ∧ (0 < Real.pi - th - u → GoodW w3) := by
  have hsθ : 0 < Real.sin th := Real.sin_pos_of_pos_of_lt_pi hθ1 hθ2
  have hγπ : Real.pi - th - u < Real.pi := by linarith
  have hiff : ValidCand w3 ↔ 0 < Real.pi - th - u := by
    rw [validCand_rd_fa w3 hfa, efa, e3, e5, e2, e4, e1]
    constructor
    · intro h
      exact h.2.2.1.1
    · intro hγ
      have hsγ : 0 < Real.sin (Real.pi - th - u) :=
        Real.sin_pos_of_pos_of_lt_pi hγ hγπ
      exact ⟨⟨hθ1, hθ2⟩, ⟨hu0, huπ⟩, ⟨hγ, hγπ⟩,
        mul_pos hs1 (div_pos hsγ hsθ), hs1, hs2⟩
  refine ⟨hiff, fun hγ => ?_⟩
  rw [goodW_rd_fa w3 hfa, efa, e3, e5, e2, e4, e1]
  have hsθne : Real.sin th ≠ 0 := ne_of_gt hsθ
  have hs1ne : s1 ≠ 0 := ne_of_gt hs1
  refine ⟨(hiff).2 hγ, by ring, s1 / Real.sin th, div_pos hs1 hsθ, ?_, ?_, ?_⟩
  · field_simp
  · rw [hsinu]
    field_simp
    ring
  · ring

theorem solveSSA_cases (w : Fin 6 → ℝ) (st : SolveState) (pc : ℕ) {fa : ℤ}
    (hfa : fa = 1 ∨ fa = 3 ∨ fa = 5)
    (hθ1 : 0 < rd w fa) (hθ2 : rd w fa < Real.pi)
    (hs1p : 0 < rd w (fa + 3)) (hs2p : 0 < rd w (fa + 5)) (hpc : ¬ 3 < pc) :
    (1 < rd w (fa + 5) / rd w (fa + 3) * Real.sin (rd w fa) →
      solveSSA w st pc fa = { st with error := some .noSolution }) ∧
    (¬ 1 < rd w (fa + 5) / rd w (fa + 3) * Real.sin (rd w fa) →
      rd w (fa + 5) ≤ rd w (fa + 3) →
      (0 < Real.pi - rd w fa -
          (if rd w (fa + 5) / rd w (fa + 3) * Real.sin (rd w fa) = 1 then Real.pi / 2
            else Real.arcsin (rd w (fa + 5) / rd w (fa + 3) * Real.sin (rd w fa))) →
        ∃ w3, GoodW w3 ∧
          rd w3 (fa + 2) =
            (if rd w (fa + 5) / rd w (fa + 3) * Real.sin (rd w fa) = 1 then Real.pi / 2
              else Real.arcsin (rd w (fa + 5) / rd w (fa + 3) * Real.sin (rd w fa))) ∧
          solveSSA w st pc fa =
            { st with solutions := st.solutions ++ [mkSolution w3 (convOut st.mode)] }) ∧
      (Real.pi - rd w fa -
          (if rd w (fa + 5) / rd w (fa + 3) * Real.sin (rd w fa) = 1 then Real.pi / 2
            else Real.arcsin (rd w (fa + 5) / rd w (fa + 3) * Real.sin (rd w fa))) ≤ 0 →
        solveSSA w st pc fa = { st with error := some .noSolution })) ∧
    (¬ 1 < rd w (fa + 5) / rd w (fa + 3) * Real.sin (rd w fa) →
      rd w (fa + 3) < rd w (fa + 5) →
      (rd w fa < Real.pi / 2 →
        ∃ w3 v3, GoodW w3 ∧ GoodW v3 ∧
          rd w3 (fa + 2) = Real.arcsin (rd w (fa + 5) / rd w (fa + 3) * Real.sin (rd w fa)) ∧
          rd v3 (fa + 2) =
            Real.pi - Real.arcsin (rd w (fa + 5) / rd w (fa + 3) * Real.sin (rd w fa)) ∧
          solveSSA w st pc fa =
            { st with solutions := st.solutions ++
              [mkSolution w3 (convOut st.mode), mkSolution v3 (convOut st.mode)] }) ∧
      (Real.pi / 2 ≤ rd w fa →
        solveSSA w st pc fa = { st with error := some .noSolution })) := by
  have hsθ : 0 < Real.sin (rd w fa) := Real.sin_pos_of_pos_of_lt_pi hθ1 hθ2
  have hD0 : 0 < rd w (fa + 5) / rd w (fa + 3) * Real.sin (rd w fa) :=
    mul_pos (div_pos hs2p hs1p) hsθ
  refine ⟨fun hD => ?_, fun hD hle => ?_, fun hD hlt => ?_⟩
  · simp only [solveSSA]
    rw [if_pos hD]
  · -- single-candidate case (s1 >= s2)
    have hD1 : rd w (fa + 5) / rd w (fa + 3) * Real.sin (rd w fa) ≤ 1 := not_lt.1 hD
    obtain ⟨hu0, huh, hsinu⟩ := ssaU_facts hD0 hD1
    set u := (if rd w (fa + 5) / rd w (fa + 3) * Real.sin (rd w fa) = 1 then Real.pi / 2
      else Real.arcsin (rd w (fa + 5) / rd w (fa + 3) * Real.sin (rd w fa))) with hu
    set w1 := upd w (fa + 2) u with hw1
    set w2 := upd w1 (fa + 4) (Real.pi - rd w fa - rd w1 (fa + 2)) with hw2
    set w3 := upd w2 (fa + 1)
      (rd w (fa + 3) * (Real.sin (rd w2 (fa + 4)) / Real.sin (rd w fa))) with hw3
    have hdef : solveSSA w st pc fa = addSolutionToResult w3 st pc := by
      simp only [solveSSA]
      rw [if_neg hD, if_pos hle]
    have r1u : rd w1 (fa + 2) = u := by
      rw [hw1]
      exact rd_upd_eq (by omega)
    have r2g : rd w2 (fa + 4) = Real.pi - rd w fa - u := by
      rw [hw2, r1u]
      exact rd_upd_eq (by omega)
    have r3fa : rd w3 fa = rd w fa := by
      rw [hw3, rd_upd_ne (by omega), hw2, rd_upd_ne (by omega), hw1, rd_upd_ne (by omega)]
    have r3s1 : rd w3 (fa + 3) = rd w (fa + 3) := by
      rw [hw3, rd_upd_ne (by omega), hw2, rd_upd_ne (by omega), hw1, rd_upd_ne (by omega)]
    have r3s2 : rd w3 (fa + 5) = rd w (fa + 5) := by
      rw [hw3, rd_upd_ne (by omega), hw2, rd_upd_ne (by omega), hw1, rd_upd_ne (by omega)]
    have r3u : rd w3 (fa + 2) = u := by
      rw [hw3, rd_upd_ne (by omega), hw2, rd_upd_ne (by omega), r1u]
    have r3g : rd w3 (fa + 4) = Real.pi - rd w fa - u := by
      rw [hw3, rd_upd_ne (by omega), r2g]
    have r3c : rd w3 (fa + 1) =
        rd w (fa + 3) * (Real.sin (Real.pi - rd w fa - u) / Real.sin (rd w fa)) := by
      rw [hw3, rd_upd_eq (by omega), r2g]
    obtain ⟨hiff, hgood⟩ := ssa_candidate hfa hθ1 hθ2 hs1p hs2p r3fa r3s1 r3s2 r3u r3g r3c
      hu0 (by linarith [Real.pi_pos]) hsinu
    constructor
    · intro hγ
      refine ⟨w3, hgood hγ, r3u, ?_⟩
      rw [hdef, addSolution_push (fun h => absurd h hpc) (hiff.2 hγ)]
    · intro hγ
      rw [hdef, addSolution_invalid (fun h => absurd h hpc) ?_]
      intro hvc
      have := hiff.1 hvc
      linarith
  · -- two-candidate case (s1 < s2)
    have hD1 : rd w (fa + 5) / rd w (fa + 3) * Real.sin (rd w fa) ≤ 1 := not_lt.1 hD
    set D := rd w (fa + 5) / rd w (fa + 3) * Real.sin (rd w fa) with hDd
    set mys := Real.arcsin D with hmys
    have hmys0 : 0 < mys := Real.arcsin_pos.2 hD0
    have hmysh : mys ≤ Real.pi / 2 := Real.arcsin_le_pi_div_two D
    have hsinmys : Real.sin mys = D := Real.sin_arcsin (by linarith) hD1
    set w1 := upd w (fa + 2) mys with hw1
    set w2 := upd w1 (fa + 4) (Real.pi - rd w fa - rd w1 (fa + 2)) with hw2
    set w3 := upd w2 (fa + 1)
      (rd w (fa + 3) * (Real.sin (rd w2 (fa + 4)) / Real.sin (rd w fa))) with hw3
    set v1 := upd w3 (fa + 2) (Real.pi - mys) with hv1
    set v2 := upd v1 (fa + 4) (Real.pi - rd w fa - rd v1 (fa + 2)) with hv2
    set v3 := upd v2 (fa + 1)
      (rd w (fa + 3) * (Real.sin (rd v2 (fa + 4)) / Real.sin (rd w fa))) with hv3
    have hdef : solveSSA w st pc fa =
        addSolutionToResult v3 (addSolutionToResult w3 st pc) pc := by
      simp only [solveSSA]
      rw [if_neg hD, if_neg (not_le.2 hlt)]
    have r1u : rd w1 (fa + 2) = mys := by
      rw [hw1]
      exact rd_upd_eq (by omega)
    have r2g : rd w2 (fa + 4) = Real.pi - rd w fa - mys := by
      rw [hw2, r1u]
      exact rd_upd_eq (by omega)
    have r3fa : rd w3 fa = rd w fa := by
      rw [hw3, rd_upd_ne (by omega), hw2, rd_upd_ne (by omega), hw1, rd_upd_ne (by omega)]
    have r3s1 : rd w3 (fa + 3) = rd w (fa + 3) := by
      rw [hw3, rd_upd_ne (by omega), hw2, rd_upd_ne (by omega), hw1, rd_upd_ne (by omega)]
    have r3s2 : rd w3 (fa + 5) = rd w (fa + 5) := by
      rw [hw3, rd_upd_ne (by omega), hw2, rd_upd_ne (by omega), hw1, rd_upd_ne (by omega)]
    have r3u : rd w3 (fa + 2) = mys := by
      rw [hw3, rd_upd_ne (by omega), hw2, rd_upd_ne (by omega), r1u]
    have r3g : rd w3 (fa + 4) = Real.pi - rd w fa - mys := by
      rw [hw3, rd_upd_ne (by omega), r2g]
    have r3c : rd w3 (fa + 1) =
        rd w (fa + 3) * (Real.sin (Real.pi - rd w fa - mys) / Real.sin (rd w fa)) := by
      rw [hw3, rd_upd_eq (by omega), r2g]
    have s1u : rd v1 (fa + 2) = Real.pi - mys := by
      rw [hv1]
      exact rd_upd_eq (by omega)
    have s2g : rd v2 (fa + 4) = Real.pi - rd w fa - (Real.pi - mys) := by
      rw [hv2, s1u]
      exact rd_upd_eq (by omega)
    have s3fa : rd v3 fa = rd w fa := by
      rw [hv3, rd_upd_ne (by omega), hv2, rd_upd_ne (by omega), hv1, rd_upd_ne (by omega), r3fa]
    have s3s1 : rd v3 (fa + 3) = rd w (fa + 3) := by
      rw [hv3, rd_upd_ne (by omega), hv2, rd_upd_ne (by omega), hv1, rd_upd_ne (by omega), r3s1]
    have s3s2 : rd v3 (fa + 5) = rd w (fa + 5) := by
      rw [hv3, rd_upd_ne (by omega), hv2, rd_upd_ne (by omega), hv1, rd_upd_ne (by omega), r3s2]
    have s3u : rd v3 (fa + 2) = Real.pi - mys := by
      rw [hv3, rd_upd_ne (by omega), hv2, rd_upd_ne (by omega), s1u]
    have s3g : rd v3 (fa + 4) = Real.pi - rd w fa - (Real.pi - mys) := by
      rw [hv3, rd_upd_ne (by omega), s2g]
    have s3c : rd v3 (fa + 1) =
        rd w (fa + 3) *
          (Real.sin (Real.pi - rd w fa - (Real.pi - mys)) / Real.sin (rd w fa)) := by
      rw [hv3, rd_upd_eq (by omega), s2g]
    obtain ⟨hiff1, hgood1⟩ := ssa_candidate hfa hθ1 hθ2 hs1p hs2p r3fa r3s1 r3s2 r3u r3g r3c
      hmys0 (by linarith [Real.pi_pos]) hsinmys
    obtain ⟨hiff2, hgood2⟩ := ssa_candidate hfa hθ1 hθ2 hs1p hs2p s3fa s3s1 s3s2 s3u s3g s3c
      (by linarith [Real.pi_gt_three]) (by linarith)
      (by rw [Real.sin_pi_sub, hsinmys])
    have hsltD : Real.sin (rd w fa) < D := by
      rw [hDd]
      have h1 : 1 < rd w (fa + 5) / rd w (fa + 3) := (one_lt_div hs1p).2 hlt
      nlinarith [hsθ]
    constructor
    · intro hth
      have hγ1 : 0 < Real.pi - rd w fa - mys := by
        have := hmysh
        linarith
      have hγ2 : 0 < Real.pi - rd w fa - (Real.pi - mys) := by
        have hgt : rd w fa < mys := by
          rw [hmys]
          exact arcsin_gt_of_sin_lt hθ1.le hth.le hsltD hD1
        linarith
      refine ⟨w3, v3, hgood1 hγ1, hgood2 hγ2, r3u, s3u, ?_⟩
      rw [hdef, addSolution_push (fun h => absurd h hpc) (hiff1.2 hγ1)]
      rw [addSolution_push (fun h => absurd h hpc) (hiff2.2 hγ2)]
      simp
    · intro hth
      have hγ1 : Real.pi - rd w fa - mys < 0 := by
        have hgt : Real.pi - rd w fa < mys := by
          rw [hmys]
          refine arcsin_gt_of_sin_lt (by linarith) (by linarith) ?_ hD1
          rwa [Real.sin_pi_sub]
        linarith
      have hγ2 : Real.pi - rd w fa - (Real.pi - mys) ≤ 0 := by
        linarith
      have hst1 : addSolutionToResult w3 st pc =
          { st with error := some SolveError.noSolution } := by
        apply addSolution_invalid (fun h => absurd h hpc)
        intro hvc
        have := hiff1.1 hvc
        linarith
      have hst2 : addSolutionToResult v3 { st with error := some SolveError.noSolution } pc =
          { st with error := some SolveError.noSolution } := by
        have h2 : addSolutionToResult v3 { st with error := some SolveError.noSolution } pc =
            { { st with error := some SolveError.noSolution } with
                error := some SolveError.noSolution } := by
          apply addSolution_invalid (fun h => absurd h hpc)
          intro hvc
          have := hiff2.1 hvc
          linarith
        rw [h2]
      rw [hdef, hst1, hst2]

/-- Mirror of `ssa_candidate` for the ASS branch's slot arrangement. -/
theorem ass_candidate {w3 : Fin 6 → ℝ} {fa : ℤ} (hfa : fa = 1 ∨ fa = 3 ∨ fa = 5)
    {th s1 s2 u : ℝ}
    (hθ1 : 0 < th) (hθ2 : th < Real.pi) (hs1 : 0 < s1) (hs2 : 0 < s2)
    (efa : rd w3 fa = th) (e3 : rd w3 (fa + 3) = s1) (e1 : rd w3 (fa + 1) = s2)
    (e4 : rd w3 (fa + 4) = u) (e2 : rd w3 (fa + 2) = Real.pi - th - u)
    (e5 : rd w3 (fa + 5) = s1 * (Real.sin (Real.pi - th - u) / Real.sin th))
    (hu0 : 0 < u) (huπ : u < Real.pi) (hsinu : Real.sin u = s2 / s1 * Real.sin th) :
    (ValidCand w3 ↔ 0 < Real.pi - th - u) ∧ (0 < Real.pi - th - u → GoodW w3) := by
  have hsθ : 0 < Real.sin th := Real.sin_pos_of_pos_of_lt_pi hθ1 hθ2
  have hγπ : Real.pi - th - u < Real.pi := by linarith
  have hiff : ValidCand w3 ↔ 0 < Real.pi - th - u := by
    rw [validCand_rd_fa w3 hfa, efa, e3, e5, e2, e4, e1]
    constructor
    · intro h
      exact h.2.1.1
    · intro hγ
      have hsγ : 0 < Real.sin (Real.pi - th - u) :=
        Real.sin_pos_of_pos_of_lt_pi hγ hγπ
      exact ⟨⟨hθ1, hθ2⟩, ⟨hγ, hγπ⟩, ⟨hu0, huπ⟩,
        hs2, hs1, mul_pos hs1 (div_pos hsγ hsθ)⟩
  refine ⟨hiff, fun hγ => ?_⟩
  rw [goodW_rd_fa w3 hfa, efa, e3, e5, e2, e4, e1]
  have hsθne : Real.sin th ≠ 0 := ne_of_gt hsθ
  have hs1ne : s1 ≠ 0 := ne_of_gt hs1
  refine ⟨(hiff).2 hγ, by ring, s1 / Real.sin th, div_pos hs1 hsθ, ?_, ?_, ?_⟩
  · field_simp
  · ring
  · rw [hsinu]
    field_simp
    ring

theorem solveASS_cases (w : Fin 6 → ℝ) (st : SolveState) (pc : ℕ) {fa : ℤ}
    (hfa : fa = 1 ∨ fa = 3 ∨ fa = 5)
    (hθ1 : 0 < rd w fa) (hθ2 : rd w fa < Real.pi)
    (hs1p : 0 < rd w (fa + 3)) (hs2p : 0 < rd w (fa + 1)) (hpc : ¬ 3 < pc) :
    (1 < rd w (fa + 1) / rd w (fa + 3) * Real.sin (rd w fa) →
      solveASS w st pc fa = { st with error := some .noSolution }) ∧
    (¬ 1 < rd w (fa + 1) / rd w (fa + 3) * Real.sin (rd w fa) →
      rd w (fa + 1) ≤ rd w (fa + 3) →
      (0 < Real.pi - rd w fa -
          (if rd w (fa + 1) / rd w (fa + 3) * Real.sin (rd w fa) = 1 then Real.pi / 2
            else Real.arcsin (rd w (fa + 1) / rd w (fa + 3) * Real.sin (rd w fa))) →
        ∃ w3, GoodW w3 ∧
          rd w3 (fa + 4) =
            (if rd w (fa + 1) / rd w (fa + 3) * Real.sin (rd w fa) = 1 then Real.pi / 2
              else Real.arcsin (rd w (fa + 1) / rd w (fa + 3) * Real.sin (rd w fa))) ∧
          solveASS w st pc fa =
            { st with solutions := st.solutions ++ [mkSolution w3 (convOut st.mode)] }) ∧
      (Real.pi - rd w fa -
          (if rd w (fa + 1) / rd w (fa + 3) * Real.sin (rd w fa) = 1 then Real.pi / 2
            else Real.arcsin (rd w (fa + 1) / rd w (fa + 3) * Real.sin (rd w fa))) ≤ 0 →
        solveASS w st pc fa = { st with error := some .noSolution })) ∧
    (¬ 1 < rd w (fa + 1) / rd w (fa + 3) * Real.sin (rd w fa) →
      rd w (fa + 3) < rd w (fa + 1) →
      (rd w fa < Real.pi / 2 →
        ∃ w3 v3, GoodW w3 ∧ GoodW v3 ∧
          rd w3 (fa + 4) = Real.arcsin (rd w (fa + 1) / rd w (fa + 3) * Real.sin (rd w fa)) ∧
          rd v3 (fa + 4) =
            Real.pi - Real.arcsin (rd w (fa + 1) / rd w (fa + 3) * Real.sin (rd w fa)) ∧
          solveASS w st pc fa =
            { st with solutions := st.solutions ++
              [mkSolution w3 (convOut st.mode), mkSolution v3 (convOut st.mode)] }) ∧
      (Real.pi / 2 ≤ rd w fa →
        solveASS w st pc fa = { st with error := some .noSolution })) := by
  have hsθ : 0 < Real.sin (rd w fa) := Real.sin_pos_of_pos_of_lt_pi hθ1 hθ2
  have hD0 : 0 < rd w (fa + 1) / rd w (fa + 3) * Real.sin (rd w fa) :=
    mul_pos (div_pos hs2p hs1p) hsθ
  refine ⟨fun hD => ?_, fun hD hle => ?_, fun hD hlt => ?_⟩
  · simp only [solveASS]
    rw [if_pos hD]
  · have hD1 : rd w (fa + 1) / rd w (fa + 3) * Real.sin (rd w fa) ≤ 1 := not_lt.1 hD
    obtain ⟨hu0, huh, hsinu⟩ := ssaU_facts hD0 hD1
    set u := (if rd w (fa + 1) / rd w (fa + 3) * Real.sin (rd w fa) = 1 then Real.pi / 2
      else Real.arcsin (rd w (fa + 1) / rd w (fa + 3) * Real.sin (rd w fa))) with hu
    set w1 := upd w (fa + 4) u with hw1
    set w2 := upd w1 (fa + 2) (Real.pi - rd w fa - rd w1 (fa + 4)) with hw2
    set w3 := upd w2 (fa + 5)
      (rd w (fa + 3) * (Real.sin (rd w2 (fa + 2)) / Real.sin (rd w fa))) with hw3
    have hdef : solveASS w st pc fa = addSolutionToResult w3 st pc := by
      simp only [solveASS]
      rw [if_neg hD, if_pos hle]
    have r1u : rd w1 (fa + 4) = u := by
      rw [hw1]
      exact rd_upd_eq (by omega)
    have r2g : rd w2 (fa + 2) = Real.pi - rd w fa - u := by
      rw [hw2, r1u]
      exact rd_upd_eq (by omega)
    have r3fa : rd w3 fa = rd w fa := by
      rw [hw3, rd_upd_ne (by omega), hw2, rd_upd_ne (by omega), hw1, rd_upd_ne (by omega)]
    have r3s1 : rd w3 (fa + 3) = rd w (fa + 3) := by
      rw [hw3, rd_upd_ne (by omega), hw2, rd_upd_ne (by omega), hw1, rd_upd_ne (by omega)]
    have r3s2 : rd w3 (fa + 1) = rd w (fa + 1) := by
      rw [hw3, rd_upd_ne (by omega), hw2, rd_upd_ne (by omega), hw1, rd_upd_ne (by omega)]
    have r3u : rd w3 (fa + 4) = u := by
      rw [hw3, rd_upd_ne (by omega), hw2, rd_upd_ne (by omega), r1u]
    have r3g : rd w3 (fa + 2) = Real.pi - rd w fa - u := by
      rw [hw3, rd_upd_ne (by omega), r2g]
    have r3c : rd w3 (fa + 5) =
        rd w (fa + 3) * (Real.sin (Real.pi - rd w fa - u) / Real.sin (rd w fa)) := by
      rw [hw3, rd_upd_eq (by omega), r2g]
    obtain ⟨hiff, hgood⟩ := ass_candidate hfa hθ1 hθ2 hs1p hs2p r3fa r3s1 r3s2 r3u r3g r3c
      hu0 (by linarith [Real.pi_pos]) hsinu
    constructor
    · intro hγ
      refine ⟨w3, hgood hγ, r3u, ?_⟩
      rw [hdef, addSolution_push (fun h => absurd h hpc) (hiff.2 hγ)]
    · intro hγ
      rw [hdef, addSolution_invalid (fun h => absurd h hpc) ?_]
      intro hvc
      have := hiff.1 hvc
      linarith
  · have hD1 : rd w (fa + 1) / rd w (fa + 3) * Real.sin (rd w fa) ≤ 1 := not_lt.1 hD
    set D := rd w (fa + 1) / rd w (fa + 3) * Real.sin (rd w fa) with hDd
    set mys := Real.arcsin D with hmys
    have hmys0 : 0 < mys := Real.arcsin_pos.2 hD0
    have hmysh : mys ≤ Real.pi / 2 := Real.arcsin_le_pi_div_two D
    have hsinmys : Real.sin mys = D := Real.sin_arcsin (by linarith) hD1
    set w1 := upd w (fa + 4) mys with hw1
    set w2 := upd w1 (fa + 2) (Real.pi - rd w fa - rd w1 (fa + 4)) with hw2
    set w3 := upd w2 (fa + 5)
      (rd w (fa + 3) * (Real.sin (rd w2 (fa + 2)) / Real.sin (rd w fa))) with hw3
    set v1 := upd w3 (fa + 4) (Real.pi - mys) with hv1
    set v2 := upd v1 (fa + 2) (Real.pi - rd w fa - rd v1 (fa + 4)) with hv2
    set v3 := upd v2 (fa + 5)
      (rd w (fa + 3) * (Real.sin (rd v2 (fa + 2)) / Real.sin (rd w fa))) with hv3
    have hdef : solveASS w st pc fa =
        addSolutionToResult v3 (addSolutionToResult w3 st pc) pc := by
      simp only [solveASS]
      rw [if_neg hD, if_neg (not_le.2 hlt)]
    have r1u : rd w1 (fa + 4) = mys := by
      rw [hw1]
      exact rd_upd_eq (by omega)
    have r2g : rd w2 (fa + 2) = Real.pi - rd w fa - mys := by
      rw [hw2, r1u]
      exact rd_upd_eq (by omega)
    have r3fa : rd w3 fa = rd w fa := by
      rw [hw3, rd_upd_ne (by omega), hw2, rd_upd_ne (by omega), hw1, rd_upd_ne (by omega)]
    have r3s1 : rd w3 (fa + 3) = rd w (fa + 3) := by
      rw [hw3, rd_upd_ne (by omega), hw2, rd_upd_ne (by omega), hw1, rd_upd_ne (by omega)]
    have r3s2 : rd w3 (fa + 1) = rd w (fa + 1) := by
      rw [hw3, rd_upd_ne (by omega), hw2, rd_upd_ne (by omega), hw1, rd_upd_ne (by omega)]
    have r3u : rd w3 (fa + 4) = mys := by
      rw [hw3, rd_upd_ne (by omega), hw2, rd_upd_ne (by omega), r1u]
    have r3g : rd w3 (fa + 2) = Real.pi - rd w fa - mys := by
      rw [hw3, rd_upd_ne (by omega), r2g]
    have r3c : rd w3 (fa + 5) =
        rd w (fa + 3) * (Real.sin (Real.pi - rd w fa - mys) / Real.sin (rd w fa)) := by
      rw [hw3, rd_upd_eq (by omega), r2g]
    have s1u : rd v1 (fa + 4) = Real.pi - mys := by
      rw [hv1]
      exact rd_upd_eq (by omega)
    have s2g : rd v2 (fa + 2) = Real.pi - rd w fa - (Real.pi - mys) := by
      rw [hv2, s1u]
      exact rd_upd_eq (by omega)
    have s3fa : rd v3 fa = rd w fa := by
      rw [hv3, rd_upd_ne (by omega), hv2, rd_upd_ne (by omega), hv1, rd_upd_ne (by omega), r3fa]
    have s3s1 : rd v3 (fa + 3) = rd w (fa + 3) := by
      rw [hv3, rd_upd_ne (by omega), hv2, rd_upd_ne (by omega), hv1, rd_upd_ne (by omega), r3s1]
    have s3s2 : rd v3 (fa + 1) = rd w (fa + 1) := by
      rw [hv3, rd_upd_ne (by omega), hv2, rd_upd_ne (by omega), hv1, rd_upd_ne (by omega), r3s2]
    have s3u : rd v3 (fa + 4) = Real.pi - mys := by
      rw [hv3, rd_upd_ne (by omega), hv2, rd_upd_ne (by omega), s1u]
    have s3g : rd v3 (fa + 2) = Real.pi - rd w fa - (Real.pi - mys) := by
      rw [hv3, rd_upd_ne (by omega), s2g]
    have s3c : rd v3 (fa + 5) =
        rd w (fa + 3) *
          (Real.sin (Real.pi - rd w fa - (Real.pi - mys)) / Real.sin (rd w fa)) := by
      rw [hv3, rd_upd_eq (by omega), s2g]
    obtain ⟨hiff1, hgood1⟩ := ass_candidate hfa hθ1 hθ2 hs1p hs2p r3fa r3s1 r3s2 r3u r3g r3c
      hmys0 (by linarith [Real.pi_pos]) hsinmys
    obtain ⟨hiff2, hgood2⟩ := ass_candidate hfa hθ1 hθ2 hs1p hs2p s3fa s3s1 s3s2 s3u s3g s3c
      (by linarith [Real.pi_gt_three]) (by linarith)
      (by rw [Real.sin_pi_sub, hsinmys])
    have hsltD : Real.sin (rd w fa) < D := by
      rw [hDd]
      have h1 : 1 < rd w (fa + 1) / rd w (fa + 3) := (one_lt_div hs1p).2 hlt
      nlinarith [hsθ]
    constructor
    · intro hth
      have hγ1 : 0 < Real.pi - rd w fa - mys := by
        have := hmysh
        linarith
      have hγ2 : 0 < Real.pi - rd w fa - (Real.pi - mys) := by
        have hgt : rd w fa < mys := by
          rw [hmys]
          exact arcsin_gt_of_sin_lt hθ1.le hth.le hsltD hD1
        linarith
      refine ⟨w3, v3, hgood1 hγ1, hgood2 hγ2, r3u, s3u, ?_⟩
      rw [hdef, addSolution_push (fun h => absurd h hpc) (hiff1.2 hγ1)]
      rw [addSolution_push (fun h => absurd h hpc) (hiff2.2 hγ2)]
      simp
    · intro hth
      have hγ1 : Real.pi - rd w fa - mys < 0 := by
        have hgt : Real.pi - rd w fa < mys := by
          rw [hmys]
          refine arcsin_gt_of_sin_lt (by linarith) (by linarith) ?_ hD1
          rwa [Real.sin_pi_sub]
        linarith
      have hγ2 : Real.pi - rd w fa - (Real.pi - mys) ≤ 0 := by
        linarith
      have hst1 : addSolutionToResult w3 st pc =
          { st with error := some SolveError.noSolution } := by
        apply addSolution_invalid (fun h => absurd h hpc)
        intro hvc
        have := hiff1.1 hvc
        linarith
      have hst2 : addSolutionToResult v3 { st with error := some SolveError.noSolution } pc =
          { st with error := some SolveError.noSolution } := by
        have h2 : addSolutionToResult v3 { st with error := some SolveError.noSolution } pc =
            { { st with error := some SolveError.noSolution } with
                error := some SolveError.noSolution } := by
          apply addSolution_invalid (fun h => absurd h hpc)
          intro hvc
          have := hiff2.1 hvc
          linarith
        rw [h2]
      rw [hdef, hst1, hst2]

/-! ## The master characterisation of `solve` -/

theorem side_ok {o : Option ℝ} (h : ¬ sideBadP o) (hs : o.isSome = true) : 0 < o.getD 0 := by
  cases o with
  | none => simp at hs
  | some x =>
    simp only [Option.getD_some]
    by_contra hx
    exact h (le_of_not_lt hx)

theorem angle_ok {cv : ℝ} {o : Option ℝ} (h : ¬ angleBadP cv o) (hs : o.isSome = true) :
    0 < cv * o.getD 0 ∧ cv * o.getD 0 < Real.pi := by
  cases o with
  | none => simp at hs
  | some x =>
    simp only [Option.getD_some]
    unfold angleBadP at h
    constructor
    · by_contra hx
      exact h (Or.inl (le_of_not_lt hx))
    · by_contra hx
      exact h (Or.inr (le_of_not_lt hx))

theorem solve_master (a b c alpha beta gamma : Option ℝ) (mode : String) :
    (∃ e, (solve a b c alpha beta gamma mode).error = some e ∧
      (solve a b c alpha beta gamma mode).solutions = []) ∨
    ((solve a b c alpha beta gamma mode).error = none ∧
      (solve a b c alpha beta gamma mode).solutions ≠ [] ∧
      (mode = "deg" ∨ mode = "rad") ∧
      ∀ s ∈ (solve a b c alpha beta gamma mode).solutions,
        ∃ w, GoodW w ∧ s = mkSolution w (convOut mode)) := by
  by_cases hmode : mode = "deg" ∨ mode = "rad"
  case neg =>
    have hEq : solve a b c alpha beta gamma mode =
        { a := a, b := b, c := c, alpha := alpha, beta := beta, gamma := gamma, mode := mode,
          solutions := [], error := some (.unknownMode mode) } := by
      simp only [solve]
      rw [if_pos hmode]
    exact Or.inl ⟨.unknownMode mode, by rw [hEq], by rw [hEq]⟩
  case pos =>
  by_cases hba : sideBadP a
  · have hEq : solve a b c alpha beta gamma mode =
        { a := a, b := b, c := c, alpha := alpha, beta := beta, gamma := gamma, mode := mode,
          solutions := [], error := some (.illegalValue "a") } := by
      simp only [solve]
      rw [if_neg (not_not_intro hmode), if_pos hba]
    exact Or.inl ⟨.illegalValue "a", by rw [hEq], by rw [hEq]⟩
  by_cases hbb : sideBadP b
  · have hEq : solve a b c alpha beta gamma mode =
        { a := a, b := b, c := c, alpha := alpha, beta := beta, gamma := gamma, mode := mode,
          solutions := [], error := some (.illegalValue "b") } := by
      simp only [solve]
      rw [if_neg (not_not_intro hmode), if_neg hba, if_pos hbb]
    exact Or.inl ⟨.illegalValue "b", by rw [hEq], by rw [hEq]⟩
  by_cases hbc : sideBadP c
  · have hEq : solve a b c alpha beta gamma mode =
        { a := a, b := b, c := c, alpha := alpha, beta := beta, gamma := gamma, mode := mode,
          solutions := [], error := some (.illegalValue "c") } := by
      simp only [solve]
      rw [if_neg (not_not_intro hmode), if_neg hba, if_neg hbb, if_pos hbc]
    exact Or.inl ⟨.illegalValue "c", by rw [hEq], by rw [hEq]⟩
  by_cases hbg : angleBadP (convIn mode) gamma
  · have hEq : solve a b c alpha beta gamma mode =
        { a := a, b := b, c := c, alpha := alpha, beta := beta, gamma := gamma, mode := mode,
          solutions := [], error := some (.illegalValue "gamma") } := by
      simp only [solve]
      rw [if_neg (not_not_intro hmode), if_neg hba, if_neg hbb, if_neg hbc, if_pos hbg]
    exact Or.inl ⟨.illegalValue "gamma", by rw [hEq], by rw [hEq]⟩
  by_cases hbal : angleBadP (convIn mode) alpha
  · have hEq : solve a b c alpha beta gamma mode =
        { a := a, b := b, c := c, alpha := alpha, beta := beta, gamma := gamma, mode := mode,
          solutions := [], error := some (.illegalValue "alpha") } := by
      simp only [solve]
      rw [if_neg (not_not_intro hmode), if_neg hba, if_neg hbb, if_neg hbc, if_neg hbg,
        if_pos hbal]
    exact Or.inl ⟨.illegalValue "alpha", by rw [hEq], by rw [hEq]⟩
  by_cases hbbe : angleBadP (convIn mode) beta
  · have hEq : solve a b c alpha beta gamma mode =
        { a := a, b := b, c := c, alpha := alpha, beta := beta, gamma := gamma, mode := mode,
          solutions := [], error := some (.illegalValue "beta") } := by
      simp only [solve]
      rw [if_neg (not_not_intro hmode), if_neg hba, if_neg hbb, if_neg hbc, if_neg hbg,
        if_neg hbal, if_pos hbbe]
    exact Or.inl ⟨.illegalValue "beta", by rw [hEq], by rw [hEq]⟩
  set p := presOf a b c alpha beta gamma with hp
  set w := valArrayOf a b c alpha beta gamma (convIn mode) with hw
  by_cases hpc3 : sideCountP p + angleCountP p < 3
  · have hEq : solve a b c alpha beta gamma mode =
        { a := a, b := b, c := c, alpha := alpha, beta := beta, gamma := gamma, mode := mode,
          solutions := [], error := some .tooFewParameters } := by
      simp only [solve]
      rw [if_neg (not_not_intro hmode), if_neg hba, if_neg hbb, if_neg hbc, if_neg hbg,
        if_neg hbal, if_neg hbbe, if_pos hpc3]
    exact Or.inl ⟨.tooFewParameters, by rw [hEq], by rw [hEq]⟩
  by_cases hsc0 : sideCountP p = 0
  · have hEq : solve a b c alpha beta gamma mode =
        { a := a, b := b, c := c, alpha := alpha, beta := beta, gamma := gamma, mode := mode,
          solutions := [], error := some .noSideLength } := by
      simp only [solve]
      rw [if_neg (not_not_intro hmode), if_neg hba, if_neg hbb, if_neg hbc, if_neg hbg,
        if_neg hbal, if_neg hbbe, if_neg hpc3, if_pos hsc0]
    exact Or.inl ⟨.noSideLength, by rw [hEq], by rw [hEq]⟩
  have hsolveEq : solve a b c alpha beta gamma mode =
      dispatch (a.getD 0) (b.getD 0) (c.getD 0) w p
        ⟨a, b, c, alpha, beta, gamma, mode, [], none⟩
        (sideCountP p + angleCountP p) (sideCountP p) (firstSideIdx p) (firstAngleIdx p) := by
    simp only [solve]
    rw [if_neg (not_not_intro hmode), if_neg hba, if_neg hbb, if_neg hbc, if_neg hbg,
      if_neg hbal, if_neg hbbe, if_neg hpc3, if_neg hsc0]
  have Hside : ∀ j : Fin 6, j = 0 ∨ j = 2 ∨ j = 4 → p j = true → 0 < w j := by
    intro j hj hpj
    rcases hj with h | h | h <;> subst h
    · rw [hp, presOf, mkP_at_0] at hpj
      rw [hw, valArrayOf, mkW_at_0]
      exact side_ok hba hpj
    · rw [hp, presOf, mkP_at_2] at hpj
      rw [hw, valArrayOf, mkW_at_2]
      exact side_ok hbb hpj
    · rw [hp, presOf, mkP_at_4] at hpj
      rw [hw, valArrayOf, mkW_at_4]
      exact side_ok hbc hpj
  have Hangle : ∀ j : Fin 6, j = 1 ∨ j = 3 ∨ j = 5 → p j = true →
      0 < w j ∧ w j < Real.pi := by
    intro j hj hpj
    rcases hj with h | h | h <;> subst h
    · rw [hp, presOf, mkP_at_1] at hpj
      rw [hw, valArrayOf, mkW_at_1]
      exact angle_ok hbg hpj
    · rw [hp, presOf, mkP_at_3] at hpj
      rw [hw, valArrayOf, mkW_at_3]
      exact angle_ok hbal hpj
    · rw [hp, presOf, mkP_at_5] at hpj
      rw [hw, valArrayOf, mkW_at_5]
      exact angle_ok hbbe hpj
  have HP : ∀ j : Fin 6, p j = true → w j ≠ 0 := by
    intro j hpj
    fin_cases j
    · exact ne_of_gt (Hside 0 (Or.inl rfl) hpj)
    · exact ne_of_gt (Hangle 1 (Or.inl rfl) hpj).1
    · exact ne_of_gt (Hside 2 (Or.inr (Or.inl rfl)) hpj)
    · exact ne_of_gt (Hangle 3 (Or.inr (Or.inl rfl)) hpj).1
    · exact ne_of_gt (Hside 4 (Or.inr (Or.inr rfl)) hpj)
    · exact ne_of_gt (Hangle 5 (Or.inr (Or.inr rfl)) hpj).1
  rw [hsolveEq]
  have hpcge : 3 ≤ sideCountP p + angleCountP p := le_of_not_lt hpc3
  have hscge : 1 ≤ sideCountP p := Nat.one_le_iff_ne_zero.2 hsc0
  by_cases hsc3 : sideCountP p = 3
  · have hd : dispatch (a.getD 0) (b.getD 0) (c.getD 0) w p
        ⟨a, b, c, alpha, beta, gamma, mode, [], none⟩
        (sideCountP p + angleCountP p) (sideCountP p) (firstSideIdx p) (firstAngleIdx p) =
        solveSSS (a.getD 0) (b.getD 0) (c.getD 0) w
          ⟨a, b, c, alpha, beta, gamma, mode, [], none⟩
          (sideCountP p + angleCountP p) := by
      simp only [dispatch]
      rw [if_pos hsc3]
    rw [hd]
    rcases solveSSS_master (a.getD 0) (b.getD 0) (c.getD 0) w
        ⟨a, b, c, alpha, beta, gamma, mode, [], none⟩ (sideCountP p + angleCountP p)
        rfl rfl rfl with ⟨e, he⟩ | ⟨w2, hg, he⟩
    · exact Or.inl ⟨e, by rw [he], by rw [he]⟩
    · rw [he]
      refine Or.inr ⟨rfl, by simp, hmode, ?_⟩
      intro s hs
      simp only [List.nil_append, List.mem_singleton] at hs
      exact ⟨w2, hg, hs⟩
  · -- non-SSS branches
    have hacge : 1 ≤ angleCountP p := pattern_angle_pos p hpcge hsc3
    have hfs := pattern_fs_cases p hscge
    have hfa := pattern_fa_cases p hacge
    set st0 : SolveState := ⟨a, b, c, alpha, beta, gamma, mode, [], none⟩ with hst0
    set pc := sideCountP p + angleCountP p with hpcd
    by_cases hA : CondASA p w (firstSideIdx p)
    · have hd : dispatch (a.getD 0) (b.getD 0) (c.getD 0) w p st0 pc (sideCountP p)
          (firstSideIdx p) (firstAngleIdx p) = solveASA w st0 pc (firstSideIdx p) := by
        simp only [dispatch]
        rw [if_neg hsc3, if_pos hA]
      rw [hd]
      rcases solveASA_master w st0 pc hfs with ⟨e, he⟩ | ⟨w3, hg, he⟩
      · exact Or.inl ⟨e, by rw [he], by rw [he]⟩
      · rw [he]
        refine Or.inr ⟨rfl, by simp, hmode, ?_⟩
        intro s hs
        simp only [hst0, List.nil_append, List.mem_singleton] at hs
        exact ⟨w3, hg, hs⟩
    by_cases hB : CondSAS p w (firstAngleIdx p)
    · have hd : dispatch (a.getD 0) (b.getD 0) (c.getD 0) w p st0 pc (sideCountP p)
          (firstSideIdx p) (firstAngleIdx p) = solveSAS w st0 pc (firstAngleIdx p) := by
        simp only [dispatch]
        rw [if_neg hsc3, if_neg hA, if_pos hB]
      rw [hd]
      rcases solveSAS_master w st0 pc hfa with ⟨e, he⟩ | ⟨w3, hg, he⟩
      · exact Or.inl ⟨e, by rw [he], by rw [he]⟩
      · rw [he]
        refine Or.inr ⟨rfl, by simp, hmode, ?_⟩
        intro s hs
        simp only [hst0, List.nil_append, List.mem_singleton] at hs
        exact ⟨w3, hg, hs⟩
    by_cases hC : CondSAA p w (firstSideIdx p)
    · have hd : dispatch (a.getD 0) (b.getD 0) (c.getD 0) w p st0 pc (sideCountP p)
          (firstSideIdx p) (firstAngleIdx p) = solveSAA w st0 pc (firstSideIdx p) := by
        simp only [dispatch]
        rw [if_neg hsc3, if_neg hA, if_neg hB, if_pos hC]
      rw [hd]
      rcases solveSAA_master w st0 pc hfs with ⟨e, he⟩ | ⟨w3, hg, he⟩
      · exact Or.inl ⟨e, by rw [he], by rw [he]⟩
      · rw [he]
        refine Or.inr ⟨rfl, by simp, hmode, ?_⟩
        intro s hs
        simp only [hst0, List.nil_append, List.mem_singleton] at hs
        exact ⟨w3, hg, hs⟩
    by_cases hD : CondAAS p w (firstSideIdx p)
    · have hd : dispatch (a.getD 0) (b.getD 0) (c.getD 0) w p st0 pc (sideCountP p)
          (firstSideIdx p) (firstAngleIdx p) = solveAAS w st0 pc (firstSideIdx p) := by
        simp only [dispatch]
        rw [if_neg hsc3, if_neg hA, if_neg hB, if_neg hC, if_pos hD]
      rw [hd]
      rcases solveAAS_master w st0 pc hfs with ⟨e, he⟩ | ⟨w3, hg, he⟩
      · exact Or.inl ⟨e, by rw [he], by rw [he]⟩
      · rw [he]
        refine Or.inr ⟨rfl, by simp, hmode, ?_⟩
        intro s hs
        simp only [hst0, List.nil_append, List.mem_singleton] at hs
        exact ⟨w3, hg, hs⟩
    -- facts shared by the ambiguous branches
    have hfaP : p (zmod6 (firstAngleIdx p)) = true := pattern_fa_present p hacge
    have hθr : 0 < rd w (firstAngleIdx p) ∧ rd w (firstAngleIdx p) < Real.pi := by
      rcases hfa with h | h | h <;> rw [h] <;> rw [h] at hfaP
      · exact Hangle 1 (Or.inl rfl) hfaP
      · exact Hangle 3 (Or.inr (Or.inl rfl)) hfaP
      · exact Hangle 5 (Or.inr (Or.inr rfl)) hfaP
    by_cases hE : CondSSA p w (firstAngleIdx p)
    · have hd : dispatch (a.getD 0) (b.getD 0) (c.getD 0) w p st0 pc (sideCountP p)
          (firstSideIdx p) (firstAngleIdx p) = solveSSA w st0 pc (firstAngleIdx p) := by
        simp only [dispatch]
        rw [if_neg hsc3, if_neg hA, if_neg hB, if_neg hC, if_neg hD, if_pos hE]
      rw [hd]
      have hs1r : 0 < rd w (firstAngleIdx p + 3) := by
        have hpr := hE.2.1
        rcases hfa with h | h | h <;> rw [h] <;> rw [h] at hpr
        · exact Hside 4 (Or.inr (Or.inr rfl)) hpr
        · exact Hside 0 (Or.inl rfl) hpr
        · exact Hside 2 (Or.inr (Or.inl rfl)) hpr
      have hs2r : 0 < rd w (firstAngleIdx p + 5) := by
        have hpr := hE.1.1
        rcases hfa with h | h | h <;> rw [h] <;> rw [h] at hpr
        · exact Hside 0 (Or.inl rfl) hpr
        · exact Hside 2 (Or.inr (Or.inl rfl)) hpr
        · exact Hside 4 (Or.inr (Or.inr rfl)) hpr
      have tA : ¬(p (zmod6 (firstSideIdx p + 5)) = true ∧
          p (zmod6 (firstSideIdx p + 1)) = true) := by
        rintro ⟨h1, h2⟩
        exact hA ⟨(tru_iff HP _).2 h1, (tru_iff HP _).2 h2⟩
      have tB : ¬(p (zmod6 (firstAngleIdx p + 5)) = true ∧
          p (zmod6 (firstAngleIdx p + 1)) = true) := by
        rintro ⟨h1, h2⟩
        exact hB ⟨(tru_iff HP _).2 h1, (tru_iff HP _).2 h2⟩
      have tC : ¬(p (zmod6 (firstSideIdx p + 1)) = true ∧
          p (zmod6 (firstSideIdx p + 3)) = true) := by
        rintro ⟨h1, h2⟩
        exact hC ⟨(tru_iff HP _).2 h1, (tru_iff HP _).2 h2⟩
      have tD : ¬(p (zmod6 (firstSideIdx p + 5)) = true ∧
          p (zmod6 (firstSideIdx p + 3)) = true) := by
        rintro ⟨h1, h2⟩
        exact hD ⟨(tru_iff HP _).2 h1, (tru_iff HP _).2 h2⟩
      have hpceq : sideCountP p + angleCountP p = 3 :=
        pattern_ssa_pc p hpcge hscge hsc3 tA tB tC tD ⟨hE.1.1, hE.2.1⟩
      have hpcn : ¬ 3 < pc := by
        rw [hpcd, hpceq]
        omega
      obtain ⟨part1, part2, part3⟩ :=
        solveSSA_cases w st0 pc hfa hθr.1 hθr.2 hs1r hs2r hpcn
      rcases lt_or_le 1 (rd w (firstAngleIdx p + 5) / rd w (firstAngleIdx p + 3) *
          Real.sin (rd w (firstAngleIdx p))) with hgt | hle1
      · rw [part1 hgt]
        exact Or.inl ⟨.noSolution, rfl, rfl⟩
      · rcases le_or_lt (rd w (firstAngleIdx p + 5)) (rd w (firstAngleIdx p + 3)) with hle | hlt
        · rcases lt_or_le 0 (Real.pi - rd w (firstAngleIdx p) -
              (if rd w (firstAngleIdx p + 5) / rd w (firstAngleIdx p + 3) *
                  Real.sin (rd w (firstAngleIdx p)) = 1 then Real.pi / 2
                else Real.arcsin (rd w (firstAngleIdx p + 5) / rd w (firstAngleIdx p + 3) *
                  Real.sin (rd w (firstAngleIdx p))))) with hγ | hγ
          · obtain ⟨w3, hg, hu, he⟩ := ((part2 (not_lt.2 hle1) hle).1) hγ
            rw [he]
            refine Or.inr ⟨rfl, by simp, hmode, ?_⟩
            intro s hs
            simp only [hst0, List.nil_append, List.mem_singleton] at hs
            exact ⟨w3, hg, hs⟩
          · rw [(part2 (not_lt.2 hle1) hle).2 hγ]
            exact Or.inl ⟨.noSolution, rfl, rfl⟩
        · rcases lt_or_le (rd w (firstAngleIdx p)) (Real.pi / 2) with hth | hth
          · obtain ⟨w3, v3, hg1, hg2, hu1, hu2, he⟩ := ((part3 (not_lt.2 hle1) hlt).1) hth
            rw [he]
            refine Or.inr ⟨rfl, by simp, hmode, ?_⟩
            intro s hs
            simp only [hst0, List.nil_append, List.mem_cons, List.mem_singleton] at hs
            rcases hs with hs | hs | hs
            · exact ⟨w3, hg1, hs⟩
            · exact ⟨v3, hg2, hs⟩
            · exact absurd hs (List.not_mem_nil s)
          · rw [(part3 (not_lt.2 hle1) hlt).2 hth]
            exact Or.inl ⟨.noSolution, rfl, rfl⟩
    by_cases hF : CondASS p w (firstAngleIdx p)
    · have hd : dispatch (a.getD 0) (b.getD 0) (c.getD 0) w p st0 pc (sideCountP p)
          (firstSideIdx p) (firstAngleIdx p) = solveASS w st0 pc (firstAngleIdx p) := by
        simp only [dispatch]
        rw [if_neg hsc3, if_neg hA, if_neg hB, if_neg hC, if_neg hD, if_neg hE, if_pos hF]
      rw [hd]
      have hs1r : 0 < rd w (firstAngleIdx p + 3) := by
        have hpr := hF.2.1
        rcases hfa with h | h | h <;> rw [h] <;> rw [h] at hpr
        · exact Hside 4 (Or.inr (Or.inr rfl)) hpr
        · exact Hside 0 (Or.inl rfl) hpr
        · exact Hside 2 (Or.inr (Or.inl rfl)) hpr
      have hs2r : 0 < rd w (firstAngleIdx p + 1) := by
        have hpr := hF.1.1
        rcases hfa with h | h | h <;> rw [h] <;> rw [h] at hpr
        · exact Hside 2 (Or.inr (Or.inl rfl)) hpr
        · exact Hside 4 (Or.inr (Or.inr rfl)) hpr
        · exact Hside 0 (Or.inl rfl) hpr
      have tA : ¬(p (zmod6 (firstSideIdx p + 5)) = true ∧
          p (zmod6 (firstSideIdx p + 1)) = true) := by
        rintro ⟨h1, h2⟩
        exact hA ⟨(tru_iff HP _).2 h1, (tru_iff HP _).2 h2⟩
      have tB : ¬(p (zmod6 (firstAngleIdx p + 5)) = true ∧
          p (zmod6 (firstAngleIdx p + 1)) = true) := by
        rintro ⟨h1, h2⟩
        exact hB ⟨(tru_iff HP _).2 h1, (tru_iff HP _).2 h2⟩
      have tC : ¬(p (zmod6 (firstSideIdx p + 1)) = true ∧
          p (zmod6 (firstSideIdx p + 3)) = true) := by
        rintro ⟨h1, h2⟩
        exact hC ⟨(tru_iff HP _).2 h1, (tru_iff HP _).2 h2⟩
      have tD : ¬(p (zmod6 (firstSideIdx p + 5)) = true ∧
          p (zmod6 (firstSideIdx p + 3)) = true) := by
        rintro ⟨h1, h2⟩
        exact hD ⟨(tru_iff HP _).2 h1, (tru_iff HP _).2 h2⟩
      have tE : ¬(p (zmod6 (firstAngleIdx p + 5)) = true ∧
          p (zmod6 (firstAngleIdx p + 3)) = true) := by
        rintro ⟨h1, h2⟩
        exact hE ⟨(tru_iff HP _).2 h1, (tru_iff HP _).2 h2⟩
      have hpceq : sideCountP p + angleCountP p = 3 :=
        pattern_ass_pc p hpcge hscge hsc3 tA tB tC tD tE ⟨hF.1.1, hF.2.1⟩
      have hpcn : ¬ 3 < pc := by
        rw [hpcd, hpceq]
        omega
      obtain ⟨part1, part2, part3⟩ :=
        solveASS_cases w st0 pc hfa hθr.1 hθr.2 hs1r hs2r hpcn
      rcases lt_or_le 1 (rd w (firstAngleIdx p + 1) / rd w (firstAngleIdx p + 3) *
          Real.sin (rd w (firstAngleIdx p))) with hgt | hle1
      · rw [part1 hgt]
        exact Or.inl ⟨.noSolution, rfl, rfl⟩
      · rcases le_or_lt (rd w (firstAngleIdx p + 1)) (rd w (firstAngleIdx p + 3)) with hle | hlt
        · rcases lt_or_le 0 (Real.pi - rd w (firstAngleIdx p) -
              (if rd w (firstAngleIdx p + 1) / rd w (firstAngleIdx p + 3) *
                  Real.sin (rd w (firstAngleIdx p)) = 1 then Real.pi / 2
                else Real.arcsin (rd w (firstAngleIdx p + 1) / rd w (firstAngleIdx p + 3) *
                  Real.sin (rd w (firstAngleIdx p))))) with hγ | hγ
          · obtain ⟨w3, hg, hu, he⟩ := ((part2 (not_lt.2 hle1) hle).1) hγ
            rw [he]
            refine Or.inr ⟨rfl, by simp, hmode, ?_⟩
            intro s hs
            simp only [hst0, List.nil_append, List.mem_singleton] at hs
            exact ⟨w3, hg, hs⟩
          · rw [(part2 (not_lt.2 hle1) hle).2 hγ]
            exact Or.inl ⟨.noSolution, rfl, rfl⟩
        · rcases lt_or_le (rd w (firstAngleIdx p)) (Real.pi / 2) with hth | hth
          · obtain ⟨w3, v3, hg1, hg2, hu1, hu2, he⟩ := ((part3 (not_lt.2 hle1) hlt).1) hth
            rw [he]
            refine Or.inr ⟨rfl, by simp, hmode, ?_⟩
            intro s hs
            simp only [hst0, List.nil_append, List.mem_cons, List.mem_singleton] at hs
            rcases hs with hs | hs | hs
            · exact ⟨w3, hg1, hs⟩
            · exact ⟨v3, hg2, hs⟩
            · exact absurd hs (List.not_mem_nil s)
          · rw [(part3 (not_lt.2 hle1) hlt).2 hth]
            exact Or.inl ⟨.noSolution, rfl, rfl⟩
    · -- no branch matched: impossible by coverage
      exfalso
      rcases pattern_coverage p hpcge hscge hsc3 with h | h | h | h | h | h
      · exact hA ⟨(tru_iff HP _).2 h.1, (tru_iff HP _).2 h.2⟩
      · exact hB ⟨(tru_iff HP _).2 h.1, (tru_iff HP _).2 h.2⟩
      · exact hC ⟨(tru_iff HP _).2 h.1, (tru_iff HP _).2 h.2⟩
      · exact hD ⟨(tru_iff HP _).2 h.1, (tru_iff HP _).2 h.2⟩
      · exact hE ⟨(tru_iff HP _).2 h.1, (tru_iff HP _).2 h.2⟩
      · exact hF ⟨(tru_iff HP _).2 h.1, (tru_iff HP _).2 h.2⟩

/-! ## Evaluation helpers: conversion factors and the validated dispatch -/

theorem convIn_rad : convIn "rad" = 1 := by
  unfold convIn
  rw [if_neg (by decide)]

theorem convIn_deg : convIn "deg" = Real.pi / 180 := by
  unfold convIn
  rw [if_pos rfl]

theorem convOut_rad : convOut "rad" = 1 := by
  unfold convOut
  rw [if_neg (by decide)]

theorem convOut_deg : convOut "deg" = 180 / Real.pi := by
  unfold convOut
  rw [if_pos rfl]

theorem solve_dispatch_eq (a b c alpha beta gamma : Option ℝ) (mode : String)
    (hmode : mode = "deg" ∨ mode = "rad")
    (hba : ¬ sideBadP a) (hbb : ¬ sideBadP b) (hbc : ¬ sideBadP c)
    (hbg : ¬ angleBadP (convIn mode) gamma) (hbal : ¬ angleBadP (convIn mode) alpha)
    (hbbe : ¬ angleBadP (convIn mode) beta)
    (hpc3 : ¬ sideCountP (presOf a b c alpha beta gamma) +
      angleCountP (presOf a b c alpha beta gamma) < 3)
    (hsc0 : ¬ sideCountP (presOf a b c alpha beta gamma) = 0) :
    solve a b c alpha beta gamma mode =
      dispatch (a.getD 0) (b.getD 0) (c.getD 0)
        (valArrayOf a b c alpha beta gamma (convIn mode)) (presOf a b c alpha beta gamma)
        ⟨a, b, c, alpha, beta, gamma, mode, [], none⟩
        (sideCountP (presOf a b c alpha beta gamma) +
          angleCountP (presOf a b c alpha beta gamma))
        (sideCountP (presOf a b c alpha beta gamma))
        (firstSideIdx (presOf a b c alpha beta gamma))
        (firstAngleIdx (presOf a b c alpha beta gamma)) := by
  simp only [solve]
  rw [if_neg (not_not_intro hmode), if_neg hba, if_neg hbb, if_neg hbc, if_neg hbg,
    if_neg hbal, if_neg hbbe, if_neg hpc3, if_neg hsc0]

/-! ## The conflict loop: slot-level characterisation -/

theorem conflictAt_some {inp : Option ℝ} {calcv : ℝ} {name : String} {e : SolveError}
    (h : conflictAt inp calcv name = some e) :
    ∃ x, inp = some x ∧ x ≠ 0 ∧ ¬ equalFloat x calcv 0.001 ∧
      e = .inputConflict name x calcv := by
  cases inp with
  | none => exact absurd h (by simp [conflictAt])
  | some x =>
    by_cases hc : x ≠ 0 ∧ ¬ equalFloat x calcv 0.001
    · refine ⟨x, rfl, hc.1, hc.2, ?_⟩
      unfold conflictAt at h
      dsimp only at h
      rw [if_pos hc] at h
      exact (Option.some.inj h).symm
    · unfold conflictAt at h
      dsimp only at h
      rw [if_neg hc] at h
      exact absurd h (by simp)

theorem conflictAt_none {inp : Option ℝ} {calcv : ℝ} {name : String}
    (h : conflictAt inp calcv name = none) {x : ℝ} (hx : inp = some x) (hx0 : x ≠ 0) :
    equalFloat x calcv 0.001 := by
  subst hx
  unfold conflictAt at h
  dsimp only at h
  by_cases hc : x ≠ 0 ∧ ¬ equalFloat x calcv 0.001
  · rw [if_pos hc] at h
    exact absurd h (by simp)
  · rcases not_and_or.1 hc with h1 | h1
    · exact absurd hx0 h1
    · exact not_not.1 h1

theorem conflictAt_none_of_close {x calcv : ℝ} {name : String}
    (h : equalFloat x calcv 0.001) : conflictAt (some x) calcv name = none := by
  unfold conflictAt
  dsimp only
  rw [if_neg (fun hc => hc.2 h)]

theorem conflictAt_of_none {calcv : ℝ} {name : String} :
    conflictAt none calcv name = none := rfl

theorem firstConflict_none {st : SolveState} {w : Fin 6 → ℝ} {conv : ℝ}
    (h0 : conflictAt st.a (w 0) "a" = none)
    (h1 : conflictAt st.gamma (conv * w 1) "gamma" = none)
    (h2 : conflictAt st.b (w 2) "b" = none)
    (h3 : conflictAt st.alpha (conv * w 3) "alpha" = none)
    (h4 : conflictAt st.c (w 4) "c" = none)
    (h5 : conflictAt st.beta (conv * w 5) "beta" = none) :
    firstConflict st w conv = none := by
  unfold firstConflict
  rw [h0, h1, h2, h3, h4]
  exact h5

theorem firstConflict_fires {st : SolveState} {w : Fin 6 → ℝ} {conv : ℝ}
    (h : (∃ x, st.a = some x ∧ x ≠ 0 ∧ ¬ equalFloat x (w 0) 0.001) ∨
      (∃ x, st.gamma = some x ∧ x ≠ 0 ∧ ¬ equalFloat x (conv * w 1) 0.001) ∨
      (∃ x, st.b = some x ∧ x ≠ 0 ∧ ¬ equalFloat x (w 2) 0.001) ∨
      (∃ x, st.alpha = some x ∧ x ≠ 0 ∧ ¬ equalFloat x (conv * w 3) 0.001) ∨
      (∃ x, st.c = some x ∧ x ≠ 0 ∧ ¬ equalFloat x (w 4) 0.001) ∨
      (∃ x, st.beta = some x ∧ x ≠ 0 ∧ ¬ equalFloat x (conv * w 5) 0.001)) :
    ∃ name x calcv, x ≠ 0 ∧ ¬ equalFloat x calcv 0.001 ∧
      firstConflict st w conv = some (.inputConflict name x calcv) := by
  cases h0 : conflictAt st.a (w 0) "a" with
  | some e =>
    obtain ⟨x, hx, hx0, hne, he⟩ := conflictAt_some h0
    refine ⟨"a", x, w 0, hx0, hne, ?_⟩
    unfold firstConflict
    rw [h0, he]
  | none =>
  cases h1 : conflictAt st.gamma (conv * w 1) "gamma" with
  | some e =>
    obtain ⟨x, hx, hx0, hne, he⟩ := conflictAt_some h1
    refine ⟨"gamma", x, conv * w 1, hx0, hne, ?_⟩
    unfold firstConflict
    rw [h0, h1, he]
  | none =>
  cases h2 : conflictAt st.b (w 2) "b" with
  | some e =>
    obtain ⟨x, hx, hx0, hne, he⟩ := conflictAt_some h2
    refine ⟨"b", x, w 2, hx0, hne, ?_⟩
    unfold firstConflict
    rw [h0, h1, h2, he]
  | none =>
  cases h3 : conflictAt st.alpha (conv * w 3) "alpha" with
  | some e =>
    obtain ⟨x, hx, hx0, hne, he⟩ := conflictAt_some h3
    refine ⟨"alpha", x, conv * w 3, hx0, hne, ?_⟩
    unfold firstConflict
    rw [h0, h1, h2, h3, he]
  | none =>
  cases h4 : conflictAt st.c (w 4) "c" with
  | some e =>
    obtain ⟨x, hx, hx0, hne, he⟩ := conflictAt_some h4
    refine ⟨"c", x, w 4, hx0, hne, ?_⟩
    unfold firstConflict
    rw [h0, h1, h2, h3, h4, he]
  | none =>
  cases h5 : conflictAt st.beta (conv * w 5) "beta" with
  | some e =>
    obtain ⟨x, hx, hx0, hne, he⟩ := conflictAt_some h5
    refine ⟨"beta", x, conv * w 5, hx0, hne, ?_⟩
    unfold firstConflict
    rw [h0, h1, h2, h3, h4, h5, he]
  | none =>
    exfalso
    rcases h with ⟨x, hx, hx0, hne⟩ | ⟨x, hx, hx0, hne⟩ | ⟨x, hx, hx0, hne⟩ |
      ⟨x, hx, hx0, hne⟩ | ⟨x, hx, hx0, hne⟩ | ⟨x, hx, hx0, hne⟩
    · exact hne (conflictAt_none h0 hx hx0)
    · exact hne (conflictAt_none h1 hx hx0)
    · exact hne (conflictAt_none h2 hx hx0)
    · exact hne (conflictAt_none h3 hx hx0)
    · exact hne (conflictAt_none h4 hx hx0)
    · exact hne (conflictAt_none h5 hx hx0)

/-! ## The coordinate path: shape lemmas -/

theorem distance_nonneg {p1 p2 : JSPoint} {d : ℝ} (h : distance p1 p2 = .ok (some d)) :
    0 ≤ d := by
  unfold distance at h
  cases h1 : pointToArray p1 with
  | error e =>
    rw [h1] at h
    exact absurd h (by simp)
  | ok o1 =>
    rw [h1] at h
    cases h2 : pointToArray p2 with
    | error e =>
      rw [h2] at h
      exact absurd h (by simp)
    | ok o2 =>
      rw [h2] at h
      cases o1 with
      | none => exact absurd h (by simp)
      | some l1 =>
        cases o2 with
        | none => exact absurd h (by simp)
        | some l2 =>
          dsimp only at h
          cases g1 : l1.get? 0 <;> cases g2 : l1.get? 1 <;>
            cases g3 : l2.get? 0 <;> cases g4 : l2.get? 1 <;>
            rw [g1, g2, g3, g4] at h <;> dsimp only at h
          all_goals first
            | (rw [← Option.some.inj (Except.ok.inj h)]
               exact Real.sqrt_nonneg _)
            | exact absurd h (by simp)

theorem lawCosAngle_some {u v s : Option ℝ} {x : ℝ} (h : lawCosAngle u v s = some x) :
    ∃ uv vv sv, u = some uv ∧ v = some vv ∧ s = some sv ∧ uv * vv ≠ 0 := by
  cases u with
  | none => exact absurd h (by simp [lawCosAngle])
  | some uv =>
    cases v with
    | none => exact absurd h (by simp [lawCosAngle])
    | some vv =>
      cases s with
      | none => exact absurd h (by simp [lawCosAngle])
      | some sv =>
        refine ⟨uv, vv, sv, rfl, rfl, rfl, ?_⟩
        intro h0
        unfold lawCosAngle at h
        dsimp only at h
        rw [if_pos h0] at h
        exact absurd h (by simp)

theorem bary_centroid (q1 q2 q3 : List ℝ) :
    barycentricToCartesian q1 q2 q3 (1/3) (1/3) (1/3) =
      ((q1.getD 0 0 + q2.getD 0 0 + q3.getD 0 0) / 3,
        (q1.getD 1 0 + q2.getD 1 0 + q3.getD 1 0) / 3) := by
  unfold barycentricToCartesian
  rw [Prod.mk.injEq]
  constructor <;> ring

theorem jsAcos_in_range {x : ℝ} (h1 : -1 ≤ x) (h2 : x ≤ 1) :
    jsAcos x = some (Real.arccos x) := by
  unfold jsAcos
  rw [if_neg]
  rintro (h | h) <;> linarith

theorem solvePoints_success {A B C : JSPoint} {mode : String} {res : PointsResult}
    (h : solvePoints A B C mode = .ok res) (hok : res.error = none ∨ res.solutions ≠ []) :
    (mode = "deg" ∨ mode = "rad") ∧ res.error = none ∧
    ∃ s aA aB ab bc ca,
      res.solutions = [s] ∧
      distance A B = .ok (some ab) ∧ distance B C = .ok (some bc) ∧
      distance C A = .ok (some ca) ∧ 0 < ab ∧ 0 < bc ∧ 0 < ca ∧
      s.a = bc ∧ s.b = ca ∧ s.c = ab ∧
      s.alpha = convOut mode * aA ∧ s.beta = convOut mode * aB ∧
      s.gamma = convOut mode * (Real.pi - aA - aB) ∧
      s.centroid =
        barycentricToCartesian (ptList A) (ptList B) (ptList C) (1/3) (1/3) (1/3) := by
  unfold solvePoints at h
  cases c1 : checkCoordinate A with
  | error e =>
    rw [c1] at h
    exact absurd h (by simp)
  | ok b1 =>
    rw [c1] at h
    cases b1 with
    | false =>
      dsimp only at h
      have hres := Except.ok.inj h
      subst hres
      rcases hok with h' | h'
      · exact Option.noConfusion h'
      · exact absurd rfl h'
    | true =>
    dsimp only at h
    cases c2 : checkCoordinate B with
    | error e =>
      rw [c2] at h
      exact absurd h (by simp)
    | ok b2 =>
      rw [c2] at h
      cases b2 with
      | false =>
        dsimp only at h
        have hres := Except.ok.inj h
        subst hres
        rcases hok with h' | h'
        · exact Option.noConfusion h'
        · exact absurd rfl h'
      | true =>
      dsimp only at h
      cases c3 : checkCoordinate C with
      | error e =>
        rw [c3] at h
        exact absurd h (by simp)
      | ok b3 =>
        rw [c3] at h
        cases b3 with
        | false =>
          dsimp only at h
          have hres := Except.ok.inj h
          subst hres
          rcases hok with h' | h'
          · exact Option.noConfusion h'
          · exact absurd rfl h'
        | true =>
        dsimp only at h
        cases d1 : distance A B with
        | error e =>
          rw [d1] at h
          exact absurd h (by simp)
        | ok dAB =>
          rw [d1] at h
          dsimp only at h
          by_cases z1 : dAB = some 0
          · rw [if_pos z1] at h
            have hres := Except.ok.inj h
            subst hres
            rcases hok with h' | h'
            · exact Option.noConfusion h'
            · exact absurd rfl h'
          rw [if_neg z1] at h
          cases d2 : distance B C with
          | error e =>
            rw [d2] at h
            exact absurd h (by simp)
          | ok dBC =>
            rw [d2] at h
            dsimp only at h
            by_cases z2 : dBC = some 0
            · rw [if_pos z2] at h
              have hres := Except.ok.inj h
              subst hres
              rcases hok with h' | h'
              · exact Option.noConfusion h'
              · exact absurd rfl h'
            rw [if_neg z2] at h
            cases d3 : distance C A with
            | error e =>
              rw [d3] at h
              exact absurd h (by simp)
            | ok dCA =>
              rw [d3] at h
              dsimp only at h
              by_cases z3 : dCA = some 0
              · rw [if_pos z3] at h
                have hres := Except.ok.inj h
                subst hres
                rcases hok with h' | h'
                · exact Option.noConfusion h'
                · exact absurd rfl h'
              rw [if_neg z3] at h
              by_cases hm : ¬(mode = "deg" ∨ mode = "rad")
              · rw [if_pos hm] at h
                have hres := Except.ok.inj h
                subst hres
                rcases hok with h' | h'
                · exact Option.noConfusion h'
                · exact absurd rfl h'
              rw [if_neg hm] at h
              have hmode := not_not.1 hm
              by_cases hf : isFalsy (lawCosAngle dCA dAB dBC) ∨
                  isFalsy (lawCosAngle dBC dAB dCA) ∨
                  isFalsy (jsSub2 (jsSub2 (some Real.pi) (lawCosAngle dCA dAB dBC))
                    (lawCosAngle dBC dAB dCA))
              · rw [if_pos hf] at h
                have hres := Except.ok.inj h
                subst hres
                rcases hok with h' | h'
                · exact Option.noConfusion h'
                · exact absurd rfl h'
              rw [if_neg hf] at h
              push_neg at hf
              obtain ⟨hf1, hf2, _⟩ := hf
              obtain ⟨aAv, hA⟩ : ∃ x, lawCosAngle dCA dAB dBC = some x := by
                cases hE : lawCosAngle dCA dAB dBC with
                | none => exact absurd (Or.inl hE) (by rw [isFalsy] at hf1; exact hf1)
                | some x => exact ⟨x, rfl⟩
              obtain ⟨aBv, hB⟩ : ∃ x, lawCosAngle dBC dAB dCA = some x := by
                cases hE : lawCosAngle dBC dAB dCA with
                | none => exact absurd (Or.inl hE) (by rw [isFalsy] at hf2; exact hf2)
                | some x => exact ⟨x, rfl⟩
              obtain ⟨ca, ab, bc, hca, hab, hbc, _⟩ := lawCosAngle_some hA
              have hres := Except.ok.inj h
              subst hres
              have d1' : distance A B = Except.ok (some ab) :=
                d1.trans (congrArg Except.ok hab)
              have d2' : distance B C = Except.ok (some bc) :=
                d2.trans (congrArg Except.ok hbc)
              have d3' : distance C A = Except.ok (some ca) :=
                d3.trans (congrArg Except.ok hca)
              refine ⟨hmode, rfl, _, aAv, aBv, ab, bc, ca, rfl, congrArg Except.ok hab,
                congrArg Except.ok hbc, congrArg Except.ok hca, ?_, ?_, ?_,
                ?_, ?_, ?_, ?_, ?_, ?_, rfl⟩
              · refine lt_of_le_of_ne (distance_nonneg d1') ?_
                intro h0
                exact z1 (by rw [hab, ← h0])
              · refine lt_of_le_of_ne (distance_nonneg d2') ?_
                intro h0
                exact z2 (by rw [hbc, ← h0])
              · refine lt_of_le_of_ne (distance_nonneg d3') ?_
                intro h0
                exact z3 (by rw [hca, ← h0])
              · show dBC.getD 0 = bc
                rw [hbc]
                rfl
              · show dCA.getD 0 = ca
                rw [hca]
                rfl
              · show dAB.getD 0 = ab
                rw [hab]
                rfl
              · show convOut mode * (lawCosAngle dCA dAB dBC).getD 0 = convOut mode * aAv
                rw [hA]
                rfl
              · show convOut mode * (lawCosAngle dBC dAB dCA).getD 0 = convOut mode * aBv
                rw [hB]
                rfl
              · show convOut mode *
                    (jsSub2 (jsSub2 (some Real.pi) (lawCosAngle dCA dAB dBC))
                      (lawCosAngle dBC dAB dCA)).getD 0 =
                  convOut mode * (Real.pi - aAv - aBv)
                rw [hA, hB]
                rfl

/-! ## Concrete runs of the SSS path -/

theorem arccos_half : Real.arccos (1 / 2) = Real.pi / 3 := by
  rw [← Real.cos_pi_div_three]
  exact Real.arccos_cos (by positivity) (by linarith [Real.pi_pos])

theorem solveSSS_111 (w : Fin 6 → ℝ) (st : SolveState) (pc : ℕ)
    (h0 : w 0 = 1) (h2 : w 2 = 1) (h4 : w 4 = 1) :
    solveSSS 1 1 1 w st pc =
      addSolutionToResult (mkW 1 (Real.pi / 3) 1 (Real.pi / 3) 1 (Real.pi / 3)) st pc := by
  have hr : ((1 : ℝ) ^ 2 + 1 ^ 2 - 1 ^ 2) / (2 * 1 * 1) = 1 / 2 := by norm_num
  have hjs : jsAcos (((1 : ℝ) ^ 2 + 1 ^ 2 - 1 ^ 2) / (2 * 1 * 1)) = some (Real.pi / 3) := by
    rw [hr, jsAcos_in_range (by norm_num) (by norm_num), arccos_half]
  have hpi := Real.pi_pos
  unfold solveSSS
  rw [hjs]
  dsimp only
  set w2 := upd (upd (upd w 3 (Real.pi / 3)) 5 (Real.pi / 3)) 1
    (Real.pi - Real.pi / 3 - Real.pi / 3) with hw2
  have f0 : w2 0 = w 0 := by
    show rd w2 0 = w 0
    rw [hw2, rd_upd_ne (by omega), rd_upd_ne (by omega), rd_upd_ne (by omega), rd_at_0]
  have f2 : w2 2 = w 2 := by
    show rd w2 2 = w 2
    rw [hw2, rd_upd_ne (by omega), rd_upd_ne (by omega), rd_upd_ne (by omega), rd_at_2]
  have f4 : w2 4 = w 4 := by
    show rd w2 4 = w 4
    rw [hw2, rd_upd_ne (by omega), rd_upd_ne (by omega), rd_upd_ne (by omega), rd_at_4]
  have f3 : w2 3 = Real.pi / 3 := by
    show rd w2 3 = Real.pi / 3
    rw [hw2, rd_upd_ne (by omega), rd_upd_ne (by omega)]
    exact rd_upd_eq (by omega)
  have f5 : w2 5 = Real.pi / 3 := by
    show rd w2 5 = Real.pi / 3
    rw [hw2, rd_upd_ne (by omega)]
    exact rd_upd_eq (by omega)
  have f1 : w2 1 = Real.pi - Real.pi / 3 - Real.pi / 3 := by
    show rd w2 1 = Real.pi - Real.pi / 3 - Real.pi / 3
    rw [hw2]
    exact rd_upd_eq (by omega)
  have hz : ¬ ∃ i : Fin 6, w2 i = 0 := by
    rintro ⟨i, hi⟩
    fin_cases i
    · have h := f0.symm.trans hi
      rw [h0] at h
      norm_num at h
    · have h := f1.symm.trans hi
      linarith
    · have h := f2.symm.trans hi
      rw [h2] at h
      norm_num at h
    · have h := f3.symm.trans hi
      linarith
    · have h := f4.symm.trans hi
      rw [h4] at h
      norm_num at h
    · have h := f5.symm.trans hi
      linarith
  rw [if_neg hz]
  have hwe : w2 = mkW 1 (Real.pi / 3) 1 (Real.pi / 3) 1 (Real.pi / 3) := by
    funext i
    fin_cases i
    · exact f0.trans h0
    · exact f1.trans
        (show Real.pi - Real.pi / 3 - Real.pi / 3 = Real.pi / 3 by ring)
    · exact f2.trans h2
    · exact f3
    · exact f4.trans h4
    · exact f5
  rw [hwe]

theorem goodW_eq : GoodW (mkW 1 (Real.pi / 3) 1 (Real.pi / 3) 1 (Real.pi / 3)) := by
  have hpi := Real.pi_pos
  have hs3 : Real.sqrt 3 ≠ 0 := by
    positivity
  have hone : (1 : ℝ) = 2 / Real.sqrt 3 * Real.sin (Real.pi / 3) := by
    rw [Real.sin_pi_div_three]
    field_simp
  refine ⟨⟨⟨?_, ?_⟩, ⟨?_, ?_⟩, ⟨?_, ?_⟩, ?_, ?_, ?_⟩, ?_, 2 / Real.sqrt 3, ?_, ?_, ?_, ?_⟩
  · rw [mkW_at_1]
    linarith
  · rw [mkW_at_1]
    linarith
  · rw [mkW_at_3]
    linarith
  · rw [mkW_at_3]
    linarith
  · rw [mkW_at_5]
    linarith
  · rw [mkW_at_5]
    linarith
  · rw [mkW_at_0]
    norm_num
  · rw [mkW_at_2]
    norm_num
  · rw [mkW_at_4]
    norm_num
  · rw [mkW_at_1, mkW_at_3, mkW_at_5]
    ring
  · positivity
  · rw [mkW_at_0, mkW_at_3]
    exact hone
  · rw [mkW_at_2, mkW_at_5]
    exact hone
  · rw [mkW_at_4, mkW_at_1]
    exact hone

theorem solve_111 (mode : String) (hmode : mode = "deg" ∨ mode = "rad") :
    solve (some 1) (some 1) (some 1) none none none mode =
      ⟨some 1, some 1, some 1, none, none, none, mode,
        [mkSolution (mkW 1 (Real.pi / 3) 1 (Real.pi / 3) 1 (Real.pi / 3)) (convOut mode)],
        none⟩ := by
  have hd := solve_dispatch_eq (some 1) (some 1) (some 1) none none none mode hmode
    (by norm_num [sideBadP])
    (by norm_num [sideBadP])
    (by norm_num [sideBadP])
    (fun hh => hh) (fun hh => hh) (fun hh => hh)
    (by decide) (by decide)
  rw [hd]
  have hsc : sideCountP (presOf (some (1 : ℝ)) (some 1) (some 1) none none none) = 3 := by
    decide
  have hpc : sideCountP (presOf (some (1 : ℝ)) (some 1) (some 1) none none none) +
      angleCountP (presOf (some (1 : ℝ)) (some 1) (some 1) none none none) = 3 := by
    decide
  simp only [dispatch]
  rw [if_pos hsc, hpc]
  have hga : (some (1 : ℝ)).getD 0 = 1 := rfl
  rw [hga]
  rw [solveSSS_111 _ _ _ rfl rfl rfl]
  rw [addSolution_push (fun h => absurd h (by omega)) goodW_eq.1]
  rw [List.nil_append]

theorem solve_conflict_example :
    solve (some 1) (some 1) (some 1) (some 10) none none "deg" =
      ⟨some 1, some 1, some 1, some 10, none, none, "deg", [],
        some (.inputConflict "alpha" 10 60)⟩ := by
  have hpi := Real.pi_pos
  have hbal : ¬ angleBadP (convIn "deg") (some (10 : ℝ)) := by
    intro hh
    rcases (hh : convIn "deg" * 10 ≤ 0 ∨ Real.pi ≤ convIn "deg" * 10) with h | h <;>
      rw [convIn_deg] at h <;> linarith
  have hd := solve_dispatch_eq (some 1) (some 1) (some 1) (some 10) none none "deg"
    (Or.inl rfl)
    (by norm_num [sideBadP])
    (by norm_num [sideBadP])
    (by norm_num [sideBadP])
    (fun hh => hh) hbal (fun hh => hh)
    (by decide) (by decide)
  rw [hd]
  have hsc : sideCountP (presOf (some (1 : ℝ)) (some 1) (some 1) (some 10) none none) = 3 := by
    decide
  have hpc : sideCountP (presOf (some (1 : ℝ)) (some 1) (some 1) (some 10) none none) +
      angleCountP (presOf (some (1 : ℝ)) (some 1) (some 1) (some 10) none none) = 4 := by
    decide
  simp only [dispatch]
  rw [if_pos hsc, hpc]
  have hga : (some (1 : ℝ)).getD 0 = 1 := rfl
  rw [hga]
  rw [solveSSS_111 _ _ _ rfl rfl rfl]
  have h60 : convOut "deg" * mkW 1 (Real.pi / 3) 1 (Real.pi / 3) 1 (Real.pi / 3) 3 = 60 := by
    rw [convOut_deg, mkW_at_3]
    field_simp
    ring
  have hfc : firstConflict ⟨some 1, some 1, some 1, some 10, none, none, "deg", [], none⟩
      (mkW 1 (Real.pi / 3) 1 (Real.pi / 3) 1 (Real.pi / 3))
      (convOut (⟨some 1, some 1, some 1, some 10, none, none, "deg", [],
        none⟩ : SolveState).mode) =
      some (.inputConflict "alpha" 10 60) := by
    unfold firstConflict
    dsimp only
    rw [show (mkW 1 (Real.pi / 3) 1 (Real.pi / 3) 1 (Real.pi / 3)) 0 = 1 from rfl,
      show (mkW 1 (Real.pi / 3) 1 (Real.pi / 3) 1 (Real.pi / 3)) 2 = 1 from rfl,
      h60,
      conflictAt_none_of_close (by norm_num [equalFloat]),
      conflictAt_of_none,
      conflictAt_none_of_close (by norm_num [equalFloat])]
    unfold conflictAt
    dsimp only
    rw [if_pos ⟨by norm_num, by norm_num [equalFloat]⟩]
  rw [addSolution_conflict (by omega) hfc]

theorem solve_feedback_rad {w : Fin 6 → ℝ} (hg : GoodW w) :
    solve (some (w 0)) (some (w 2)) (some (w 4)) (some (w 3)) (some (w 5)) (some (w 1))
      "rad" =
      ⟨some (w 0), some (w 2), some (w 4), some (w 3), some (w 5), some (w 1), "rad",
        [mkSolution w 1], none⟩ := by
  obtain ⟨hvc, hsum, k, hk, he0, he2, he4⟩ := hg
  obtain ⟨⟨g1a, g1b⟩, ⟨g3a, g3b⟩, ⟨g5a, g5b⟩, g0, g2, g4⟩ := hvc
  have hang : ∀ x : ℝ, 0 < x → x < Real.pi → ¬ angleBadP (convIn "rad") (some x) := by
    intro x hx1 hx2 hh
    have hh' : convIn "rad" * x ≤ 0 ∨ Real.pi ≤ convIn "rad" * x := hh
    rw [convIn_rad, one_mul] at hh'
    rcases hh' with h | h <;> linarith
  have hside : ∀ x : ℝ, 0 < x → ¬ sideBadP (some x) := by
    intro x hx hh
    exact absurd (show x ≤ 0 from hh) (not_le.2 hx)
  have hd := solve_dispatch_eq (some (w 0)) (some (w 2)) (some (w 4)) (some (w 3))
    (some (w 5)) (some (w 1)) "rad" (Or.inr rfl)
    (hside _ g0) (hside _ g2) (hside _ g4)
    (hang _ g1a g1b) (hang _ g3a g3b) (hang _ g5a g5b)
    (by intro hcon; have h6 : (6 : ℕ) < 3 := hcon; omega)
    (by intro hcon; have h3 : (3 : ℕ) = 0 := hcon; omega)
  rw [hd]
  simp only [dispatch]
  rw [if_pos (show sideCountP (presOf (some (w 0)) (some (w 2)) (some (w 4)) (some (w 3))
    (some (w 5)) (some (w 1))) = 3 from rfl)]
  rw [show (some (w 0)).getD 0 = w 0 from rfl, show (some (w 2)).getD 0 = w 2 from rfl,
    show (some (w 4)).getD 0 = w 4 from rfl]
  have hW : valArrayOf (some (w 0)) (some (w 2)) (some (w 4)) (some (w 3)) (some (w 5))
      (some (w 1)) (convIn "rad") = w := by
    funext i
    fin_cases i
    · exact rfl
    · exact (by rw [convIn_rad, one_mul] : convIn "rad" * w 1 = w 1)
    · exact rfl
    · exact (by rw [convIn_rad, one_mul] : convIn "rad" * w 3 = w 3)
    · exact rfl
    · exact (by rw [convIn_rad, one_mul] : convIn "rad" * w 5 = w 5)
  rw [hW]
  rw [show sideCountP (presOf (some (w 0)) (some (w 2)) (some (w 4)) (some (w 3))
    (some (w 5)) (some (w 1))) + angleCountP (presOf (some (w 0)) (some (w 2)) (some (w 4))
    (some (w 3)) (some (w 5)) (some (w 1))) = 6 from rfl]
  have h14 : Real.pi - w 3 - w 5 = w 1 := by linarith
  have hr1 : (w 2 ^ 2 + w 4 ^ 2 - w 0 ^ 2) / (2 * w 2 * w 4) = Real.cos (w 3) := by
    rw [div_eq_iff (by positivity)]
    have L := lawcos_of_sines k (w 3) (w 5)
    rw [h14, ← he2, ← he4, ← he0] at L
    linear_combination L
  have hr2 : (w 0 ^ 2 + w 4 ^ 2 - w 2 ^ 2) / (2 * w 0 * w 4) = Real.cos (w 5) := by
    rw [div_eq_iff (by positivity)]
    have h14' : Real.pi - w 5 - w 3 = w 1 := by linarith
    have L := lawcos_of_sines k (w 5) (w 3)
    rw [h14', ← he0, ← he4, ← he2] at L
    linear_combination L
  have hjs1 : jsAcos ((w 2 ^ 2 + w 4 ^ 2 - w 0 ^ 2) / (2 * w 2 * w 4)) = some (w 3) := by
    rw [hr1, jsAcos_in_range (Real.neg_one_le_cos _) (Real.cos_le_one _),
      Real.arccos_cos g3a.le g3b.le]
  have hjs2 : jsAcos ((w 0 ^ 2 + w 4 ^ 2 - w 2 ^ 2) / (2 * w 0 * w 4)) = some (w 5) := by
    rw [hr2, jsAcos_in_range (Real.neg_one_le_cos _) (Real.cos_le_one _),
      Real.arccos_cos g5a.le g5b.le]
  unfold solveSSS
  rw [hjs1, hjs2]
  dsimp only
  have hupd : upd (upd (upd w 3 (w 3)) 5 (w 5)) 1 (Real.pi - w 3 - w 5) = w := by
    have f0 : upd (upd (upd w 3 (w 3)) 5 (w 5)) 1 (Real.pi - w 3 - w 5) 0 = w 0 := by
      show rd (upd (upd (upd w 3 (w 3)) 5 (w 5)) 1 (Real.pi - w 3 - w 5)) 0 = w 0
      rw [rd_upd_ne (by omega), rd_upd_ne (by omega), rd_upd_ne (by omega), rd_at_0]
    have f2 : upd (upd (upd w 3 (w 3)) 5 (w 5)) 1 (Real.pi - w 3 - w 5) 2 = w 2 := by
      show rd (upd (upd (upd w 3 (w 3)) 5 (w 5)) 1 (Real.pi - w 3 - w 5)) 2 = w 2
      rw [rd_upd_ne (by omega), rd_upd_ne (by omega), rd_upd_ne (by omega), rd_at_2]
    have f4 : upd (upd (upd w 3 (w 3)) 5 (w 5)) 1 (Real.pi - w 3 - w 5) 4 = w 4 := by
      show rd (upd (upd (upd w 3 (w 3)) 5 (w 5)) 1 (Real.pi - w 3 - w 5)) 4 = w 4
      rw [rd_upd_ne (by omega), rd_upd_ne (by omega), rd_upd_ne (by omega), rd_at_4]
    have f3 : upd (upd (upd w 3 (w 3)) 5 (w 5)) 1 (Real.pi - w 3 - w 5) 3 = w 3 := by
      show rd (upd (upd (upd w 3 (w 3)) 5 (w 5)) 1 (Real.pi - w 3 - w 5)) 3 = w 3
      rw [rd_upd_ne (by omega), rd_upd_ne (by omega)]
      exact rd_upd_eq (by omega)
    have f5 : upd (upd (upd w 3 (w 3)) 5 (w 5)) 1 (Real.pi - w 3 - w 5) 5 = w 5 := by
      show rd (upd (upd (upd w 3 (w 3)) 5 (w 5)) 1 (Real.pi - w 3 - w 5)) 5 = w 5
      rw [rd_upd_ne (by omega)]
      exact rd_upd_eq (by omega)
    have f1 : upd (upd (upd w 3 (w 3)) 5 (w 5)) 1 (Real.pi - w 3 - w 5) 1 = w 1 := by
      show rd (upd (upd (upd w 3 (w 3)) 5 (w 5)) 1 (Real.pi - w 3 - w 5)) 1 = w 1
      rw [rd_upd_eq (by omega), h14]
    funext i
    fin_cases i
    · exact f0
    · exact f1
    · exact f2
    · exact f3
    · exact f4
    · exact f5
  rw [hupd]
  have hz : ¬ ∃ i : Fin 6, w i = 0 := by
    rintro ⟨i, hi⟩
    fin_cases i
    · exact absurd hi (ne_of_gt g0)
    · exact absurd hi (ne_of_gt g1a)
    · exact absurd hi (ne_of_gt g2)
    · exact absurd hi (ne_of_gt g3a)
    · exact absurd hi (ne_of_gt g4)
    · exact absurd hi (ne_of_gt g5a)
  rw [if_neg hz]
  have hcv : convOut (⟨some (w 0), some (w 2), some (w 4), some (w 3), some (w 5),
      some (w 1), "rad", [], none⟩ : SolveState).mode = 1 := convOut_rad
  have hnc : 3 < 6 → firstConflict ⟨some (w 0), some (w 2), some (w 4), some (w 3),
      some (w 5), some (w 1), "rad", [], none⟩ w
      (convOut (⟨some (w 0), some (w 2), some (w 4), some (w 3), some (w 5), some (w 1),
        "rad", [], none⟩ : SolveState).mode) = none := by
    intro h36
    have hclose : ∀ x : ℝ, equalFloat x x 0.001 := by
      intro x
      rw [equalFloat, sub_self, abs_zero]
      norm_num
    have hcl : ∀ x : ℝ, equalFloat x (convOut (⟨some (w 0), some (w 2), some (w 4),
        some (w 3), some (w 5), some (w 1), "rad", [], none⟩ : SolveState).mode * x)
        0.001 := by
      intro x
      rw [hcv, one_mul]
      exact hclose x
    exact firstConflict_none (conflictAt_none_of_close (hclose _))
      (conflictAt_none_of_close (hcl _)) (conflictAt_none_of_close (hclose _))
      (conflictAt_none_of_close (hcl _)) (conflictAt_none_of_close (hclose _))
      (conflictAt_none_of_close (hcl _))
  rw [addSolution_push hnc ⟨⟨g1a, g1b⟩, ⟨g3a, g3b⟩, ⟨g5a, g5b⟩, g0, g2, g4⟩]
  rw [List.nil_append]
  rw [show convOut (⟨some (w 0), some (w 2), some (w 4), some (w 3), some (w 5),
    some (w 1), "rad", [], none⟩ : SolveState).mode = 1 from convOut_rad]

theorem solveSSS_violation (a b c : ℝ) (w : Fin 6 → ℝ) (st : SolveState) (pc : ℕ)
    (ha : 0 < a) (hb : 0 < b) (hc : 0 < c)
    (hviol : b + c ≤ a ∨ a + c ≤ b ∨ a + b ≤ c) :
    solveSSS a b c w st pc = { st with error := some (.impossibleSides a b c) } := by
  have h2bc : (0 : ℝ) < 2 * b * c := by positivity
  have h2ac : (0 : ℝ) < 2 * a * c := by positivity
  rcases hviol with hv | hv | hv
  · rcases lt_or_eq_of_le hv with hlt | heq
    · have h1 : (b + c) * (b + c) < a * a := mul_self_lt_mul_self (by positivity) hlt
      have hr : (b ^ 2 + c ^ 2 - a ^ 2) / (2 * b * c) < -1 := by
        rw [div_lt_iff₀ h2bc]
        ring_nf at h1 ⊢
        linarith
      have hnone : jsAcos ((b ^ 2 + c ^ 2 - a ^ 2) / (2 * b * c)) = none := by
        unfold jsAcos
        rw [if_pos (Or.inl hr)]
      unfold solveSSS
      rw [hnone]
    · have hr1 : (b ^ 2 + c ^ 2 - a ^ 2) / (2 * b * c) = -1 := by
        rw [div_eq_iff (ne_of_gt h2bc)]
        linear_combination (b + c + a) * heq
      have hr2 : (a ^ 2 + c ^ 2 - b ^ 2) / (2 * a * c) = 1 := by
        rw [div_eq_iff (ne_of_gt h2ac)]
        linear_combination (c - a - b) * heq
      have hjs1 : jsAcos ((b ^ 2 + c ^ 2 - a ^ 2) / (2 * b * c)) = some Real.pi := by
        rw [hr1, jsAcos_in_range le_rfl (by norm_num), Real.arccos_neg_one]
      have hjs2 : jsAcos ((a ^ 2 + c ^ 2 - b ^ 2) / (2 * a * c)) = some 0 := by
        rw [hr2, jsAcos_in_range (by norm_num) le_rfl, Real.arccos_one]
      unfold solveSSS
      rw [hjs1, hjs2]
      dsimp only
      rw [if_pos ⟨(5 : Fin 6), show rd (upd (upd (upd w 3 Real.pi) 5 0) 1
        (Real.pi - Real.pi - 0)) 5 = 0 by
          rw [rd_upd_ne (by omega)]
          exact rd_upd_eq (by omega)⟩]
  · rcases lt_or_eq_of_le hv with hlt | heq
    · have h1 : (a + c) * (a + c) < b * b := mul_self_lt_mul_self (by positivity) hlt
      have hr : (a ^ 2 + c ^ 2 - b ^ 2) / (2 * a * c) < -1 := by
        rw [div_lt_iff₀ h2ac]
        ring_nf at h1 ⊢
        linarith
      have hnone2 : jsAcos ((a ^ 2 + c ^ 2 - b ^ 2) / (2 * a * c)) = none := by
        unfold jsAcos
        rw [if_pos (Or.inl hr)]
      unfold solveSSS
      cases h1' : jsAcos ((b ^ 2 + c ^ 2 - a ^ 2) / (2 * b * c)) with
      | none => rfl
      | some alpha1 =>
        rw [hnone2]
    · have hr1 : (b ^ 2 + c ^ 2 - a ^ 2) / (2 * b * c) = 1 := by
        rw [div_eq_iff (ne_of_gt h2bc)]
        linear_combination (c - a - b) * heq
      have hjs1 : jsAcos ((b ^ 2 + c ^ 2 - a ^ 2) / (2 * b * c)) = some 0 := by
        rw [hr1, jsAcos_in_range (by norm_num) le_rfl, Real.arccos_one]
      unfold solveSSS
      rw [hjs1]
      cases h2' : jsAcos ((a ^ 2 + c ^ 2 - b ^ 2) / (2 * a * c)) with
      | none => rfl
      | some beta1 =>
        dsimp only
        rw [if_pos ⟨(3 : Fin 6), show rd (upd (upd (upd w 3 0) 5 beta1) 1
          (Real.pi - 0 - beta1)) 3 = 0 by
            rw [rd_upd_ne (by omega), rd_upd_ne (by omega)]
            exact rd_upd_eq (by omega)⟩]
  · rcases lt_or_eq_of_le hv with hlt | heq
    · have h1 : a * a < (c - b) * (c - b) := mul_self_lt_mul_self ha.le (by linarith)
      have hr : 1 < (b ^ 2 + c ^ 2 - a ^ 2) / (2 * b * c) := by
        rw [lt_div_iff₀ h2bc]
        ring_nf at h1 ⊢
        linarith
      have hnone : jsAcos ((b ^ 2 + c ^ 2 - a ^ 2) / (2 * b * c)) = none := by
        unfold jsAcos
        rw [if_pos (Or.inr hr)]
      unfold solveSSS
      rw [hnone]
    · have hr1 : (b ^ 2 + c ^ 2 - a ^ 2) / (2 * b * c) = 1 := by
        rw [div_eq_iff (ne_of_gt h2bc)]
        linear_combination (b - c - a) * heq
      have hjs1 : jsAcos ((b ^ 2 + c ^ 2 - a ^ 2) / (2 * b * c)) = some 0 := by
        rw [hr1, jsAcos_in_range (by norm_num) le_rfl, Real.arccos_one]
      unfold solveSSS
      rw [hjs1]
      cases h2' : jsAcos ((a ^ 2 + c ^ 2 - b ^ 2) / (2 * a * c)) with
      | none => rfl
      | some beta1 =>
        dsimp only
        rw [if_pos ⟨(3 : Fin 6), show rd (upd (upd (upd w 3 0) 5 beta1) 1
          (Real.pi - 0 - beta1)) 3 = 0 by
            rw [rd_upd_ne (by omega), rd_upd_ne (by omega)]
            exact rd_upd_eq (by omega)⟩]

theorem solve_sides_only (a b c : ℝ) (mode : String) (hmode : mode = "deg" ∨ mode = "rad")
    (ha : 0 < a) (hb : 0 < b) (hc : 0 < c) :
    solve (some a) (some b) (some c) none none none mode =
      solveSSS a b c (valArrayOf (some a) (some b) (some c) none none none (convIn mode))
        ⟨some a, some b, some c, none, none, none, mode, [], none⟩ 3 := by
  have hside : ∀ x : ℝ, 0 < x → ¬ sideBadP (some x) := by
    intro x hx hh
    exact absurd (show x ≤ 0 from hh) (not_le.2 hx)
  have hd := solve_dispatch_eq (some a) (some b) (some c) none none none mode hmode
    (hside _ ha) (hside _ hb) (hside _ hc)
    (fun hh => hh) (fun hh => hh) (fun hh => hh)
    (by intro hcon; have h3 : (3 : ℕ) < 3 := hcon; omega)
    (by intro hcon; have h3 : (3 : ℕ) = 0 := hcon; omega)
  rw [hd]
  simp only [dispatch]
  rw [if_pos (show sideCountP (presOf (some a) (some b) (some c) none none none) = 3
    from rfl)]
  rw [show (some a).getD 0 = a from rfl, show (some b).getD 0 = b from rfl,
    show (some c).getD 0 = c from rfl]
  rw [show sideCountP (presOf (some a) (some b) (some c) none none none) +
    angleCountP (presOf (some a) (some b) (some c) none none none) = 3 from rfl]

theorem solve_gamma60_illegal :
    solve (some 1) (some 1) (some 1) (some 60) (some 60) (some 60) "rad" =
      ⟨some 1, some 1, some 1, some 60, some 60, some 60, "rad", [],
        some (.illegalValue "gamma")⟩ := by
  simp only [solve]
  rw [if_neg (show ¬¬("rad" = "deg" ∨ True) by decide),
    if_neg (show ¬ sideBadP (some (1 : ℝ)) by norm_num [sideBadP]),
    if_neg (show ¬ sideBadP (some (1 : ℝ)) by norm_num [sideBadP]),
    if_neg (show ¬ sideBadP (some (1 : ℝ)) by norm_num [sideBadP]),
    if_pos (show angleBadP (convIn "rad") (some (60 : ℝ)) from
      Or.inr (by rw [convIn_rad, one_mul]; linarith [Real.pi_le_four]))]

theorem solve_reaches_ssa (a b c alpha beta gamma : Option ℝ) (mode : String)
    (h : ReachesSSA a b c alpha beta gamma mode) :
    solve a b c alpha beta gamma mode =
      solveSSA (valArrayOf a b c alpha beta gamma (convIn mode))
        ⟨a, b, c, alpha, beta, gamma, mode, [], none⟩
        (sideCountP (presOf a b c alpha beta gamma) +
          angleCountP (presOf a b c alpha beta gamma))
        (firstAngleIdx (presOf a b c alpha beta gamma)) ∧
    sideCountP (presOf a b c alpha beta gamma) +
      angleCountP (presOf a b c alpha beta gamma) = 3 ∧
    (firstAngleIdx (presOf a b c alpha beta gamma) = 1 ∨
      firstAngleIdx (presOf a b c alpha beta gamma) = 3 ∨
      firstAngleIdx (presOf a b c alpha beta gamma) = 5) ∧
    0 < rd (valArrayOf a b c alpha beta gamma (convIn mode))
      (firstAngleIdx (presOf a b c alpha beta gamma)) ∧
    rd (valArrayOf a b c alpha beta gamma (convIn mode))
      (firstAngleIdx (presOf a b c alpha beta gamma)) < Real.pi ∧
    0 < rd (valArrayOf a b c alpha beta gamma (convIn mode))
      (firstAngleIdx (presOf a b c alpha beta gamma) + 3) ∧
    0 < rd (valArrayOf a b c alpha beta gamma (convIn mode))
      (firstAngleIdx (presOf a b c alpha beta gamma) + 5) := by
  obtain ⟨⟨hmode, hba, hbb, hbc, hbg, hbal, hbbe⟩, hpcge, hscge, hsc3, hA, hB, hC, hD, hE⟩ := h
  set p := presOf a b c alpha beta gamma with hp
  set w := valArrayOf a b c alpha beta gamma (convIn mode) with hw
  have Hside : ∀ j : Fin 6, j = 0 ∨ j = 2 ∨ j = 4 → p j = true → 0 < w j := by
    intro j hj hpj
    rcases hj with hjh | hjh | hjh <;> subst hjh
    · rw [hp, presOf, mkP_at_0] at hpj
      rw [hw, valArrayOf, mkW_at_0]
      exact side_ok hba hpj
    · rw [hp, presOf, mkP_at_2] at hpj
      rw [hw, valArrayOf, mkW_at_2]
      exact side_ok hbb hpj
    · rw [hp, presOf, mkP_at_4] at hpj
      rw [hw, valArrayOf, mkW_at_4]
      exact side_ok hbc hpj
  have Hangle : ∀ j : Fin 6, j = 1 ∨ j = 3 ∨ j = 5 → p j = true →
      0 < w j ∧ w j < Real.pi := by
    intro j hj hpj
    rcases hj with hjh | hjh | hjh <;> subst hjh
    · rw [hp, presOf, mkP_at_1] at hpj
      rw [hw, valArrayOf, mkW_at_1]
      exact angle_ok hbg hpj
    · rw [hp, presOf, mkP_at_3] at hpj
      rw [hw, valArrayOf, mkW_at_3]
      exact angle_ok hbal hpj
    · rw [hp, presOf, mkP_at_5] at hpj
      rw [hw, valArrayOf, mkW_at_5]
      exact angle_ok hbbe hpj
  have HP : ∀ j : Fin 6, p j = true → w j ≠ 0 := by
    intro j hpj
    fin_cases j
    · exact ne_of_gt (Hside 0 (Or.inl rfl) hpj)
    · exact ne_of_gt (Hangle 1 (Or.inl rfl) hpj).1
    · exact ne_of_gt (Hside 2 (Or.inr (Or.inl rfl)) hpj)
    · exact ne_of_gt (Hangle 3 (Or.inr (Or.inl rfl)) hpj).1
    · exact ne_of_gt (Hside 4 (Or.inr (Or.inr rfl)) hpj)
    · exact ne_of_gt (Hangle 5 (Or.inr (Or.inr rfl)) hpj).1
  have hacge : 1 ≤ angleCountP p := pattern_angle_pos p hpcge hsc3
  have hfa := pattern_fa_cases p hacge
  have hfaP : p (zmod6 (firstAngleIdx p)) = true := pattern_fa_present p hacge
  have hθr : 0 < rd w (firstAngleIdx p) ∧ rd w (firstAngleIdx p) < Real.pi := by
    rcases hfa with hh | hh | hh <;> rw [hh] <;> rw [hh] at hfaP
    · exact Hangle 1 (Or.inl rfl) hfaP
    · exact Hangle 3 (Or.inr (Or.inl rfl)) hfaP
    · exact Hangle 5 (Or.inr (Or.inr rfl)) hfaP
  have hs1r : 0 < rd w (firstAngleIdx p + 3) := by
    have hpr := hE.2.1
    rcases hfa with hh | hh | hh <;> rw [hh] <;> rw [hh] at hpr
    · exact Hside 4 (Or.inr (Or.inr rfl)) hpr
    · exact Hside 0 (Or.inl rfl) hpr
    · exact Hside 2 (Or.inr (Or.inl rfl)) hpr
  have hs2r : 0 < rd w (firstAngleIdx p + 5) := by
    have hpr := hE.1.1
    rcases hfa with hh | hh | hh <;> rw [hh] <;> rw [hh] at hpr
    · exact Hside 0 (Or.inl rfl) hpr
    · exact Hside 2 (Or.inr (Or.inl rfl)) hpr
    · exact Hside 4 (Or.inr (Or.inr rfl)) hpr
  have tA : ¬(p (zmod6 (firstSideIdx p + 5)) = true ∧
      p (zmod6 (firstSideIdx p + 1)) = true) := by
    rintro ⟨h1, h2⟩
    exact hA ⟨(tru_iff HP _).2 h1, (tru_iff HP _).2 h2⟩
  have tB : ¬(p (zmod6 (firstAngleIdx p + 5)) = true ∧
      p (zmod6 (firstAngleIdx p + 1)) = true) := by
    rintro ⟨h1, h2⟩
    exact hB ⟨(tru_iff HP _).2 h1, (tru_iff HP _).2 h2⟩
  have tC : ¬(p (zmod6 (firstSideIdx p + 1)) = true ∧
      p (zmod6 (firstSideIdx p + 3)) = true) := by
    rintro ⟨h1, h2⟩
    exact hC ⟨(tru_iff HP _).2 h1, (tru_iff HP _).2 h2⟩
  have tD : ¬(p (zmod6 (firstSideIdx p + 5)) = true ∧
      p (zmod6 (firstSideIdx p + 3)) = true) := by
    rintro ⟨h1, h2⟩
    exact hD ⟨(tru_iff HP _).2 h1, (tru_iff HP _).2 h2⟩
  have hpceq : sideCountP p + angleCountP p = 3 :=
    pattern_ssa_pc p hpcge hscge hsc3 tA tB tC tD ⟨hE.1.1, hE.2.1⟩
  have hd := solve_dispatch_eq a b c alpha beta gamma mode hmode hba hbb hbc hbg hbal hbbe
    (by intro hcon; rw [← hp] at hcon; omega)
    (by intro hcon; rw [← hp] at hcon; omega)
  refine ⟨?_, hpceq, hfa, hθr.1, hθr.2, hs1r, hs2r⟩
  rw [hd]
  simp only [dispatch]
  rw [if_neg hsc3, if_neg hA, if_neg hB, if_neg hC, if_neg hD, if_pos hE]

theorem solve_reaches_ass (a b c alpha beta gamma : Option ℝ) (mode : String)
    (h : ReachesASS a b c alpha beta gamma mode) :
    solve a b c alpha beta gamma mode =
      solveASS (valArrayOf a b c alpha beta gamma (convIn mode))
        ⟨a, b, c, alpha, beta, gamma, mode, [], none⟩
        (sideCountP (presOf a b c alpha beta gamma) +
          angleCountP (presOf a b c alpha beta gamma))
        (firstAngleIdx (presOf a b c alpha beta gamma)) ∧
    sideCountP (presOf a b c alpha beta gamma) +
      angleCountP (presOf a b c alpha beta gamma) = 3 ∧
    (firstAngleIdx (presOf a b c alpha beta gamma) = 1 ∨
      firstAngleIdx (presOf a b c alpha beta gamma) = 3 ∨
      firstAngleIdx (presOf a b c alpha beta gamma) = 5) ∧
    0 < rd (valArrayOf a b c alpha beta gamma (convIn mode))
      (firstAngleIdx (presOf a b c alpha beta gamma)) ∧
    rd (valArrayOf a b c alpha beta gamma (convIn mode))
      (firstAngleIdx (presOf a b c alpha beta gamma)) < Real.pi ∧
    0 < rd (valArrayOf a b c alpha beta gamma (convIn mode))
      (firstAngleIdx (presOf a b c alpha beta gamma) + 3) ∧
    0 < rd (valArrayOf a b c alpha beta gamma (convIn mode))
      (firstAngleIdx (presOf a b c alpha beta gamma) + 1) := by
  obtain ⟨⟨hmode, hba, hbb, hbc, hbg, hbal, hbbe⟩, hpcge, hscge, hsc3, hA, hB, hC, hD, hE,
    hF⟩ := h
  set p := presOf a b c alpha beta gamma with hp
  set w := valArrayOf a b c alpha beta gamma (convIn mode) with hw
  have Hside : ∀ j : Fin 6, j = 0 ∨ j = 2 ∨ j = 4 → p j = true → 0 < w j := by
    intro j hj hpj
    rcases hj with hjh | hjh | hjh <;> subst hjh
    · rw [hp, presOf, mkP_at_0] at hpj
      rw [hw, valArrayOf, mkW_at_0]
      exact side_ok hba hpj
    · rw [hp, presOf, mkP_at_2] at hpj
      rw [hw, valArrayOf, mkW_at_2]
      exact side_ok hbb hpj
    · rw [hp, presOf, mkP_at_4] at hpj
      rw [hw, valArrayOf, mkW_at_4]
      exact side_ok hbc hpj
  have Hangle : ∀ j : Fin 6, j = 1 ∨ j = 3 ∨ j = 5 → p j = true →
      0 < w j ∧ w j < Real.pi := by
    intro j hj hpj
    rcases hj with hjh | hjh | hjh <;> subst hjh
    · rw [hp, presOf, mkP_at_1] at hpj
      rw [hw, valArrayOf, mkW_at_1]
      exact angle_ok hbg hpj
    · rw [hp, presOf, mkP_at_3] at hpj
      rw [hw, valArrayOf, mkW_at_3]
      exact angle_ok hbal hpj
    · rw [hp, presOf, mkP_at_5] at hpj
      rw [hw, valArrayOf, mkW_at_5]
      exact angle_ok hbbe hpj
  have HP : ∀ j : Fin 6, p j = true → w j ≠ 0 := by
    intro j hpj
    fin_cases j
    · exact ne_of_gt (Hside 0 (Or.inl rfl) hpj)
    · exact ne_of_gt (Hangle 1 (Or.inl rfl) hpj).1
    · exact ne_of_gt (Hside 2 (Or.inr (Or.inl rfl)) hpj)
    · exact ne_of_gt (Hangle 3 (Or.inr (Or.inl rfl)) hpj).1
    · exact ne_of_gt (Hside 4 (Or.inr (Or.inr rfl)) hpj)
    · exact ne_of_gt (Hangle 5 (Or.inr (Or.inr rfl)) hpj).1
  have hacge : 1 ≤ angleCountP p := pattern_angle_pos p hpcge hsc3
  have hfa := pattern_fa_cases p hacge
  have hfaP : p (zmod6 (firstAngleIdx p)) = true := pattern_fa_present p hacge
  have hθr : 0 < rd w (firstAngleIdx p) ∧ rd w (firstAngleIdx p) < Real.pi := by
    rcases hfa with hh | hh | hh <;> rw [hh] <;> rw [hh] at hfaP
    · exact Hangle 1 (Or.inl rfl) hfaP
    · exact Hangle 3 (Or.inr (Or.inl rfl)) hfaP
    · exact Hangle 5 (Or.inr (Or.inr rfl)) hfaP
  have hs1r : 0 < rd w (firstAngleIdx p + 3) := by
    have hpr := hF.2.1
    rcases hfa with hh | hh | hh <;> rw [hh] <;> rw [hh] at hpr
    · exact Hside 4 (Or.inr (Or.inr rfl)) hpr
    · exact Hside 0 (Or.inl rfl) hpr
    · exact Hside 2 (Or.inr (Or.inl rfl)) hpr
  have hs2r : 0 < rd w (firstAngleIdx p + 1) := by
    have hpr := hF.1.1
    rcases hfa with hh | hh | hh <;> rw [hh] <;> rw [hh] at hpr
    · exact Hside 2 (Or.inr (Or.inl rfl)) hpr
    · exact Hside 4 (Or.inr (Or.inr rfl)) hpr
    · exact Hside 0 (Or.inl rfl) hpr
  have tA : ¬(p (zmod6 (firstSideIdx p + 5)) = true ∧
      p (zmod6 (firstSideIdx p + 1)) = true) := by
    rintro ⟨h1, h2⟩
    exact hA ⟨(tru_iff HP _).2 h1, (tru_iff HP _).2 h2⟩
  have tB : ¬(p (zmod6 (firstAngleIdx p + 5)) = true ∧
      p (zmod6 (firstAngleIdx p + 1)) = true) := by
    rintro ⟨h1, h2⟩
    exact hB ⟨(tru_iff HP _).2 h1, (tru_iff HP _).2 h2⟩
  have tC : ¬(p (zmod6 (firstSideIdx p + 1)) = true ∧
      p (zmod6 (firstSideIdx p + 3)) = true) := by
    rintro ⟨h1, h2⟩
    exact hC ⟨(tru_iff HP _).2 h1, (tru_iff HP _).2 h2⟩
  have tD : ¬(p (zmod6 (firstSideIdx p + 5)) = true ∧
      p (zmod6 (firstSideIdx p + 3)) = true) := by
    rintro ⟨h1, h2⟩
    exact hD ⟨(tru_iff HP _).2 h1, (tru_iff HP _).2 h2⟩
  have tE : ¬(p (zmod6 (firstAngleIdx p + 5)) = true ∧
      p (zmod6 (firstAngleIdx p + 3)) = true) := by
    rintro ⟨h1, h2⟩
    exact hE ⟨(tru_iff HP _).2 h1, (tru_iff HP _).2 h2⟩
  have hpceq : sideCountP p + angleCountP p = 3 :=
    pattern_ass_pc p hpcge hscge hsc3 tA tB tC tD tE ⟨hF.1.1, hF.2.1⟩
  have hd := solve_dispatch_eq a b c alpha beta gamma mode hmode hba hbb hbc hbg hbal hbbe
    (by intro hcon; rw [← hp] at hcon; omega)
    (by intro hcon; rw [← hp] at hcon; omega)
  refine ⟨?_, hpceq, hfa, hθr.1, hθr.2, hs1r, hs2r⟩
  rw [hd]
  simp only [dispatch]
  rw [if_neg hsc3, if_neg hA, if_neg hB, if_neg hC, if_neg hD, if_neg hE, if_pos hF]

theorem reaches_ssa_ab_alpha (x y t : ℝ) (hx : 0 < x) (hy : 0 < y) (ht1 : 0 < t)
    (ht2 : t < Real.pi) :
    ReachesSSA (some x) (some y) none (some t) none none "rad" := by
  have hang : ¬ angleBadP (convIn "rad") (some t) := by
    intro hh
    have hh' : convIn "rad" * t ≤ 0 ∨ Real.pi ≤ convIn "rad" * t := hh
    rw [convIn_rad, one_mul] at hh'
    rcases hh' with hcon | hcon <;> linarith
  have hsx : ¬ sideBadP (some x) := fun hh => absurd (show x ≤ 0 from hh) (not_le.2 hx)
  have hsy : ¬ sideBadP (some y) := fun hh => absurd (show y ≤ 0 from hh) (not_le.2 hy)
  refine ⟨⟨Or.inr rfl, hsx, hsy, fun hh => hh, fun hh => hh, hang, fun hh => hh⟩,
    le_rfl, ?_, ?_, ?_, ?_, ?_, ?_, ⟨⟨rfl, ?_⟩, ⟨rfl, ?_⟩⟩⟩
  · show (1 : ℕ) ≤ 2
    omega
  · intro hcon
    have h23 : (2 : ℕ) = 3 := hcon
    omega
  · intro hcon
    have h5 : (false : Bool) = true := hcon.1.1
    exact Bool.noConfusion h5
  · intro hcon
    have h5 : (false : Bool) = true := hcon.2.1
    exact Bool.noConfusion h5
  · intro hcon
    have h5 : (false : Bool) = true := hcon.1.1
    exact Bool.noConfusion h5
  · intro hcon
    have h5 : (false : Bool) = true := hcon.1.1
    exact Bool.noConfusion h5
  · exact (ne_of_gt hy :
      rd (valArrayOf (some x) (some y) none (some t) none none (convIn "rad"))
        (firstAngleIdx (presOf (some x) (some y) none (some t) none none) + 5) ≠ 0)
  · exact (ne_of_gt hx :
      rd (valArrayOf (some x) (some y) none (some t) none none (convIn "rad"))
        (firstAngleIdx (presOf (some x) (some y) none (some t) none none) + 3) ≠ 0)

theorem solve_ssa_right_angle :
    solve (some 1) (some 1) none (some (Real.pi / 2)) none none "rad" =
      ⟨some 1, some 1, none, some (Real.pi / 2), none, none, "rad", [],
        some SolveError.noSolution⟩ := by
  have hre := reaches_ssa_ab_alpha 1 1 (Real.pi / 2) one_pos one_pos (by positivity)
    (by linarith [Real.pi_pos])
  obtain ⟨heq, hpceq, hfa, hθ1, hθ2, hs1, hs2⟩ := solve_reaches_ssa _ _ _ _ _ _ _ hre
  rw [hpceq] at heq
  set w := valArrayOf (some (1 : ℝ)) (some 1) none (some (Real.pi / 2)) none none
    (convIn "rad") with hw
  set fa := firstAngleIdx (presOf (some (1 : ℝ)) (some 1) none (some (Real.pi / 2))
    none none) with hfad
  have hfav : rd w fa = Real.pi / 2 := by
    show convIn "rad" * (Real.pi / 2) = Real.pi / 2
    rw [convIn_rad, one_mul]
  have h5v : rd w (fa + 5) = 1 := rfl
  have h3v : rd w (fa + 3) = 1 := rfl
  have hD : rd w (fa + 5) / rd w (fa + 3) * Real.sin (rd w fa) = 1 := by
    rw [h5v, h3v, hfav, Real.sin_pi_div_two]
    norm_num
  obtain ⟨part1, part2, part3⟩ := solveSSA_cases w
    (⟨some 1, some 1, none, some (Real.pi / 2), none, none, "rad", [], none⟩ : SolveState)
    3 hfa hθ1 hθ2 hs1 hs2 (by omega)
  have herr := (part2 (by rw [hD]; norm_num) (le_of_eq (h5v.trans h3v.symm))).2
    (by rw [if_pos hD, hfav]; linarith)
  rw [heq, herr]

theorem solve_ssa_two_solutions :
    ∃ w3 v3, GoodW w3 ∧ GoodW v3 ∧
      solve (some 7) (some 10) none (some (Real.pi / 6)) none none "rad" =
        ⟨some 7, some 10, none, some (Real.pi / 6), none, none, "rad",
          [mkSolution w3 1, mkSolution v3 1], none⟩ := by
  have hre := reaches_ssa_ab_alpha 7 10 (Real.pi / 6) (by norm_num) (by norm_num)
    (by positivity) (by linarith [Real.pi_pos])
  obtain ⟨heq, hpceq, hfa, hθ1, hθ2, hs1, hs2⟩ := solve_reaches_ssa _ _ _ _ _ _ _ hre
  rw [hpceq] at heq
  set w := valArrayOf (some (7 : ℝ)) (some 10) none (some (Real.pi / 6)) none none
    (convIn "rad") with hw
  set fa := firstAngleIdx (presOf (some (7 : ℝ)) (some 10) none (some (Real.pi / 6))
    none none) with hfad
  have hfav : rd w fa = Real.pi / 6 := by
    show convIn "rad" * (Real.pi / 6) = Real.pi / 6
    rw [convIn_rad, one_mul]
  have h5v : rd w (fa + 5) = 10 := rfl
  have h3v : rd w (fa + 3) = 7 := rfl
  have hD : rd w (fa + 5) / rd w (fa + 3) * Real.sin (rd w fa) = 5 / 7 := by
    rw [h5v, h3v, hfav, Real.sin_pi_div_six]
    norm_num
  obtain ⟨part1, part2, part3⟩ := solveSSA_cases w
    (⟨some 7, some 10, none, some (Real.pi / 6), none, none, "rad", [], none⟩ : SolveState)
    3 hfa hθ1 hθ2 hs1 hs2 (by omega)
  obtain ⟨w3, v3, hg1, hg2, hu1, hu2, he⟩ := (part3 (by rw [hD]; norm_num)
    (by rw [h5v, h3v]; norm_num)).1 (by rw [hfav]; linarith [Real.pi_pos])
  refine ⟨w3, v3, hg1, hg2, ?_⟩
  rw [heq, he]
  rw [show convOut (⟨some (7 : ℝ), some 10, none, some (Real.pi / 6), none, none, "rad",
    [], none⟩ : SolveState).mode = 1 from convOut_rad, List.nil_append]

theorem distance_arr (x1 y1 x2 y2 : ℝ) :
    distance (.arr [x1, y1]) (.arr [x2, y2]) =
      .ok (some (Real.sqrt ((x1 - x2) ^ 2 + (y1 - y2) ^ 2))) := rfl

theorem sqrt_two_le_two : Real.sqrt 2 ≤ 2 := by
  have h1 : Real.sqrt 2 ≤ Real.sqrt 4 := Real.sqrt_le_sqrt (by norm_num)
  rw [show (4 : ℝ) = 2 ^ 2 by norm_num, Real.sqrt_sq (by norm_num)] at h1
  exact h1

theorem arccos_sqrt2_half : Real.arccos (Real.sqrt 2 / 2) = Real.pi / 4 := by
  rw [← Real.cos_pi_div_four]
  exact Real.arccos_cos (by positivity) (by linarith [Real.pi_pos])

theorem lawcos_right_A :
    lawCosAngle (some 1) (some 1) (some (Real.sqrt 2)) = some (Real.pi / 2) := by
  unfold lawCosAngle
  dsimp only
  rw [if_neg (by norm_num : ¬((1 : ℝ) * 1 = 0))]
  rw [show ((1 : ℝ) ^ 2 + 1 ^ 2 - Real.sqrt 2 ^ 2) / (2 * 1 * 1) = 0 by
    rw [Real.sq_sqrt (by norm_num : (0 : ℝ) ≤ 2)]
    norm_num]
  rw [jsAcos_in_range (by norm_num) (by norm_num), Real.arccos_zero]

theorem lawcos_right_B :
    lawCosAngle (some (Real.sqrt 2)) (some 1) (some 1) = some (Real.pi / 4) := by
  have hs2 : (0 : ℝ) < Real.sqrt 2 := Real.sqrt_pos.2 (by norm_num)
  unfold lawCosAngle
  dsimp only
  rw [if_neg (by intro hcon; rw [mul_one] at hcon; exact absurd hcon (ne_of_gt hs2))]
  rw [show (Real.sqrt 2 ^ 2 + 1 ^ 2 - 1 ^ 2) / (2 * Real.sqrt 2 * 1) = Real.sqrt 2 / 2 by
    rw [Real.sq_sqrt (by norm_num : (0 : ℝ) ≤ 2)]
    rw [div_eq_div_iff (by positivity) (by norm_num)]
    rw [show Real.sqrt 2 * (2 * Real.sqrt 2 * 1) = 2 * (Real.sqrt 2 * Real.sqrt 2) by ring,
      Real.mul_self_sqrt (by norm_num)]
    norm_num]
  rw [jsAcos_in_range (by linarith) (by linarith [sqrt_two_le_two])]
  rw [arccos_sqrt2_half]

theorem solvePoints_right_triangle :
    ∃ res, solvePoints (.arr [0, 0]) (.arr [1, 0]) (.arr [0, 1]) "rad" = .ok res ∧
      res.error = none ∧ res.solutions ≠ [] := by
  have hpi := Real.pi_pos
  have dab : distance (.arr [(0 : ℝ), 0]) (.arr [1, 0]) = .ok (some 1) := by
    rw [distance_arr, show ((0 : ℝ) - 1) ^ 2 + ((0 : ℝ) - 0) ^ 2 = 1 by norm_num,
      Real.sqrt_one]
  have dbc : distance (.arr [(1 : ℝ), 0]) (.arr [0, 1]) = .ok (some (Real.sqrt 2)) := by
    rw [distance_arr, show ((1 : ℝ) - 0) ^ 2 + ((0 : ℝ) - 1) ^ 2 = 2 by norm_num]
  have dca : distance (.arr [(0 : ℝ), 1]) (.arr [0, 0]) = .ok (some 1) := by
    rw [distance_arr, show ((0 : ℝ) - 0) ^ 2 + ((1 : ℝ) - 0) ^ 2 = 1 by norm_num,
      Real.sqrt_one]
  have hs2 : (0 : ℝ) < Real.sqrt 2 := Real.sqrt_pos.2 (by norm_num)
  have hnf : ¬(isFalsy (some (Real.pi / 2)) ∨ isFalsy (some (Real.pi / 4)) ∨
      isFalsy (some (Real.pi - Real.pi / 2 - Real.pi / 4))) := by
    rintro ((h | h) | (h | h) | (h | h))
    · exact Option.noConfusion h
    · exact absurd (Option.some.inj h) (by intro hc; linarith)
    · exact Option.noConfusion h
    · exact absurd (Option.some.inj h) (by intro hc; linarith)
    · exact Option.noConfusion h
    · exact absurd (Option.some.inj h) (by intro hc; linarith)
  have key : ∀ r, solvePoints (.arr [0, 0]) (.arr [1, 0]) (.arr [0, 1]) "rad" = r →
      ∃ res, r = .ok res ∧ res.error = none ∧ res.solutions ≠ [] := by
    intro r h
    unfold solvePoints at h
    rw [show checkCoordinate (JSPoint.arr [(0 : ℝ), 0]) = .ok true from rfl,
      show checkCoordinate (JSPoint.arr [(1 : ℝ), 0]) = .ok true from rfl,
      show checkCoordinate (JSPoint.arr [(0 : ℝ), 1]) = .ok true from rfl] at h
    dsimp only at h
    rw [dab, dbc, dca] at h
    dsimp only at h
    rw [if_neg (by intro hcon; exact absurd (Option.some.inj hcon) (by norm_num))] at h
    rw [if_neg (by intro hcon; exact absurd (Option.some.inj hcon) (ne_of_gt hs2))] at h
    rw [if_neg (by intro hcon; exact absurd (Option.some.inj hcon) (by norm_num))] at h
    rw [if_neg (show ¬¬("rad" = "deg" ∨ "rad" = "rad") by decide)] at h
    rw [lawcos_right_A, lawcos_right_B] at h
    rw [show jsSub2 (jsSub2 (some Real.pi) (some (Real.pi / 2))) (some (Real.pi / 4)) =
      some (Real.pi - Real.pi / 2 - Real.pi / 4) from rfl] at h
    rw [if_neg hnf] at h
    exact ⟨_, h.symm, rfl, by simp⟩
  obtain ⟨res, h1, h2, h3⟩ := key _ rfl
  exact ⟨res, h1, h2, h3⟩

theorem lawcos_collinear_A :
    lawCosAngle (some 2) (some 1) (some 1) = some 0 := by
  unfold lawCosAngle
  dsimp only
  rw [if_neg (by norm_num : ¬((2 : ℝ) * 1 = 0))]
  rw [show ((2 : ℝ) ^ 2 + 1 ^ 2 - 1 ^ 2) / (2 * 2 * 1) = 1 by norm_num]
  rw [jsAcos_in_range (by norm_num) le_rfl, Real.arccos_one]

theorem solvePoints_collinear :
    solvePoints (.arr [0, 0]) (.arr [1, 0]) (.arr [2, 0]) "deg" =
      .ok ⟨.arr [0, 0], .arr [1, 0], .arr [2, 0], "deg", [],
        some (.impossibleSides 1 2 1)⟩ := by
  have dab : distance (.arr [(0 : ℝ), 0]) (.arr [1, 0]) = .ok (some 1) := by
    rw [distance_arr, show ((0 : ℝ) - 1) ^ 2 + ((0 : ℝ) - 0) ^ 2 = 1 by norm_num,
      Real.sqrt_one]
  have dbc : distance (.arr [(1 : ℝ), 0]) (.arr [2, 0]) = .ok (some 1) := by
    rw [distance_arr, show ((1 : ℝ) - 2) ^ 2 + ((0 : ℝ) - 0) ^ 2 = 1 by norm_num,
      Real.sqrt_one]
  have dca : distance (.arr [(2 : ℝ), 0]) (.arr [0, 0]) = .ok (some 2) := by
    rw [distance_arr, show ((2 : ℝ) - 0) ^ 2 + ((0 : ℝ) - 0) ^ 2 = 2 ^ 2 by norm_num,
      Real.sqrt_sq (by norm_num)]
  unfold solvePoints
  rw [show checkCoordinate (JSPoint.arr [(0 : ℝ), 0]) = .ok true from rfl,
    show checkCoordinate (JSPoint.arr [(1 : ℝ), 0]) = .ok true from rfl,
    show checkCoordinate (JSPoint.arr [(2 : ℝ), 0]) = .ok true from rfl]
  dsimp only
  rw [dab, dbc, dca]
  dsimp only
  rw [if_neg (by intro hcon; exact absurd (Option.some.inj hcon) (by norm_num))]
  rw [if_neg (by intro hcon; exact absurd (Option.some.inj hcon) (by norm_num))]
  rw [if_neg (by intro hcon; exact absurd (Option.some.inj hcon) (by norm_num))]
  rw [if_neg (show ¬¬("deg" = "deg" ∨ "deg" = "rad") by decide)]
  rw [lawcos_collinear_A]
  rw [if_pos (show isFalsy (some (0 : ℝ)) ∨
    isFalsy (lawCosAngle (some 1) (some 1) (some 2)) ∨
    isFalsy (jsSub2 (jsSub2 (some Real.pi) (some 0)) (lawCosAngle (some 1) (some 1) (some 2)))
    from Or.inl (Or.inr rfl))]
  rfl

/-! ## The claims -/

/-- C1: for a `solve` input classified as the SSA (resp. ASS) ambiguous case, with
`s1 = rd w (fa+3)` the known side adjacent to the known angle, `s2` the other known
side and `D = s2/s1 * sin θ`: `D > 1` gives the `No solution` error; `D ≤ 1` and
`s2 ≤ s1` gives exactly one solution with unknown angle `π/2` (when `D = 1`) or
`asin D` — provided the remaining angle `π - θ - U` is positive, and the
`No solution` error otherwise; `D ≤ 1` and `s1 < s2` gives exactly two solutions,
acute (`asin D`) first and obtuse (`π - asin D`) second — provided `θ < π/2`, and
the `No solution` error otherwise (in that case both candidates fail validation).
This amends the original claim, which omitted the two validation provisos. -/
theorem claim_C1 :
    (∀ (a b c alpha beta gamma : Option ℝ) (mode : String) (w : Fin 6 → ℝ)
      (st0 : SolveState) (fa : ℤ),
      ReachesSSA a b c alpha beta gamma mode →
      w = valArrayOf a b c alpha beta gamma (convIn mode) →
      st0 = ⟨a, b, c, alpha, beta, gamma, mode, [], none⟩ →
      fa = firstAngleIdx (presOf a b c alpha beta gamma) →
      solve a b c alpha beta gamma mode = solveSSA w st0 3 fa ∧
      (1 < rd w (fa + 5) / rd w (fa + 3) * Real.sin (rd w fa) →
        solveSSA w st0 3 fa = { st0 with error := some .noSolution }) ∧
      (¬ 1 < rd w (fa + 5) / rd w (fa + 3) * Real.sin (rd w fa) →
        rd w (fa + 5) ≤ rd w (fa + 3) →
        (0 < Real.pi - rd w fa -
            (if rd w (fa + 5) / rd w (fa + 3) * Real.sin (rd w fa) = 1 then Real.pi / 2
              else Real.arcsin (rd w (fa + 5) / rd w (fa + 3) * Real.sin (rd w fa))) →
          ∃ w3, GoodW w3 ∧
            rd w3 (fa + 2) =
              (if rd w (fa + 5) / rd w (fa + 3) * Real.sin (rd w fa) = 1 then Real.pi / 2
                else Real.arcsin (rd w (fa + 5) / rd w (fa + 3) * Real.sin (rd w fa))) ∧
            solveSSA w st0 3 fa =
              { st0 with solutions := st0.solutions ++ [mkSolution w3 (convOut st0.mode)] }) ∧
        (Real.pi - rd w fa -
            (if rd w (fa + 5) / rd w (fa + 3) * Real.sin (rd w fa) = 1 then Real.pi / 2
              else Real.arcsin (rd w (fa + 5) / rd w (fa + 3) * Real.sin (rd w fa))) ≤ 0 →
          solveSSA w st0 3 fa = { st0 with error := some .noSolution })) ∧
      (¬ 1 < rd w (fa + 5) / rd w (fa + 3) * Real.sin (rd w fa) →
        rd w (fa + 3) < rd w (fa + 5) →
        (rd w fa < Real.pi / 2 →
          ∃ w3 v3, GoodW w3 ∧ GoodW v3 ∧
            rd w3 (fa + 2) = Real.arcsin (rd w (fa + 5) / rd w (fa + 3) * Real.sin (rd w fa)) ∧
            rd v3 (fa + 2) =
              Real.pi - Real.arcsin (rd w (fa + 5) / rd w (fa + 3) * Real.sin (rd w fa)) ∧
            solveSSA w st0 3 fa =
              { st0 with solutions := st0.solutions ++
                [mkSolution w3 (convOut st0.mode), mkSolution v3 (convOut st0.mode)] }) ∧
        (Real.pi / 2 ≤ rd w fa →
          solveSSA w st0 3 fa = { st0 with error := some .noSolution }))) ∧
    (∀ (a b c alpha beta gamma : Option ℝ) (mode : String) (w : Fin 6 → ℝ)
      (st0 : SolveState) (fa : ℤ),
      ReachesASS a b c alpha beta gamma mode →
      w = valArrayOf a b c alpha beta gamma (convIn mode) →
      st0 = ⟨a, b, c, alpha, beta, gamma, mode, [], none⟩ →
      fa = firstAngleIdx (presOf a b c alpha beta gamma) →
      solve a b c alpha beta gamma mode = solveASS w st0 3 fa ∧
      (1 < rd w (fa + 1) / rd w (fa + 3) * Real.sin (rd w fa) →
        solveASS w st0 3 fa = { st0 with error := some .noSolution }) ∧
      (¬ 1 < rd w (fa + 1) / rd w (fa + 3) * Real.sin (rd w fa) →
        rd w (fa + 1) ≤ rd w (fa + 3) →
        (0 < Real.pi - rd w fa -
            (if rd w (fa + 1) / rd w (fa + 3) * Real.sin (rd w fa) = 1 then Real.pi / 2
              else Real.arcsin (rd w (fa + 1) / rd w (fa + 3) * Real.sin (rd w fa))) →
          ∃ w3, GoodW w3 ∧
            rd w3 (fa + 4) =
              (if rd w (fa + 1) / rd w (fa + 3) * Real.sin (rd w fa) = 1 then Real.pi / 2
                else Real.arcsin (rd w (fa + 1) / rd w (fa + 3) * Real.sin (rd w fa))) ∧
            solveASS w st0 3 fa =
              { st0 with solutions := st0.solutions ++ [mkSolution w3 (convOut st0.mode)] }) ∧
        (Real.pi - rd w fa -
            (if rd w (fa + 1) / rd w (fa + 3) * Real.sin (rd w fa) = 1 then Real.pi / 2
              else Real.arcsin (rd w (fa + 1) / rd w (fa + 3) * Real.sin (rd w fa))) ≤ 0 →
          solveASS w st0 3 fa = { st0 with error := some .noSolution })) ∧
      (¬ 1 < rd w (fa + 1) / rd w (fa + 3) * Real.sin (rd w fa) →
        rd w (fa + 3) < rd w (fa + 1) →
        (rd w fa < Real.pi / 2 →
          ∃ w3 v3, GoodW w3 ∧ GoodW v3 ∧
            rd w3 (fa + 4) = Real.arcsin (rd w (fa + 1) / rd w (fa + 3) * Real.sin (rd w fa)) ∧
            rd v3 (fa + 4) =
              Real.pi - Real.arcsin (rd w (fa + 1) / rd w (fa + 3) * Real.sin (rd w fa)) ∧
            solveASS w st0 3 fa =
              { st0 with solutions := st0.solutions ++
                [mkSolution w3 (convOut st0.mode), mkSolution v3 (convOut st0.mode)] }) ∧
        (Real.pi / 2 ≤ rd w fa →
          solveASS w st0 3 fa = { st0 with error := some .noSolution }))) := by
  constructor
  · intro a b c alpha beta gamma mode w st0 fa h hw hst hfa
    subst hw
    subst hst
    subst hfa
    obtain ⟨heq, hpceq, hfa3, hθ1, hθ2, hs1, hs2⟩ := solve_reaches_ssa _ _ _ _ _ _ _ h
    rw [hpceq] at heq
    have hcs := solveSSA_cases (valArrayOf a b c alpha beta gamma (convIn mode))
      ⟨a, b, c, alpha, beta, gamma, mode, [], none⟩ 3 hfa3 hθ1 hθ2 hs1 hs2 (by omega)
    exact ⟨heq, hcs.1, hcs.2.1, hcs.2.2⟩
  · intro a b c alpha beta gamma mode w st0 fa h hw hst hfa
    subst hw
    subst hst
    subst hfa
    obtain ⟨heq, hpceq, hfa3, hθ1, hθ2, hs1, hs2⟩ := solve_reaches_ass _ _ _ _ _ _ _ h
    rw [hpceq] at heq
    have hcs := solveASS_cases (valArrayOf a b c alpha beta gamma (convIn mode))
      ⟨a, b, c, alpha, beta, gamma, mode, [], none⟩ 3 hfa3 hθ1 hθ2 hs1 hs2 (by omega)
    exact ⟨heq, hcs.1, hcs.2.1, hcs.2.2⟩

/-- Witness for C1: the ambiguous input `{a = 7, b = 10, alpha = π/6}` (radian
mode), with `s1 = 7 < 10 = s2` and `D = 5/7 ≤ 1` and `θ < π/2`, really produces
two genuine-triangle solutions from `solve`, in acute-then-obtuse order. -/
theorem claim_C1_witness :
    ∃ w3 v3, GoodW w3 ∧ GoodW v3 ∧
      (solve (some 7) (some 10) none (some (Real.pi / 6)) none none "rad").solutions =
        [mkSolution w3 1, mkSolution v3 1] ∧
      (solve (some 7) (some 10) none (some (Real.pi / 6)) none none "rad").error = none := by
  obtain ⟨w3, v3, h1, h2, he⟩ := solve_ssa_two_solutions
  exact ⟨w3, v3, h1, h2, by rw [he], by rw [he]⟩

/-- Counterexample to the original C1: the input `{a = 1, b = 1, alpha = π/2}`
(radian mode) is classified SSA with `s1 = s2 = 1` and `D = sin(π/2) = 1 ≤ 1`, so
the original claim promises exactly one solution with unknown angle `π/2`; the
code instead rejects the candidate (remaining angle `π - π/2 - π/2 = 0`) and
returns zero solutions with the `No solution` error. -/
theorem claim_C1_counterexample :
    ReachesSSA (some 1) (some 1) none (some (Real.pi / 2)) none none "rad" ∧
    (solve (some 1) (some 1) none (some (Real.pi / 2)) none none "rad").solutions = [] ∧
    (solve (some 1) (some 1) none (some (Real.pi / 2)) none none "rad").error =
      some SolveError.noSolution := by
  refine ⟨reaches_ssa_ab_alpha 1 1 (Real.pi / 2) one_pos one_pos (by positivity)
    (by linarith [Real.pi_pos]), ?_, ?_⟩
  · rw [solve_ssa_right_angle]
  · rw [solve_ssa_right_angle]

/-- C2: a `solve` result never carries both a set error and a non-empty solution
list — whenever the error field is populated the solutions array is empty. -/
theorem claim_C2 (a b c alpha beta gamma : Option ℝ) (mode : String) :
    (solve a b c alpha beta gamma mode).error = none ∨
      (solve a b c alpha beta gamma mode).solutions = [] := by
  rcases solve_master a b c alpha beta gamma mode with ⟨e, _, hsol⟩ | ⟨he, _, _, _⟩
  · exact Or.inr hsol
  · exact Or.inl he

/-- C3: when more than 3 quantities were supplied and some supplied (nonzero)
quantity differs from the value recomputed from the solved six-tuple by more than
`0.001` (in input units), the validation step emits no solution and sets an
`InputConflict` error naming a conflicting property with its supplied and
calculated values; in particular `solve {a 1, b 1, c 1, alpha 10, deg}` yields no
solutions and the error `InputConflict alpha 10 60`. -/
theorem claim_C3 :
    (∀ (w : Fin 6 → ℝ) (st : SolveState) (pc : ℕ), 3 < pc →
      ((∃ x, st.a = some x ∧ x ≠ 0 ∧ ¬ equalFloat x (w 0) 0.001) ∨
        (∃ x, st.gamma = some x ∧ x ≠ 0 ∧ ¬ equalFloat x (convOut st.mode * w 1) 0.001) ∨
        (∃ x, st.b = some x ∧ x ≠ 0 ∧ ¬ equalFloat x (w 2) 0.001) ∨
        (∃ x, st.alpha = some x ∧ x ≠ 0 ∧ ¬ equalFloat x (convOut st.mode * w 3) 0.001) ∨
        (∃ x, st.c = some x ∧ x ≠ 0 ∧ ¬ equalFloat x (w 4) 0.001) ∨
        (∃ x, st.beta = some x ∧ x ≠ 0 ∧ ¬ equalFloat x (convOut st.mode * w 5) 0.001)) →
      ∃ name x calcv, x ≠ 0 ∧ ¬ equalFloat x calcv 0.001 ∧
        addSolutionToResult w st pc =
          { st with error := some (.inputConflict name x calcv) }) ∧
    ((solve (some 1) (some 1) (some 1) (some 10) none none "deg").solutions = [] ∧
      (solve (some 1) (some 1) (some 1) (some 10) none none "deg").error =
        some (.inputConflict "alpha" 10 60)) := by
  constructor
  · intro w st pc hpc hconf
    obtain ⟨name, x, calcv, hx0, hne, hfc⟩ := firstConflict_fires hconf
    exact ⟨name, x, calcv, hx0, hne, addSolution_conflict hpc hfc⟩
  · exact ⟨by rw [solve_conflict_example], by rw [solve_conflict_example]⟩

/-- C4: feeding a full solution emitted by `solve` in radian mode back into
`solve` in radian mode reproduces exactly that solution (well within the `0.001`
tolerance) and raises no error, in particular no `InputConflict`.  This amends
the original claim: a solution emitted in degree mode cannot be fed back in
radian mode — its angle values (e.g. `60`) are rejected by the input validation
as illegal radian angles (see the counterexample). -/
theorem claim_C4 (a b c alpha beta gamma : Option ℝ) (s : Solution)
    (hs : s ∈ (solve a b c alpha beta gamma "rad").solutions) :
    (solve (some s.a) (some s.b) (some s.c) (some s.alpha) (some s.beta) (some s.gamma)
      "rad").solutions = [s] ∧
    (solve (some s.a) (some s.b) (some s.c) (some s.alpha) (some s.beta) (some s.gamma)
      "rad").error = none := by
  rcases solve_master a b c alpha beta gamma "rad" with ⟨e, _, hsol⟩ | ⟨_, _, _, hall⟩
  · rw [hsol] at hs
    exact absurd hs (List.not_mem_nil s)
  · obtain ⟨w, hg, hsw⟩ := hall s hs
    rw [convOut_rad] at hsw
    have ha' : s.a = w 0 := by rw [hsw]; rfl
    have hb' : s.b = w 2 := by rw [hsw]; rfl
    have hc' : s.c = w 4 := by rw [hsw]; rfl
    have hal' : s.alpha = w 3 := by
      rw [hsw]
      exact one_mul (w 3)
    have hbe' : s.beta = w 5 := by
      rw [hsw]
      exact one_mul (w 5)
    have hga' : s.gamma = w 1 := by
      rw [hsw]
      exact one_mul (w 1)
    rw [ha', hb', hc', hal', hbe', hga', solve_feedback_rad hg]
    exact ⟨by rw [hsw], rfl⟩

/-- Witness for C4: the solution of `solve {a 1, b 1, c 1}` in radian mode, fed
back with all six of its values, is reproduced exactly with no error. -/
theorem claim_C4_witness :
    ∃ s, s ∈ (solve (some 1) (some 1) (some 1) none none none "rad").solutions ∧
      (solve (some s.a) (some s.b) (some s.c) (some s.alpha) (some s.beta) (some s.gamma)
        "rad").solutions = [s] ∧
      (solve (some s.a) (some s.b) (some s.c) (some s.alpha) (some s.beta) (some s.gamma)
        "rad").error = none := by
  have hmem : mkSolution (mkW 1 (Real.pi / 3) 1 (Real.pi / 3) 1 (Real.pi / 3))
      (convOut "rad") ∈ (solve (some 1) (some 1) (some 1) none none none "rad").solutions := by
    rw [solve_111 "rad" (Or.inr rfl)]
    exact List.mem_singleton_self _
  have h := claim_C4 (some 1) (some 1) (some 1) none none none _ hmem
  exact ⟨_, hmem, h.1, h.2⟩

/-- Counterexample to the original C4: `solve {a 1, b 1, c 1}` in degree mode
emits the full valid solution `(1, 1, 1, 60, 60, 60)`; feeding those six values
back into `solve` in radian mode does not reproduce it — the input validation
rejects `gamma = 60` as an illegal radian angle and returns zero solutions. -/
theorem claim_C4_counterexample :
    ∃ s, (solve (some 1) (some 1) (some 1) none none none "deg").solutions = [s] ∧
      s.a = 1 ∧ s.b = 1 ∧ s.c = 1 ∧ s.alpha = 60 ∧ s.beta = 60 ∧ s.gamma = 60 ∧
      (solve (some s.a) (some s.b) (some s.c) (some s.alpha) (some s.beta) (some s.gamma)
        "rad").solutions = [] ∧
      (solve (some s.a) (some s.b) (some s.c) (some s.alpha) (some s.beta) (some s.gamma)
        "rad").error = some (.illegalValue "gamma") := by
  have hpi := Real.pi_pos
  have h60 : convOut "deg" * (Real.pi / 3) = 60 := by
    rw [convOut_deg]
    field_simp
    ring
  refine ⟨mkSolution (mkW 1 (Real.pi / 3) 1 (Real.pi / 3) 1 (Real.pi / 3)) (convOut "deg"),
    by rw [solve_111 "deg" (Or.inl rfl)], rfl, rfl, rfl, h60, h60, h60, ?_, ?_⟩
  · rw [show (mkSolution (mkW 1 (Real.pi / 3) 1 (Real.pi / 3) 1 (Real.pi / 3))
      (convOut "deg")).a = (1 : ℝ) from rfl,
      show (mkSolution (mkW 1 (Real.pi / 3) 1 (Real.pi / 3) 1 (Real.pi / 3))
        (convOut "deg")).b = (1 : ℝ) from rfl,
      show (mkSolution (mkW 1 (Real.pi / 3) 1 (Real.pi / 3) 1 (Real.pi / 3))
        (convOut "deg")).c = (1 : ℝ) from rfl,
      show (mkSolution (mkW 1 (Real.pi / 3) 1 (Real.pi / 3) 1 (Real.pi / 3))
        (convOut "deg")).alpha = convOut "deg" * (Real.pi / 3) from rfl,
      show (mkSolution (mkW 1 (Real.pi / 3) 1 (Real.pi / 3) 1 (Real.pi / 3))
        (convOut "deg")).beta = convOut "deg" * (Real.pi / 3) from rfl,
      show (mkSolution (mkW 1 (Real.pi / 3) 1 (Real.pi / 3) 1 (Real.pi / 3))
        (convOut "deg")).gamma = convOut "deg" * (Real.pi / 3) from rfl,
      h60, solve_gamma60_illegal]
  · rw [show (mkSolution (mkW 1 (Real.pi / 3) 1 (Real.pi / 3) 1 (Real.pi / 3))
      (convOut "deg")).a = (1 : ℝ) from rfl,
      show (mkSolution (mkW 1 (Real.pi / 3) 1 (Real.pi / 3) 1 (Real.pi / 3))
        (convOut "deg")).b = (1 : ℝ) from rfl,
      show (mkSolution (mkW 1 (Real.pi / 3) 1 (Real.pi / 3) 1 (Real.pi / 3))
        (convOut "deg")).c = (1 : ℝ) from rfl,
      show (mkSolution (mkW 1 (Real.pi / 3) 1 (Real.pi / 3) 1 (Real.pi / 3))
        (convOut "deg")).alpha = convOut "deg" * (Real.pi / 3) from rfl,
      show (mkSolution (mkW 1 (Real.pi / 3) 1 (Real.pi / 3) 1 (Real.pi / 3))
        (convOut "deg")).beta = convOut "deg" * (Real.pi / 3) from rfl,
      show (mkSolution (mkW 1 (Real.pi / 3) 1 (Real.pi / 3) 1 (Real.pi / 3))
        (convOut "deg")).gamma = convOut "deg" * (Real.pi / 3) from rfl,
      h60, solve_gamma60_illegal]

/-- C5: every solution emitted by `solve` or by `solvePoints` has its three
angles summing to `180` (degree mode) or `π` (radian mode) within `0.001` — here
in fact exactly — and all three side lengths strictly positive. -/
theorem claim_C5 :
    (∀ (a b c alpha beta gamma : Option ℝ) (mode : String) (s : Solution),
      s ∈ (solve a b c alpha beta gamma mode).solutions →
      ((mode = "deg" ∧ equalFloat (s.alpha + s.beta + s.gamma) 180 0.001) ∨
        (mode = "rad" ∧ equalFloat (s.alpha + s.beta + s.gamma) Real.pi 0.001)) ∧
      0 < s.a ∧ 0 < s.b ∧ 0 < s.c) ∧
    (∀ (A B C : JSPoint) (mode : String) (res : PointsResult) (s : PointSolution),
      solvePoints A B C mode = .ok res → s ∈ res.solutions →
      ((mode = "deg" ∧ equalFloat (s.alpha + s.beta + s.gamma) 180 0.001) ∨
        (mode = "rad" ∧ equalFloat (s.alpha + s.beta + s.gamma) Real.pi 0.001)) ∧
      0 < s.a ∧ 0 < s.b ∧ 0 < s.c) := by
  have hpi0 := Real.pi_ne_zero
  have habs : ∀ x : ℝ, equalFloat x x 0.001 := by
    intro x
    rw [equalFloat, sub_self, abs_zero]
    norm_num
  constructor
  · intro a b c alpha beta gamma mode s hs
    rcases solve_master a b c alpha beta gamma mode with ⟨e, _, hsol⟩ | ⟨_, _, hmode, hall⟩
    · rw [hsol] at hs
      exact absurd hs (List.not_mem_nil s)
    · obtain ⟨w, hg, hsw⟩ := hall s hs
      obtain ⟨⟨⟨g1a, _⟩, ⟨g3a, _⟩, ⟨g5a, _⟩, g0, g2, g4⟩, hsum, _⟩ := hg
      have hal' : s.alpha = convOut mode * w 3 := by rw [hsw]; rfl
      have hbe' : s.beta = convOut mode * w 5 := by rw [hsw]; rfl
      have hga' : s.gamma = convOut mode * w 1 := by rw [hsw]; rfl
      have ha' : s.a = w 0 := by rw [hsw]; rfl
      have hb' : s.b = w 2 := by rw [hsw]; rfl
      have hc' : s.c = w 4 := by rw [hsw]; rfl
      refine ⟨?_, by rw [ha']; exact g0, by rw [hb']; exact g2, by rw [hc']; exact g4⟩
      rcases hmode with hd | hr
      · left
        refine ⟨hd, ?_⟩
        rw [hal', hbe', hga', hd, convOut_deg,
          show 180 / Real.pi * w 3 + 180 / Real.pi * w 5 + 180 / Real.pi * w 1 =
            180 / Real.pi * (w 1 + w 3 + w 5) by ring, hsum]
        rw [div_mul_cancel₀ 180 hpi0]
        exact habs 180
      · right
        refine ⟨hr, ?_⟩
        rw [hal', hbe', hga', hr, convOut_rad, one_mul, one_mul, one_mul,
          show w 3 + w 5 + w 1 = w 1 + w 3 + w 5 by ring, hsum]
        exact habs Real.pi
  · intro A B C mode res s h hs
    have hne : res.solutions ≠ [] := by
      intro hcon
      rw [hcon] at hs
      exact absurd hs (List.not_mem_nil s)
    obtain ⟨hmode, _, s', aA, aB, ab, bc, ca, hsols, _, _, _, habp, hbcp, hcap,
      hsa, hsb, hsc, hsal, hsbe, hsga, _⟩ := solvePoints_success h (Or.inr hne)
    rw [hsols] at hs
    have hss : s = s' := List.mem_singleton.1 hs
    subst hss
    refine ⟨?_, by rw [hsa]; exact hbcp, by rw [hsb]; exact hcap, by rw [hsc]; exact habp⟩
    rcases hmode with hd | hr
    · left
      refine ⟨hd, ?_⟩
      rw [hsal, hsbe, hsga, hd, convOut_deg,
        show 180 / Real.pi * aA + 180 / Real.pi * aB +
          180 / Real.pi * (Real.pi - aA - aB) = 180 / Real.pi * Real.pi by ring,
        div_mul_cancel₀ 180 hpi0]
      exact habs 180
    · right
      refine ⟨hr, ?_⟩
      rw [hsal, hsbe, hsga, hr, convOut_rad, one_mul, one_mul, one_mul,
        show aA + aB + (Real.pi - aA - aB) = Real.pi by ring]
      exact habs Real.pi

/-- C6: over IEEE semantics (`none` = NaN in a slot), a candidate six-tuple whose
slots are all real numbers is appended by the validity step exactly when every
angle slot lies strictly between `0` and `π` and every side slot is strictly
positive.  However — amending the original claim — a candidate containing a NaN
slot is NOT rejected: every JS comparison against NaN is false, so the two
rejection tests both fail and the NaN candidate is appended with no error (see
the counterexample). -/
theorem claim_C6 :
    (∀ (w : Fin 6 → Option ℝ) (sols : List (Fin 6 → Option ℝ)) (v : Fin 6 → ℝ),
      (∀ i, w i = some (v i)) →
      (addSolutionJS w sols = (sols ++ [w], none) ↔ ValidCand v)) ∧
    (∀ (w : Fin 6 → Option ℝ) (sols : List (Fin 6 → Option ℝ)),
      w 1 = none →
      (∃ x, w 3 = some x ∧ 0 < x ∧ x < Real.pi) →
      (∃ x, w 5 = some x ∧ 0 < x ∧ x < Real.pi) →
      (∃ x, w 0 = some x ∧ 0 < x) →
      (∃ x, w 2 = some x ∧ 0 < x) →
      (∃ x, w 4 = some x ∧ 0 < x) →
      addSolutionJS w sols = (sols ++ [w], none)) := by
  constructor
  · intro w sols v hv
    unfold addSolutionJS
    rw [hv 0, hv 1, hv 2, hv 3, hv 4, hv 5]
    constructor
    · intro happ
      by_cases h1 : jsLe (some (v 1)) (some 0) ∨ jsLe (some Real.pi) (some (v 1)) ∨
          jsLe (some (v 3)) (some 0) ∨ jsLe (some Real.pi) (some (v 3)) ∨
          jsLe (some (v 5)) (some 0) ∨ jsLe (some Real.pi) (some (v 5))
      · rw [if_pos h1] at happ
        exact absurd (congrArg Prod.snd happ) (by simp)
      · rw [if_neg h1] at happ
        by_cases h2 : jsLe (some (v 0)) (some 0) ∨ jsLe (some (v 2)) (some 0) ∨
            jsLe (some (v 4)) (some 0)
        · rw [if_pos h2] at happ
          exact absurd (congrArg Prod.snd happ) (by simp)
        · have h1' : ¬(v 1 ≤ 0 ∨ Real.pi ≤ v 1 ∨ v 3 ≤ 0 ∨ Real.pi ≤ v 3 ∨ v 5 ≤ 0 ∨
              Real.pi ≤ v 5) := h1
          have h2' : ¬(v 0 ≤ 0 ∨ v 2 ≤ 0 ∨ v 4 ≤ 0) := h2
          push_neg at h1' h2'
          exact ⟨⟨h1'.1, h1'.2.1⟩, ⟨h1'.2.2.1, h1'.2.2.2.1⟩,
            ⟨h1'.2.2.2.2.1, h1'.2.2.2.2.2⟩, h2'.1, h2'.2.1, h2'.2.2⟩
    · intro hvc
      obtain ⟨⟨a1, b1⟩, ⟨a3, b3⟩, ⟨a5, b5⟩, c0, c2, c4⟩ := hvc
      rw [if_neg (show ¬(jsLe (some (v 1)) (some 0) ∨ jsLe (some Real.pi) (some (v 1)) ∨
          jsLe (some (v 3)) (some 0) ∨ jsLe (some Real.pi) (some (v 3)) ∨
          jsLe (some (v 5)) (some 0) ∨ jsLe (some Real.pi) (some (v 5))) by
        intro hcon
        have hcon' : v 1 ≤ 0 ∨ Real.pi ≤ v 1 ∨ v 3 ≤ 0 ∨ Real.pi ≤ v 3 ∨ v 5 ≤ 0 ∨
            Real.pi ≤ v 5 := hcon
        rcases hcon' with h | h | h | h | h | h <;> linarith)]
      rw [if_neg (show ¬(jsLe (some (v 0)) (some 0) ∨ jsLe (some (v 2)) (some 0) ∨
          jsLe (some (v 4)) (some 0)) by
        intro hcon
        have hcon' : v 0 ≤ 0 ∨ v 2 ≤ 0 ∨ v 4 ≤ 0 := hcon
        rcases hcon' with h | h | h <;> linarith)]
  · intro w sols h1n h3e h5e h0e h2e h4e
    obtain ⟨x3, h3, h3a, h3b⟩ := h3e
    obtain ⟨x5, h5, h5a, h5b⟩ := h5e
    obtain ⟨x0, h0, h0p⟩ := h0e
    obtain ⟨x2, h2, h2p⟩ := h2e
    obtain ⟨x4, h4, h4p⟩ := h4e
    unfold addSolutionJS
    rw [h1n, h3, h5, h0, h2, h4]
    rw [if_neg (show ¬(jsLe none (some 0) ∨ jsLe (some Real.pi) none ∨
        jsLe (some x3) (some 0) ∨ jsLe (some Real.pi) (some x3) ∨
        jsLe (some x5) (some 0) ∨ jsLe (some Real.pi) (some x5)) by
      rintro (h | h | h | h | h | h)
      · exact h
      · exact h
      · exact absurd (h : x3 ≤ 0) (not_le.2 h3a)
      · exact absurd (h : Real.pi ≤ x3) (not_le.2 h3b)
      · exact absurd (h : x5 ≤ 0) (not_le.2 h5a)
      · exact absurd (h : Real.pi ≤ x5) (not_le.2 h5b))]
    rw [if_neg (show ¬(jsLe (some x0) (some 0) ∨ jsLe (some x2) (some 0) ∨
        jsLe (some x4) (some 0)) by
      rintro (h | h | h)
      · exact absurd (h : x0 ≤ 0) (not_le.2 h0p)
      · exact absurd (h : x2 ≤ 0) (not_le.2 h2p)
      · exact absurd (h : x4 ≤ 0) (not_le.2 h4p))]

/-- Counterexample to the original C6: the all-NaN candidate (e.g. what an `acos`
of an out-of-range ratio propagates) fails every IEEE comparison of the two
rejection tests, so the validity step appends it as a solution with no error,
instead of rejecting it with `Unsolvable: No solution`. -/
theorem claim_C6_counterexample :
    addSolutionJS (fun _ => none) [] = ([fun _ => none], none) ∧
    (fun _ : Fin 6 => (none : Option ℝ)) 1 = none := by
  refine ⟨?_, rfl⟩
  unfold addSolutionJS
  rw [if_neg (show ¬(jsLe ((fun _ : Fin 6 => (none : Option ℝ)) 1) (some 0) ∨
      jsLe (some Real.pi) ((fun _ : Fin 6 => (none : Option ℝ)) 1) ∨
      jsLe ((fun _ : Fin 6 => (none : Option ℝ)) 3) (some 0) ∨
      jsLe (some Real.pi) ((fun _ : Fin 6 => (none : Option ℝ)) 3) ∨
      jsLe ((fun _ : Fin 6 => (none : Option ℝ)) 5) (some 0) ∨
      jsLe (some Real.pi) ((fun _ : Fin 6 => (none : Option ℝ)) 5)) by
    rintro (h | h | h | h | h | h) <;> exact h)]
  rw [if_neg (show ¬(jsLe ((fun _ : Fin 6 => (none : Option ℝ)) 0) (some 0) ∨
      jsLe ((fun _ : Fin 6 => (none : Option ℝ)) 2) (some 0) ∨
      jsLe ((fun _ : Fin 6 => (none : Option ℝ)) 4) (some 0)) by
    rintro (h | h | h) <;> exact h)]
  rw [List.nil_append]

/-- C7: a pure-sides (SSS) `solve` input whose positive lengths violate the
triangle inequality (including degenerately) yields zero solutions and the
`Impossible combination of side lengths` error listing the three sides. -/
theorem claim_C7 (a b c : ℝ) (mode : String) (hmode : mode = "deg" ∨ mode = "rad")
    (ha : 0 < a) (hb : 0 < b) (hc : 0 < c)
    (hviol : ¬(a < b + c ∧ b < a + c ∧ c < a + b)) :
    (solve (some a) (some b) (some c) none none none mode).solutions = [] ∧
    (solve (some a) (some b) (some c) none none none mode).error =
      some (.impossibleSides a b c) := by
  have hv : b + c ≤ a ∨ a + c ≤ b ∨ a + b ≤ c := by
    by_contra hcon
    push_neg at hcon
    exact hviol ⟨by linarith [hcon.1], by linarith [hcon.2.1], by linarith [hcon.2.2]⟩
  rw [solve_sides_only a b c mode hmode ha hb hc,
    solveSSS_violation a b c _ _ _ ha hb hc hv]
  exact ⟨rfl, rfl⟩

/-- Witness for C7: `solve {a 1, b 2, c 10}` (degree mode) fails with the
`Impossible combination of side lengths 1, 2, 10` error and no solutions. -/
theorem claim_C7_witness :
    (solve (some 1) (some 2) (some 10) none none none "deg").solutions = [] ∧
    (solve (some 1) (some 2) (some 10) none none none "deg").error =
      some (.impossibleSides 1 2 10) :=
  claim_C7 1 2 10 "deg" (Or.inl rfl) (by norm_num) (by norm_num) (by norm_num)
    (by norm_num)

/-- C8: contrary to the never-throw contract, a `null` point argument makes
`solvePoints` and `distance` throw a `TypeError` across the interface
(`typeof null === "object"` passes the object guard and `Object.hasOwn(null, _)`
throws), modelled as `Except.error ()`; `pointToArray` likewise throws. -/
theorem claim_C8 :
    solvePoints JSPoint.null (.arr [0, 0]) (.arr [1, 1]) "deg" = .error () ∧
    distance JSPoint.null (.arr [0, 0]) = .error () ∧
    pointToArray JSPoint.null = .error () :=
  ⟨rfl, rfl, rfl⟩

/-- C9: whenever the coordinate solver returns without error it produces exactly
one solution, whose side `a` is `distance(B, C)`, side `b` is `distance(C, A)`,
side `c` is `distance(A, B)`, whose angles sum to `180` (degree mode) or `π`
(radian mode) within `0.001`, and whose centroid is the arithmetic mean of the
three vertex coordinates.  This amends the original claim: pairwise-distinct
valid points alone do not guarantee a solution — collinear points yield zero
solutions and an error (see the counterexample). -/
theorem claim_C9 (A B C : JSPoint) (mode : String) (res : PointsResult)
    (h : solvePoints A B C mode = .ok res) (herr : res.error = none) :
    ∃ s, res.solutions = [s] ∧
      distance B C = .ok (some s.a) ∧ distance C A = .ok (some s.b) ∧
      distance A B = .ok (some s.c) ∧
      ((mode = "deg" ∧ equalFloat (s.alpha + s.beta + s.gamma) 180 0.001) ∨
        (mode = "rad" ∧ equalFloat (s.alpha + s.beta + s.gamma) Real.pi 0.001)) ∧
      s.centroid = (((ptList A).getD 0 0 + (ptList B).getD 0 0 + (ptList C).getD 0 0) / 3,
        ((ptList A).getD 1 0 + (ptList B).getD 1 0 + (ptList C).getD 1 0) / 3) := by
  have hpi0 := Real.pi_ne_zero
  have habs : ∀ x : ℝ, equalFloat x x 0.001 := by
    intro x
    rw [equalFloat, sub_self, abs_zero]
    norm_num
  obtain ⟨hmode, _, s, aA, aB, ab, bc, ca, hsols, habd, hbcd, hcad, _, _, _,
    hsa, hsb, hsc, hsal, hsbe, hsga, hcent⟩ := solvePoints_success h (Or.inl herr)
  refine ⟨s, hsols, by rw [hsa]; exact hbcd, by rw [hsb]; exact hcad,
    by rw [hsc]; exact habd, ?_, by rw [hcent, bary_centroid]⟩
  rcases hmode with hd | hr
  · left
    refine ⟨hd, ?_⟩
    rw [hsal, hsbe, hsga, hd, convOut_deg,
      show 180 / Real.pi * aA + 180 / Real.pi * aB +
        180 / Real.pi * (Real.pi - aA - aB) = 180 / Real.pi * Real.pi by ring,
      div_mul_cancel₀ 180 hpi0]
    exact habs 180
  · right
    refine ⟨hr, ?_⟩
    rw [hsal, hsbe, hsga, hr, convOut_rad, one_mul, one_mul, one_mul,
      show aA + aB + (Real.pi - aA - aB) = Real.pi by ring]
    exact habs Real.pi

/-- Witness for C9: the right triangle `(0,0), (1,0), (0,1)` in radian mode
succeeds with exactly one solution whose sides match the pairwise distances,
whose angles sum to `π`, and whose centroid is `(1/3, 1/3)`. -/
theorem claim_C9_witness :
    ∃ res s, solvePoints (.arr [0, 0]) (.arr [1, 0]) (.arr [0, 1]) "rad" = .ok res ∧
      res.error = none ∧ res.solutions = [s] ∧
      distance (.arr [1, 0]) (.arr [0, 1]) = .ok (some s.a) ∧
      distance (.arr [0, 1]) (.arr [0, 0]) = .ok (some s.b) ∧
      distance (.arr [0, 0]) (.arr [1, 0]) = .ok (some s.c) ∧
      equalFloat (s.alpha + s.beta + s.gamma) Real.pi 0.001 ∧
      s.centroid = (1 / 3, 1 / 3) := by
  obtain ⟨res, hres, herr, _⟩ := solvePoints_right_triangle
  obtain ⟨s, hsols, h1, h2, h3, hsum, hcent⟩ := claim_C9 _ _ _ _ _ hres herr
  refine ⟨res, s, hres, herr, hsols, h1, h2, h3, ?_, ?_⟩
  · rcases hsum with ⟨hmode, _⟩ | ⟨_, hok⟩
    · exact absurd hmode (by decide)
    · exact hok
  · rw [hcent, Prod.mk.injEq]
    constructor
    · show ((0 : ℝ) + 1 + 0) / 3 = 1 / 3
      norm_num
    · show ((0 : ℝ) + 0 + 1) / 3 = 1 / 3
      norm_num

/-- Counterexample to the original C9: the pairwise-distinct valid points
`(0,0), (1,0), (2,0)` are collinear; `solvePoints` produces zero solutions and
the `Impossible combination of side lengths 1, 2, 1` error instead of the
promised single solution. -/
theorem claim_C9_counterexample :
    ∃ res, solvePoints (.arr [0, 0]) (.arr [1, 0]) (.arr [2, 0]) "deg" = .ok res ∧
      res.solutions = [] ∧ res.error = some (.impossibleSides 1 2 1) ∧
      distance (.arr [0, 0]) (.arr [1, 0]) = .ok (some 1) ∧
      distance (.arr [1, 0]) (.arr [2, 0]) = .ok (some 1) ∧
      distance (.arr [2, 0]) (.arr [0, 0]) = .ok (some 2) := by
  refine ⟨_, solvePoints_collinear, rfl, rfl, ?_, ?_, ?_⟩
  · rw [distance_arr, show ((0 : ℝ) - 1) ^ 2 + ((0 : ℝ) - 0) ^ 2 = 1 by norm_num,
      Real.sqrt_one]
  · rw [distance_arr, show ((1 : ℝ) - 2) ^ 2 + ((0 : ℝ) - 0) ^ 2 = 1 by norm_num,
      Real.sqrt_one]
  · rw [distance_arr, show ((2 : ℝ) - 0) ^ 2 + ((0 : ℝ) - 0) ^ 2 = 2 ^ 2 by norm_num,
      Real.sqrt_sq (by norm_num)]

/-- C10: `solve` never returns an envelope with both an empty solutions array and
no error — every run ends with at least one solution or a populated error. -/
theorem claim_C10 (a b c alpha beta gamma : Option ℝ) (mode : String) :
    (solve a b c alpha beta gamma mode).solutions ≠ [] ∨
      ∃ e, (solve a b c alpha beta gamma mode).error = some e := by
  rcases solve_master a b c alpha beta gamma mode with ⟨e, he, _⟩ | ⟨_, hne, _, _⟩
  · exact Or.inr ⟨e, he⟩
  · exact Or.inl hne
